import Mathlib

/-!
# go-shopify: the error classifier, the request executor, the pollers and the enum codecs

A shallow embedding of `findFirstError`, `toAddressError`, `CheckResponse` and the `Error()`
methods of `src/shopify/error.go`, of `Client.NewRequest` and `Client.Do` of
`src/shopify/shopify.go`, of `ListShippingRates`, `Payment` and `CheckoutRequest.MarshalJSON`
of `src/shopify/checkout.go` and of the text codecs of `BillingType`, `BillingStatus`,
`TransactionStatus` and `CollectionListSortOrder`, together with the properties the
specification states about them.

Conventions of the embedding.

* `JSON` is the set of values `encoding/json` stores in an `interface{}`: `nil`, `bool`,
  `float64`, `string`, `[]interface{}` and `map[string]interface{}`. A decoded array is never a
  nil slice and a decoded object is never a nil map, so `e != nil` after a comma-ok assertion
  holds exactly when the assertion succeeded.
* A Go map is an association list with pairwise distinct keys. The order of the list carries no
  meaning: every `range` over a map takes the order it visits the entries in from a `Traversal`,
  one permutation per `range` statement of the source.
* A run-time panic is the `error` side of `Except Panic _`.
* `fmt` renders a `float64` through the parameter `ff`; every other rendering is spelled out.
* The transport is a script of answers, one per request, and every request and every call of
  `time.Sleep` is recorded in the `World`. A poll loop takes fuel, one unit per iteration.
* `int` and `time.Duration` are 64-bit: products wrap around (`wrap64`).
* A pointer that the code writes through is modelled by returning the value it points to after
  the call (`CheckoutRequest.MarshalJSON`, the receivers of `UnmarshalText`).
-/

namespace Shopify

/-- Go `float64`, given by its IEEE-754 bit pattern. -/
structure Float64 where
  bits : Nat
deriving DecidableEq, Repr

/-- The dynamic values `encoding/json` produces when it decodes into `interface{}`. -/
inductive JSON where
  | null
  | bool (b : Bool)
  | num (x : Float64)
  | str (s : String)
  | arr (xs : List JSON)
  | obj (kvs : List (String × JSON))

/-- The entries of a `map[string]interface{}`. -/
abbrev Entries := List (String × JSON)

/-- Byte-wise order on strings (UTF-8 keeps the order of code points), as used by `sort.Strings`. -/
def keyLe : List Char → List Char → Bool
  | [], _ => true
  | _ :: _, [] => false
  | x :: xs, y :: ys => x.toNat < y.toNat || (x.toNat == y.toNat && keyLe xs ys)

/-- Insertion of one entry into a list of entries sorted by key. -/
def insertByKey {α : Type} (e : String × α) : List (String × α) → List (String × α)
  | [] => [e]
  | x :: xs => if keyLe e.1.data x.1.data then e :: x :: xs else x :: insertByKey e xs

/-- Entries in increasing key order: the order in which `fmt` prints a map and in which
`json.Marshal` writes one. -/
def sortByKey {α : Type} : List (String × α) → List (String × α)
  | [] => []
  | x :: xs => insertByKey x (sortByKey xs)

mutual
/-- The text `fmt` gives a decoded value under the verbs `%v` and `%+v`. -/
def fmtValue (ff : Float64 → String) : JSON → String
  | .null => "<nil>"
  | .bool b => if b then "true" else "false"
  | .num x => ff x
  | .str s => s
  | .arr xs => "[" ++ " ".intercalate (fmtList ff xs) ++ "]"
  | .obj kvs =>
    "map[" ++
      " ".intercalate ((sortByKey (fmtEntries ff kvs)).map (fun e => e.1 ++ ":" ++ e.2)) ++ "]"
/-- The renderings of the elements of a slice. -/
def fmtList (ff : Float64 → String) : List JSON → List String
  | [] => []
  | x :: xs => fmtValue ff x :: fmtList ff xs
/-- The renderings of the values of a map, each with its key. -/
def fmtEntries (ff : Float64 → String) : List (String × JSON) → List (String × String)
  | [] => []
  | (k, v) :: rest => (k, fmtValue ff v) :: fmtEntries ff rest
end

/-- The text `%v` gives `reflect.TypeOf(v)`. -/
def typeName : JSON → String
  | .null => "<nil>"
  | .bool _ => "bool"
  | .num _ => "float64"
  | .str _ => "string"
  | .arr _ => "[]interface {}"
  | .obj _ => "map[string]interface {}"

/-- The comma-ok assertion `x, _ := m[key].(string)`: the string, or `""` when the key is
missing or holds something else. -/
def stringOr : Option JSON → String
  | some (.str s) => s
  | _ => ""

/-! ## The error types -/

/-- One decoded issue of a line item. The struct also has `Options.Remaining`, which the decoder
fills and the classifier never reads; a mismatch there does not stop the decoding. -/
structure lineItemErrorValue where
  Message : String
  Code : String
deriving DecidableEq, Repr

/-- The Go type `map[string][]lineItemErrorValue`. -/
abbrev lineItemErrorField := List (String × List lineItemErrorValue)

structure LineItemError where
  Field : String
  Message : String
  Code : String
  Position : String
deriving DecidableEq, Repr

structure DiscountCodeError where
  Reason : JSON

structure AddressError where
  Key : String
  Field : String
  Code : String
  Message : String
deriving DecidableEq, Repr

structure EmailError where
  Message : String
deriving DecidableEq, Repr

structure ErrorResponse where
  Errors : JSON

/-- The run-time panics the classifier can raise. -/
inductive Panic where
  | indexOutOfRange
  | typeAssertion
  | nilDereference
deriving DecidableEq, Repr

/-- The dynamic value of the `error` interface returned by `findFirstError`. Each constructor is
one concrete type; `addressError none` is the interface holding a nil `*AddressError`. -/
inductive GoError where
  | errorResponse (r : ErrorResponse)
  | emailError (e : EmailError)
  | lineItemError (e : LineItemError)
  | discountCodeError (e : DiscountCodeError)
  | addressError (e : Option AddressError)
  | errorString (msg : String)

/-- The order each `range` over a map visits its entries in, one field per `range` statement:
`top` for the `errors` mapping, `lineItems` for the positions, `field` for the decoded fields of
a position, `checkout` for the keys under `checkout`, `reason` for an element of its
`discount_code` list, `address` for the fields of an address. -/
structure Traversal where
  top : Entries → Entries
  lineItems : Entries → Entries
  field : lineItemErrorField → lineItemErrorField
  checkout : Entries → Entries
  reason : Entries → Entries
  address : Entries → Entries

/-- A traversal visits every entry of the map exactly once. -/
def Traversal.Valid (tr : Traversal) : Prop :=
  (∀ l, (tr.top l).Perm l) ∧ (∀ l, (tr.lineItems l).Perm l) ∧ (∀ l, (tr.field l).Perm l) ∧
  (∀ l, (tr.checkout l).Perm l) ∧ (∀ l, (tr.reason l).Perm l) ∧ (∀ l, (tr.address l).Perm l)

/-- The traversal that visits the entries in the order they are listed. -/
def Traversal.listed : Traversal :=
  ⟨fun l => l, fun l => l, fun l => l, fun l => l, fun l => l, fun l => l⟩

/-- The traversal that visits the entries in the reverse of the order they are listed. -/
def Traversal.reversed : Traversal :=
  ⟨List.reverse, List.reverse, List.reverse, List.reverse, List.reverse, List.reverse⟩

/-- A float rendering for inputs that hold no number. -/
def noFloats : Float64 → String := fun _ => ""

/-! ## Decoding a position of `line_items`: `json.Marshal` followed by `json.Unmarshal` -/

/-- The case folding of `encoding/json` on one rune, as far as it can reach an ASCII letter:
lower-case ASCII goes to upper case, and the two non-ASCII runes whose fold orbit holds an ASCII
letter, U+017F (long s) and U+212A (Kelvin sign), go to `S` and `K`. -/
def foldRune (c : Char) : Char :=
  if 97 ≤ c.toNat ∧ c.toNat ≤ 122 then Char.ofNat (c.toNat - 32)
  else if c.toNat = 0x17F then 'S'
  else if c.toNat = 0x212A then 'K'
  else c

/-- The folded form of an object key. -/
def foldName (s : String) : List Char := s.data.map foldRune

/-- The decoder stores the value of `key` in the struct field tagged `name`: an exact match, or
else a match of the folded names. -/
def matchesField (name key : String) : Bool :=
  key == name || foldName key == foldName name

/-- One key of an issue object stored into the struct. A value of the wrong kind (and `null`)
leaves the field as it is and the decoding goes on. -/
def storeIssueField (acc : lineItemErrorValue) (e : String × JSON) : lineItemErrorValue :=
  if matchesField "message" e.1 then
    match e.2 with
    | .str s => { acc with Message := s }
    | _ => acc
  else if matchesField "code" e.1 then
    match e.2 with
    | .str s => { acc with Code := s }
    | _ => acc
  else acc

/-- One element of an issue list decoded into `lineItemErrorValue`. `json.Marshal` writes the keys
of the object in sorted order and the decoder stores them in that order, a later key overwriting
an earlier one that matched the same field; an element that is no object leaves the zero value. -/
def unmarshalValue : JSON → lineItemErrorValue
  | .obj kvs => (sortByKey kvs).foldl storeIssueField ⟨"", ""⟩
  | _ => ⟨"", ""⟩

/-- The value of one field decoded into `[]lineItemErrorValue`; anything but an array leaves the
nil slice. -/
def unmarshalSlice : JSON → List lineItemErrorValue
  | .arr xs => xs.map unmarshalValue
  | _ => []

/-- The statements `b, _ := json.Marshal(vvv); var e lineItemErrorField; json.Unmarshal(b, &e)`:
`none` is the nil map, left when `vvv` is not an object. -/
def unmarshalLineItemErrorField : JSON → Option lineItemErrorField
  | .obj kvs => some (kvs.map (fun e => (e.1, unmarshalSlice e.2)))
  | _ => none

/-! ## `Error()` and `Type()` -/

/-- The method `(*LineItemError).Type`. -/
def LineItemError.typeOf (_ : LineItemError) : String := "line_items"

/-- The method `(*LineItemError).Error`: `"%s at pos(%s): %s %s"`. -/
def LineItemError.Error (e : LineItemError) : String :=
  e.typeOf ++ " at pos(" ++ e.Position ++ "): " ++ e.Field ++ " " ++ e.Message

/-- The method `(*DiscountCodeError).Error`: `"%+v"` of the reason. -/
def DiscountCodeError.Error (ff : Float64 → String) (e : DiscountCodeError) : String :=
  fmtValue ff e.Reason

/-- The method `(*AddressError).Type`. -/
def AddressError.typeOf (e : AddressError) : String := e.Key

/-- The method `(*AddressError).Error`: `"%s: %s %s"`. -/
def AddressError.Error (e : AddressError) : String :=
  e.typeOf ++ ": " ++ e.Field ++ " " ++ e.Message

/-- The method `(*EmailError).Error`: `"email %s"`. -/
def EmailError.Error (e : EmailError) : String := "email " ++ e.Message

/-- The method `(*ErrorResponse).Error`; `ord` is the order of its own `range` over the map. -/
def ErrorResponse.Error (ff : Float64 → String) (ord : Entries → Entries) (r : ErrorResponse) :
    String :=
  match r.Errors with
  | .obj e =>
    match ord e with
    | (k, v) :: _ => k ++ ": " ++ fmtValue ff v
    | [] => "unknown, unparsed error"
  | .str e => e
  | _ => "unknown, unparsed error"

/-- The call `err.Error()` on the value returned by `findFirstError`. The methods of
`*AddressError` read the fields of their receiver, so a nil receiver panics. -/
def GoError.Error (ff : Float64 → String) (ord : Entries → Entries) :
    GoError → Except Panic String
  | .errorResponse r => .ok (r.Error ff ord)
  | .emailError e => .ok e.Error
  | .lineItemError e => .ok e.Error
  | .discountCodeError e => .ok (e.Error ff)
  | .addressError (some e) => .ok e.Error
  | .addressError none => .error .nilDereference
  | .errorString msg => .ok msg

/-! ## The classifier -/

/-- The function `toAddressError`: the first element of the list that is an object, or the nil
pointer when there is none. -/
def toAddressError (key field : String) : List JSON → Option AddressError
  | [] => none
  | .obj ex :: _ =>
    some { Key := key, Field := field, Code := stringOr (ex.lookup "code"),
           Message := stringOr (ex.lookup "message") }
  | _ :: rest => toAddressError key field rest

/-- The body of `for pos, vvv := range vv` under `line_items`, which returns in its first
iteration. `ev[0]` panics on an empty slice. -/
def lineItemError (tr : Traversal) (pos : String) (vvv : JSON) : Except Panic GoError :=
  match unmarshalLineItemErrorField vvv with
  | none => .ok (.lineItemError { Position := pos, Field := "", Message := "", Code := "" })
  | some e =>
    match tr.field e with
    | [] => .ok (.lineItemError { Position := pos, Field := "", Message := "", Code := "" })
    | (ek, ev) :: _ =>
      match ev with
      | [] => .error .indexOutOfRange
      | x :: _ =>
        .ok (.lineItemError { Position := pos, Field := ek, Message := x.Message, Code := x.Code })

/-- The loop `for _, ee := range e` under `checkout.discount_code`: the first value of the first
element that is a non-empty object. -/
def firstReason (tr : Traversal) : List JSON → Option JSON
  | [] => none
  | .obj ex :: rest =>
    match tr.reason ex with
    | (_, reason) :: _ => some reason
    | [] => firstReason tr rest
  | _ :: rest => firstReason tr rest

/-- The loop `for kk, vvv := range vv` under `checkout`, over the entries in visiting order;
`none` when the loop ends without returning. -/
def checkoutError (tr : Traversal) : Entries → Option GoError
  | [] => none
  | (kk, vvv) :: rest =>
    if kk = "discount_code" then
      match vvv with
      | .arr e =>
        match firstReason tr e with
        | some reason => some (.discountCodeError { Reason := reason })
        | none => checkoutError tr rest
      | _ => checkoutError tr rest
    else checkoutError tr rest

/-- The loop `for kk, vvv := range vv` under `shipping_address` and `billing_address`, over the
entries in visiting order: it returns at the first value that is an array. -/
def addressError (k : String) : Entries → Option GoError
  | [] => none
  | (kk, .arr e) :: _ => some (.addressError (toAddressError k kk e))
  | _ :: rest => addressError k rest

/-- The body of the loop `for k, v := range rr` of `findFirstError`: `some` is what the iteration
returns (or the panic it raises), `none` means the loop goes on to the next key. -/
def classifyEntry (ff : Float64 → String) (tr : Traversal) (k : String) (v : JSON) :
    Option (Except Panic GoError) :=
  if k = "email" then some (.ok (.emailError { Message := "is invalid" }))
  else
    match v with
    | .obj vv =>
      if k = "line_items" then
        match tr.lineItems vv with
        | [] => none
        | (pos, vvv) :: _ => some (lineItemError tr pos vvv)
      else if k = "checkout" then (checkoutError tr (tr.checkout vv)).map .ok
      else if k = "shipping_address" ∨ k = "billing_address" then
        (addressError k (tr.address vv)).map .ok
      else none
    | .arr vv =>
      if k = "discount_code" then
        match vv with
        | [] => none
        | .obj vvvv :: _ =>
          some (.ok (.discountCodeError { Reason := (vvvv.lookup "message").getD .null }))
        | _ :: _ => some (.error .typeAssertion)
      else none
    | _ =>
      some (.ok (.errorString
        ("unknown shopify error key " ++ k ++ ", " ++ fmtValue ff v ++ ", " ++ typeName v)))

/-- The loop `for k, v := range rr` of `findFirstError` over the entries in visiting order,
followed by the final `return r`. -/
def rangeErrors (ff : Float64 → String) (tr : Traversal) (r : ErrorResponse) :
    Entries → Except Panic GoError
  | [] => .ok (.errorResponse r)
  | (k, v) :: rest =>
    match classifyEntry ff tr k v with
    | some res => res
    | none => rangeErrors ff tr r rest

/-- The function `findFirstError`. -/
def findFirstError (ff : Float64 → String) (tr : Traversal) (r : ErrorResponse) :
    Except Panic GoError :=
  match r.Errors with
  | .obj rr => rangeErrors ff tr r (tr.top rr)
  | _ => .ok (.errorResponse r)

/-! ## Shapes of envelopes -/

/-- The object `kvs` has the entry `name ↦ s`, and every key the decoder stores in the field
tagged `name` is `name` itself. -/
def HasOnlyField (kvs : Entries) (name s : String) : Prop :=
  (name, JSON.str s) ∈ kvs ∧
    ∀ k v, (k, v) ∈ kvs → matchesField name k = true → k = name ∧ v = JSON.str s

/-- An issue object with string code `c` and string message `m`. -/
def IsIssue (i : JSON) (c m : String) : Prop :=
  ∃ kvs, i = .obj kvs ∧ kvs.lookup "code" = some (.str c) ∧ kvs.lookup "message" = some (.str m)

/-- An issue object with string code `c` and string message `m` in which no further key matches
`code` or `message` under the decoder's case folding. -/
def IsPlainIssue (i : JSON) (c m : String) : Prop :=
  ∃ kvs, i = .obj kvs ∧ HasOnlyField kvs "code" c ∧ HasOnlyField kvs "message" m

/-- The shape of a `line_items` value: at least one position, every position an object with at
least one field, every field a non-empty array of issues; `P i c m` says what an issue is. -/
def LineItemsShape (P : JSON → String → String → Prop) (positions : Entries) : Prop :=
  positions ≠ [] ∧
  ∀ p v, (p, v) ∈ positions → ∃ fs, v = JSON.obj fs ∧ fs ≠ [] ∧
    ∀ f w, (f, w) ∈ fs → ∃ is, w = JSON.arr is ∧ is ≠ [] ∧ ∀ i, i ∈ is → ∃ c m, P i c m

/-- What is said of an envelope with the single key `line_items`: the classifier returns the
`LineItemError` of the first position `p` visited, of the first field `f` visited among the
decoded fields of `p`, with the code and message of the first issue of `f`, and `Error()` gives
`line_items at pos(p): f message`. -/
def ReportsFirstLineItem (ff : Float64 → String) (tr : Traversal) (ord : Entries → Entries)
    (positions : Entries) : Prop :=
  ∃ p fs rest f ev rest' i is c m,
    tr.lineItems positions = (p, JSON.obj fs) :: rest ∧
    tr.field (fs.map (fun e => (e.1, unmarshalSlice e.2))) = (f, ev) :: rest' ∧
    (f, JSON.arr (i :: is)) ∈ fs ∧ IsIssue i c m ∧
    findFirstError ff tr ⟨.obj [("line_items", .obj positions)]⟩
      = .ok (.lineItemError { Position := p, Field := f, Code := c, Message := m }) ∧
    GoError.Error ff ord (.lineItemError { Position := p, Field := f, Code := c, Message := m })
      = .ok ("line_items at pos(" ++ p ++ "): " ++ f ++ " " ++ m)

/-- An issue with the three keys of the wire format. -/
def sampleIssue : JSON :=
  .obj [("code", .str "invalid"), ("message", .str "is invalid"), ("options", .obj [])]

/-- The `line_items` value of the test `line item invalid variant_id`. -/
def samplePositions : Entries := [("0", .obj [("variant_id", .arr [sampleIssue])])]

/-- An issue that has, next to `message`, a key written with U+017F (long s), which the decoder
folds to `message` and `json.Marshal` sorts after it. -/
def foldedIssue : JSON :=
  .obj [("code", .str "invalid"), ("message", .str "is invalid"), ("meſsage", .str "zzz")]

/-- A `line_items` value with one position, one field and the issue `foldedIssue`. -/
def foldedPositions : Entries := [("0", .obj [("variant_id", .arr [foldedIssue])])]

/-- A value that is neither an array nor an object: `nil`, a `bool`, a `float64` or a `string`. -/
def JSON.isScalar : JSON → Bool
  | .arr _ => false
  | .obj _ => false
  | _ => true

/-- The top-level keys `findFirstError` names. -/
def recognisedKeys : List String :=
  ["email", "line_items", "checkout", "shipping_address", "billing_address", "discount_code"]

/-- The pair `(k, v)` has none of the shapes the classifier names: `k` is not `email`, `v` is not
an object under `line_items`, `checkout`, `shipping_address` or `billing_address`, and `v` is not
an array under `discount_code`. -/
def NoRecognisedShape (k : String) (v : JSON) : Prop :=
  k ≠ "email" ∧
  (∀ vv, v = JSON.obj vv →
    k ∉ ["line_items", "checkout", "shipping_address", "billing_address"]) ∧
  (∀ vv, v = JSON.arr vv → k ≠ "discount_code")

/-- An address issue of the tests: code `not_supported`, message `is not supported`. -/
def notSupportedIssue : JSON :=
  .obj [("code", .str "not_supported"), ("message", .str "is not supported"), ("options", .obj [])]

/-- The discount issue of the test `discount code not found`. -/
def discountIssue : Entries :=
  [("code", .str "discount_not_found"),
   ("message", .str "Unable to find a valid discount matching the code entered"),
   ("options", .obj [])]

/-- An envelope with an invalid shipping address and an `email` key, the address listed first. -/
def addressAndEmail : ErrorResponse :=
  ⟨.obj [("shipping_address", .obj [("country", .arr [notSupportedIssue])]),
         ("email", .arr [.str "is invalid"])]⟩

/-- The usual error form of the package comment: one key holding a list of strings. -/
def usualForm : ErrorResponse := ⟨.obj [("title", .arr [.str "something is wrong"])]⟩

/-- An envelope whose only key is unrecognised and holds a bare string. -/
def scalarUnderTitle : ErrorResponse := ⟨.obj [("title", .str "bad")]⟩

/-- A `line_items` envelope whose only field has an empty list of issues. -/
def emptyIssues : ErrorResponse :=
  ⟨.obj [("line_items", .obj [("0", .obj [("variant_id", .arr [])])])]⟩

/-- A `discount_code` envelope whose first element is a string, not an object. -/
def discountOfStrings : ErrorResponse := ⟨.obj [("discount_code", .arr [.str "expired"])]⟩

/-- An address envelope whose only field has an empty list of issues. -/
def emptyAddressIssues : ErrorResponse := ⟨.obj [("shipping_address", .obj [("zip", .arr [])])]⟩

/-- An address envelope with two fields: `zip` with an empty list of issues, listed first, and
`country` with one issue. -/
def emptyThenCountry : ErrorResponse :=
  ⟨.obj [("shipping_address",
      .obj [("zip", .arr []), ("country", .arr [notSupportedIssue])])]⟩

/-! ## HTTP: responses, `CheckResponse` and `Client.Do` -/

/-- A response body, by what reading and decoding it yields: the read fails; there are no bytes;
there is white space only; the bytes do not begin with a complete JSON value (`malformed`); they
are a JSON text with the given value (`json`); or they begin with a complete JSON value that is
followed by further bytes other than white space (`trailing`). For an object at the top level
the members are listed in document order, where a key may occur more than once.

The two decoders of the package differ on a `trailing` body: `json.Unmarshal` checks the whole
input and rejects it, `json.NewDecoder(..).Decode` reads the first value and does not look at
what follows it. -/
inductive Body where
  | unreadable
  | empty
  | blank
  | malformed
  | json (v : JSON)
  | trailing (v : JSON)

/-- The part of `*http.Response` the package reads. `Header` maps a canonical header name to its
first value. -/
structure Response where
  StatusCode : Int
  Header : List (String × String)
  Body : Body

/-- The call `resp.Header.Get(key)` for a canonical `key`: the first value, or `""`. -/
def Response.headerGet (r : Response) (key : String) : String :=
  (r.Header.lookup key).getD ""

/-- The statements `errorResponse := &ErrorResponse{}`, `ioutil.ReadAll(r.Body)` and
`json.Unmarshal(data, errorResponse)` of `CheckResponse`: the envelope stays empty unless the
body is a JSON text whose value is an object; then every member whose key matches the field
tagged `errors` is stored in `Errors`, in document order. `json.Unmarshal` validates the whole
input before it stores anything, so a `trailing` body leaves the envelope empty. -/
def unmarshalErrorResponse : Body → ErrorResponse
  | .json (.obj members) =>
    ⟨members.foldl (fun acc e => if matchesField "errors" e.1 then e.2 else acc) .null⟩
  | _ => ⟨.null⟩

/-- The body is a JSON object with a member the decoder stores in `Errors`. -/
def Body.mapsToEnvelope : Body → Bool
  | .json (.obj members) => members.any (fun e => matchesField "errors" e.1)
  | _ => false

/-- The function `CheckResponse`; `none` is the nil error. -/
def CheckResponse (ff : Float64 → String) (tr : Traversal) (r : Response) :
    Except Panic (Option GoError) :=
  if r.StatusCode = 202 then .ok none
  else if r.StatusCode = 403 then .ok (some (.errorString "forbidden"))
  else if 200 ≤ r.StatusCode ∧ r.StatusCode ≤ 299 then .ok none
  else
    match findFirstError ff tr (unmarshalErrorResponse r.Body) with
    | .ok e => .ok (some e)
    | .error p => .error p

/-- A request as `Client.NewRequest` builds it: method, absolute URL, the headers set and the
encoded body, if any. -/
structure Request where
  Method : String
  URL : String
  Header : List (String × String)
  Body : Option String
deriving DecidableEq, Repr

/-- The error of the transport, `c.client.Do(req)`. -/
structure TransportError where
  msg : String
deriving DecidableEq, Repr

/-- The value of `ctx.Err()` once the context is done. -/
inductive ContextError where
  | canceled
  | deadlineExceeded
deriving DecidableEq, Repr

/-- The error of `url.Parse`, of the JSON encoder or of `http.NewRequest`. -/
structure RequestError where
  msg : String
deriving DecidableEq, Repr

/-- The error of `json.NewDecoder(resp.Body).Decode(v)`: `io.EOF`, a failed read, the error for
bytes that do not begin with a complete JSON value (a syntax error, or `io.ErrUnexpectedEOF` for
a value that is cut off), or a value that does not fit the target. -/
inductive DecodeError where
  | eof
  | read
  | invalid
  | mismatch (what : String)
deriving DecidableEq, Repr

/-- The errors `Client.Do` and the services built on it return. -/
inductive ClientError where
  | request (e : RequestError)
  | transport (e : TransportError)
  | context (e : ContextError)
  | response (e : GoError)
  | decode (e : DecodeError)

/-- What the program does to the outside, in order: a request handed to the transport, or a call
of `time.Sleep` with the given duration in nanoseconds (which returns at once when the duration
is zero or negative). -/
inductive Event where
  | request (r : Request)
  | sleep (d : Int)
deriving DecidableEq, Repr

/-- The transport and the trace of the run: the answers the transport still has to give, one per
request, and the events so far. -/
structure World where
  script : List (Except TransportError Response)
  events : List Event

/-- The caller's context: `ctx.Err()` after the events so far, `none` while it is not done. -/
abbrev Context := List Event → Option ContextError

/-- The call `c.client.Do(req)`: the request is recorded and the next answer of the script is
returned; a transport with no answer left fails. -/
def World.roundTrip (w : World) (req : Request) : Except TransportError Response × World :=
  match w.script with
  | [] => (.error ⟨"no answer"⟩, { script := [], events := w.events ++ [.request req] })
  | a :: rest => (a, { script := rest, events := w.events ++ [.request req] })

/-- The call `time.Sleep(d)`. -/
def World.sleep (w : World) (d : Int) : World :=
  { w with events := w.events ++ [.sleep d] }

/-- The parts of `Client` that `NewRequest` reads. `parseURL` stands for `url.Parse(urlStr)`
followed by `c.opts.baseURL.ResolveReference(rel).String()`: the absolute URL, or the error of
`url.Parse`. `newRequest` is the error of `http.NewRequest(method, url, buf)`, if any. -/
structure Client where
  UserAgent : String
  Token : String
  parseURL : String → Except RequestError String
  newRequest : String → String → Option RequestError

/-- The argument `v` of `Client.Do`: nil, an `io.Writer` (with the bodies copied to it so far),
or a pointer to a value the body is decoded into. -/
inductive Target (T : Type) where
  | nil
  | writer (written : List Body)
  | value (t : T)

/-- The call `json.NewDecoder(resp.Body).Decode(v)`; `dec` decodes a JSON value into the target
and reports a value that does not fit. A body with no bytes or with white space only gives
`io.EOF` and leaves the target as it is. `Decode` reads one value from the stream: the bytes
that follow a complete value are not looked at, so a `trailing` body decodes as its value. -/
def decodeBody {T : Type} (dec : JSON → T → T × Option DecodeError) : Body → T →
    T × Option DecodeError
  | .unreadable, t => (t, some .read)
  | .empty, t => (t, some .eof)
  | .blank, t => (t, some .eof)
  | .malformed, t => (t, some .invalid)
  | .json v, t => dec v t
  | .trailing v, t => dec v t

/-- What `Client.Do` returns, with the state of `v` after the call. -/
structure DoResult (T : Type) where
  resp : Option Response
  err : Option ClientError
  v : Target T

/-- The method `Client.Do`. The transport `c.client` is the script of the `World` and the call
`c.client.Do(req)` is `World.roundTrip`; the request carries no context, so the context is read
only after a transport error. The deferred drain and close of
the body and the debug output are left out. -/
def Client.Do {T : Type} (ff : Float64 → String) (tr : Traversal)
    (dec : JSON → T → T × Option DecodeError) (ctx : Context) (req : Request) (v : Target T)
    (w : World) : Except Panic (DoResult T × World) :=
  match w.roundTrip req with
  | (.error err, w1) =>
    match ctx w1.events with
    | some ce => .ok (⟨none, some (.context ce), v⟩, w1)
    | none => .ok (⟨none, some (.transport err), v⟩, w1)
  | (.ok resp, w1) =>
    match CheckResponse ff tr resp with
    | .error p => .error p
    | .ok (some e) => .ok (⟨some resp, some (.response e), v⟩, w1)
    | .ok none =>
      match v with
      | .nil => .ok (⟨some resp, none, .nil⟩, w1)
      | .writer written => .ok (⟨some resp, none, .writer (written ++ [resp.Body])⟩, w1)
      | .value t =>
        match decodeBody dec resp.Body t with
        | (t1, some .eof) => .ok (⟨some resp, none, .value t1⟩, w1)
        | (t1, some e) => .ok (⟨some resp, some (.decode e), .value t1⟩, w1)
        | (t1, none) => .ok (⟨some resp, none, .value t1⟩, w1)

/-! ## Requests and the pollers of `checkout.go` -/

/-- The call `Header.Set(key, value)` for a canonical `key`. -/
def setHeader (h : List (String × String)) (key value : String) : List (String × String) :=
  h.filter (fun e => e.1 ≠ key) ++ [(key, value)]

/-- The method `Client.NewRequest`; `encode` is `json.NewEncoder(buf).Encode(body)` and `none` is
the nil body. The debug output is left out. -/
def Client.NewRequest {β : Type} (c : Client) (encode : β → Except RequestError String)
    (method urlStr : String) (body : Option β) : Except RequestError Request :=
  match c.parseURL urlStr with
  | .error e => .error e
  | .ok u =>
    match (match body with
      | none => (Except.ok none : Except RequestError (Option String))
      | some b =>
        match encode b with
        | .ok s => .ok (some s)
        | .error e => .error e) with
    | .error e => .error e
    | .ok buf =>
      match c.newRequest method u with
      | some e => .error e
      | none =>
        let h1 := setHeader [] "X-Shopify-Access-Token" c.Token
        let h2 :=
          if body.isSome then
            setHeader (setHeader h1 "Content-Type" "application/json") "Accept" "application/json"
          else h1
        let h3 := if c.UserAgent ≠ "" then setHeader h2 "User-Agent" c.UserAgent else h2
        .ok { Method := method, URL := u, Header := h3, Body := buf }

/-- The encoder of a request without body, which is never run. -/
def noBody : Empty → Except RequestError String := fun e => nomatch e

/-- The value of one decimal digit. -/
def digitValue (c : Char) : Option Nat :=
  if 48 ≤ c.toNat ∧ c.toNat ≤ 57 then some (c.toNat - 48) else none

/-- The value of a run of decimal digits read after `acc`, or `none` at another character. -/
def parseDigits : List Char → Nat → Option Nat
  | [], acc => some acc
  | c :: cs, acc =>
    match digitValue c with
    | some d => parseDigits cs (acc * 10 + d)
    | none => none

/-- The sign of a decimal text (`true` for `-`) and the characters after it. -/
def splitSign (s : String) : Bool × List Char :=
  match s.data with
  | '-' :: ds => (true, ds)
  | '+' :: ds => (false, ds)
  | ds => (false, ds)

/-- The text is an optional sign followed by one decimal digit or more. -/
def isDecimalInteger (s : String) : Bool :=
  !(splitSign s).2.isEmpty && (parseDigits (splitSign s).2 0).isSome

/-- A magnitude with its sign, brought into the range of a 64-bit `int`. -/
def clampInt64 (neg : Bool) (n : Nat) : Int :=
  if neg then (if n > 9223372036854775808 then -9223372036854775808 else -(n : Int))
  else (if n ≥ 9223372036854775808 then 9223372036854775807 else (n : Int))

/-- The `int` returned by `strconv.Atoi(s)` where `int` has 64 bits: the value of a signed
decimal text, the nearest bound when it is out of range, and 0 on a syntax error. -/
def Atoi (s : String) : Int :=
  if (splitSign s).2.isEmpty then 0
  else
    match parseDigits (splitSign s).2 0 with
    | some n => clampInt64 (splitSign s).1 n
    | none => 0

/-- A product of `int64` values as the machine keeps it. -/
def wrap64 (x : Int) : Int := (x + 9223372036854775808) % 18446744073709551616 - 9223372036854775808

/-- The statements `wait, _ := strconv.Atoi(pollWait)` and `time.Duration(wait) * time.Second`:
the duration handed to `time.Sleep`, in nanoseconds. -/
def sleepDuration (pollWait : String) : Int := wrap64 (Atoi pollWait * 1000000000)

/-- The Go type `ShippingRateRequest`; the element type of the slice is left open. -/
structure ShippingRateRequest (α : Type) where
  CheckoutShipping : List α

/-- The Go type `PaymentRequest`; `none` is the nil pointer. -/
structure PaymentRequest (π : Type) where
  Payment : Option π

/-- The variables of a poll loop. -/
structure PollState where
  pollURL : String
  pollWait : String
  pollStatus : Int
  resp : Option Response

/-- What a service method returns: the result, the response and the error. -/
structure CallResult (ρ : Type) where
  result : ρ
  resp : Option Response
  err : Option ClientError

/-- The loop `for { ... }` of `ListShippingRates` and of `Payment`, which differ in the wrapper
only. Each iteration is one unit of fuel; `none` is a loop still running when the fuel is spent.
The result is the wrapper when the loop breaks and `none` when it returns an error. -/
def pollLoop {T : Type} (c : Client) (ff : Float64 → String) (tr : Traversal)
    (dec : JSON → T → T × Option DecodeError) (ctx : Context) :
    Nat → PollState → T → World → Option (Except Panic (CallResult (Option T) × World))
  | 0, _, _, _ => none
  | fuel + 1, st, wrapper, w =>
    if st.pollStatus ≠ 202 then some (.ok (⟨some wrapper, st.resp, none⟩, w))
    else
      match c.NewRequest noBody "GET" st.pollURL none with
      | .error e => some (.ok (⟨none, none, some (.request e)⟩, w))
      | .ok req =>
        match Client.Do ff tr dec ctx req (.value wrapper)
            (w.sleep (sleepDuration st.pollWait)) with
        | .error p => some (.error p)
        | .ok (res, w1) =>
          match res.err with
          | some e => some (.ok (⟨none, res.resp, some e⟩, w1))
          | none =>
            match res.resp, res.v with
            | some resp, .value t1 =>
              pollLoop c ff tr dec ctx fuel
                ⟨resp.headerGet "Location", resp.headerGet "Retry-After", resp.StatusCode,
                  some resp⟩ t1 w1
            | _, _ => some (.error .nilDereference)

/-- The method `CheckoutService.ListShippingRates`. -/
def CheckoutService.ListShippingRates {α : Type} (c : Client) (ff : Float64 → String)
    (tr : Traversal)
    (dec : JSON → ShippingRateRequest α → ShippingRateRequest α × Option DecodeError)
    (ctx : Context) (fuel : Nat) (token : String) (w : World) :
    Option (Except Panic (CallResult (List α) × World)) :=
  match pollLoop c ff tr dec ctx fuel
      ⟨"/admin/checkouts/" ++ token ++ "/shipping_rates.json", "0", 202, none⟩ ⟨[]⟩ w with
  | none => none
  | some (.error p) => some (.error p)
  | some (.ok (r, w1)) =>
    match r.result with
    | some wrapper => some (.ok (⟨wrapper.CheckoutShipping, r.resp, r.err⟩, w1))
    | none => some (.ok (⟨[], r.resp, r.err⟩, w1))

/-- The method `CheckoutService.Payment`; `enc` encodes the request body. -/
def CheckoutService.Payment {π : Type} (c : Client) (ff : Float64 → String) (tr : Traversal)
    (enc : PaymentRequest π → Except RequestError String)
    (dec : JSON → PaymentRequest π → PaymentRequest π × Option DecodeError)
    (ctx : Context) (fuel : Nat) (token : String) (payment : Option π) (w : World) :
    Option (Except Panic (CallResult (Option π) × World)) :=
  match c.NewRequest enc "POST" ("/admin/checkouts/" ++ token ++ "/payments.json")
      (some ⟨payment⟩) with
  | .error e => some (.ok (⟨none, none, some (.request e)⟩, w))
  | .ok req =>
    match Client.Do ff tr dec ctx req (.value ⟨payment⟩) w with
    | .error p => some (.error p)
    | .ok (res, w1) =>
      match res.err with
      | some e => some (.ok (⟨none, res.resp, some e⟩, w1))
      | none =>
        match res.resp, res.v with
        | some resp, .value t1 =>
          match pollLoop c ff tr dec ctx fuel
              ⟨resp.headerGet "Location", resp.headerGet "Retry-After", resp.StatusCode,
                some resp⟩ t1 w1 with
          | none => none
          | some (.error p) => some (.error p)
          | some (.ok (r, w2)) =>
            match r.result with
            | some wrapper => some (.ok (⟨wrapper.Payment, r.resp, r.err⟩, w2))
            | none => some (.ok (⟨none, r.resp, r.err⟩, w2))
        | _, _ => some (.error .nilDereference)

/-- A client whose base URL leaves the references of the examples as they are. -/
def sampleClient : Client :=
  { UserAgent := "go-shopify", Token := "secret", parseURL := fun s => .ok s,
    newRequest := fun _ _ => none }

/-- A decoder for examples: the member `shipping_rates` of an object, when it is an array,
becomes the list of rates; an object without that member leaves the wrapper as it is. -/
def sampleRatesDecoder : JSON → ShippingRateRequest JSON →
    ShippingRateRequest JSON × Option DecodeError
  | .obj kvs, t =>
    match kvs.lookup "shipping_rates" with
    | some (.arr xs) => (⟨xs⟩, none)
    | some _ => (t, some (.mismatch "shipping_rates"))
    | none => (t, none)
  | _, t => (t, some (.mismatch "ShippingRateRequest"))

/-- A decoder for examples: the member `payment` of an object becomes the payment; an object
without that member leaves the wrapper as it is. -/
def samplePaymentDecoder : JSON → PaymentRequest JSON →
    PaymentRequest JSON × Option DecodeError
  | .obj kvs, t =>
    match kvs.lookup "payment" with
    | some .null => (⟨none⟩, none)
    | some v => (⟨some v⟩, none)
    | none => (t, none)
  | _, t => (t, some (.mismatch "PaymentRequest"))

/-- An encoder for examples. -/
def sampleEncoder : PaymentRequest JSON → Except RequestError String := fun _ => .ok "payment"

/-- The request `sampleClient` builds for a `GET` of the given URL. -/
def sampleGet (url : String) : Request :=
  { Method := "GET", URL := url,
    Header := [("X-Shopify-Access-Token", "secret"), ("User-Agent", "go-shopify")],
    Body := none }

/-- The request `sampleClient` builds for the `POST` of a payment. -/
def samplePost (url : String) : Request :=
  { Method := "POST", URL := url,
    Header := [("X-Shopify-Access-Token", "secret"), ("Content-Type", "application/json"),
      ("Accept", "application/json"), ("User-Agent", "go-shopify")],
    Body := some "payment" }

/-- A terminal body with one shipping rate and one payment. -/
def resultBody : Body :=
  .json (.obj [("shipping_rates", .arr [.str "rate"]), ("payment", .str "paid")])

/-- The context that is never done. -/
def background : Context := fun _ => none

/-- The context that was cancelled before the call. -/
def cancelled : Context := fun _ => some .canceled

/-- A response without headers. -/
def plainResponse (status : Int) (body : Body) : Response :=
  { StatusCode := status, Header := [], Body := body }

/-- A `202 Accepted` response with the given `Location` and `Retry-After` headers. -/
def accepted (location retryAfter : String) (body : Body) : Response :=
  { StatusCode := 202, Header := [("Location", location), ("Retry-After", retryAfter)],
    Body := body }

/-- Two `202` answers without body, to be followed up at `/l1` and `/l2`. -/
def sampleSteps : List (Response × Request) :=
  [(accepted "/l1" "0" .empty, sampleGet "/l1"), (accepted "/l2" "0" .empty, sampleGet "/l2")]

/-- Two `202` answers without body, the first asking for 2 seconds, the second carrying a
`Retry-After` that is no number. -/
def waitingSteps : List (Response × Request) :=
  [(accepted "/l1" "2" .empty, sampleGet "/l1"),
   (accepted "/l2" "soon" .empty, sampleGet "/l2")]

/-- A well-formed body whose `errors` object holds an invalid email. -/
def emailBody : Body := .json (.obj [("errors", .obj [("email", .arr [.str "is invalid"])])])

/-- A body whose `errors` object holds a `line_items` field with an empty list of issues. -/
def emptyIssuesBody : Body :=
  .json (.obj [("errors",
    .obj [("line_items", .obj [("0", .obj [("variant_id", .arr [])])])])])

/-- A `GET` request of the examples. -/
def sampleRequest : Request :=
  { Method := "GET", URL := "/admin/shop.json",
    Header := [("X-Shopify-Access-Token", "secret")], Body := none }

/-- The decoder takes the body without an error: `Decode` returns nil or `io.EOF`, whatever the
target holds. -/
def Quiet {T : Type} (dec : JSON → T → T × Option DecodeError) (b : Body) : Prop :=
  ∀ t, (decodeBody dec b t).2 = none ∨ (decodeBody dec b t).2 = some .eof

/-- The target after the bodies were decoded into it one after the other. -/
def decodeAll {T : Type} (dec : JSON → T → T × Option DecodeError) (bodies : List Body) (t : T) :
    T :=
  bodies.foldl (fun acc b => (decodeBody dec b acc).1) t

/-- A `202` answer of a script together with the follow-up request it leads to: `GET` to the
URL of its `Location` header. -/
def AcceptedStep {T : Type} (c : Client) (dec : JSON → T → T × Option DecodeError)
    (s : Response × Request) : Prop :=
  s.1.StatusCode = 202 ∧
  c.NewRequest noBody "GET" (s.1.headerGet "Location") none = .ok s.2 ∧
  Quiet dec s.1.Body

/-- The events of the poll iterations after the given `202` answers: for each answer the sleep
computed from its `Retry-After` header, then its follow-up request. -/
def followUps : List (Response × Request) → List Event
  | [] => []
  | s :: rest =>
    .sleep (sleepDuration (s.1.headerGet "Retry-After")) :: .request s.2 :: followUps rest

/-- The requests among the events, in order. -/
def requestsOf : List Event → List Request
  | [] => []
  | .request r :: rest => r :: requestsOf rest
  | .sleep _ :: rest => requestsOf rest

/-- The script that answers with the given `202` responses and then with `fin`. -/
def scriptOf (steps : List (Response × Request)) (fin : Response) :
    List (Except TransportError Response) :=
  steps.map (fun s => .ok s.1) ++ [.ok fin]

/-- The bodies of the answers of `scriptOf`, in order. -/
def bodiesOf (steps : List (Response × Request)) (fin : Response) : List Body :=
  steps.map (fun s => s.1.Body) ++ [fin.Body]

/-- On the answer `a`, `Client.Do` returns the response `rsp` together with the error `e`,
whatever the request and the target are. -/
def FailsWith {T : Type} (ff : Float64 → String) (tr : Traversal)
    (dec : JSON → T → T × Option DecodeError) (ctx : Context)
    (a : Except TransportError Response) (rsp : Option Response) (e : ClientError) : Prop :=
  ∀ (req : Request) (t : T) (rest : List (Except TransportError Response))
    (events : List Event), ∃ v,
    Client.Do ff tr dec ctx req (.value t) ⟨a :: rest, events⟩ =
      .ok (⟨rsp, some e, v⟩, ⟨rest, events ++ [.request req]⟩)

/-- The script that answers with the given `202` responses, then with `a`, then with `rest`. -/
def scriptThen (steps : List (Response × Request)) (a : Except TransportError Response)
    (rest : List (Except TransportError Response)) : List (Except TransportError Response) :=
  steps.map (fun s => .ok s.1) ++ a :: rest

/-- A context that becomes done while the program sleeps: it is done once a sleep of positive
length is among the events. -/
def cancelledDuringSleep : Context := fun events =>
  if events.any (fun e => match e with
      | .sleep d => decide (0 < d)
      | .request _ => false) then some .canceled
  else none

/-- A `202` body that already holds one shipping rate and one payment. -/
def partialBody : Body :=
  .json (.obj [("shipping_rates", .arr [.str "early rate"]), ("payment", .str "pending")])

/-- A terminal body that is the empty JSON object. -/
def emptyObjectBody : Body := .json (.obj [])

/-- The decoder writes the same value whatever the target holds. -/
def Overwrites {T : Type} (dec : JSON → T → T × Option DecodeError) (b : Body) : Prop :=
  ∀ t t1, (decodeBody dec b t).1 = (decodeBody dec b t1).1

/-- The list has at most one element. -/
def atMostOne {α : Type} (l : List α) : Bool := decide (l.length ≤ 1)

/-- The object has at most one key, when the value is an object. -/
def objectFew : JSON → Bool
  | .obj kvs => atMostOne kvs
  | _ => true

/-- The value is an array. -/
def JSON.isArray : JSON → Bool
  | .arr _ => true
  | _ => false

/-- The value is an object with at least one key. -/
def JSON.isNonEmptyObject : JSON → Bool
  | .obj (_ :: _) => true
  | _ => false

/-- A usable `discount_code` entry of a `checkout` object: the key is `discount_code` and the
value is an array with an element that is a non-empty object. -/
def usableDiscountCode (kk : String) (vvv : JSON) : Bool :=
  decide (kk = "discount_code") &&
    match vvv with
    | .arr e => e.any JSON.isNonEmptyObject
    | _ => false

/-- The shapes of an entry of the `errors` mapping that the specification lists as producing
nothing, for a key other than `email`, which is looked at before the value: an object under a
key that is not recognised, an empty `line_items` object, a `checkout` object without a usable
`discount_code`, an address object without a field that holds an array, an array under a key
other than `discount_code`, and an empty `discount_code` array. The predicate is written after
the wording of the specification, not after the code: the theorems compare it with the loop of
`findFirstError`. -/
def hasSkippedShape (k : String) (v : JSON) : Bool :=
  if k = "email" then false
  else
    match v with
    | .obj vv =>
      if k = "line_items" then vv.isEmpty
      else if k = "checkout" then !vv.any (fun e => usableDiscountCode e.1 e.2)
      else if k = "shipping_address" ∨ k = "billing_address" then
        !vv.any (fun e => e.2.isArray)
      else true
    | .arr vv => if k = "discount_code" then vv.isEmpty else true
    | _ => false

/-- The first entry in the given order that has none of the shapes listed as producing
nothing. -/
def firstNotSkipped (l : Entries) : Option (String × JSON) :=
  l.find? (fun e => !hasSkippedShape e.1 e.2)

/-- The first element of a `discount_code` list that is a non-empty object has one field; holds
also when there is no such element. -/
def reasonFew : JSON → Bool
  | .arr e =>
    match e.find? JSON.isNonEmptyObject with
    | some (.obj ex) => atMostOne ex
    | _ => true
  | _ => true

/-- Under the top-level key `k`, every mapping `findFirstError` ranges over holds at most one
entry that produces a result: under `line_items` at most one position with at most one field,
under `checkout` at most one usable `discount_code` whose first non-empty element has one field,
under an address at most one field that holds an array. Entries that produce nothing may be
there in any number. -/
def oneResultUnder (k : String) (v : JSON) : Bool :=
  if k = "email" then true
  else
    match v with
    | .obj vv =>
      if k = "line_items" then atMostOne vv && vv.all (fun e => objectFew e.2)
      else if k = "checkout" then
        atMostOne (vv.filter (fun e => usableDiscountCode e.1 e.2)) &&
          vv.all (fun e => if e.1 = "discount_code" then reasonFew e.2 else true)
      else if k = "shipping_address" ∨ k = "billing_address" then
        atMostOne (vv.filter (fun e => e.2.isArray))
      else true
    | _ => true

/-- Every mapping `findFirstError` ranges over in the envelope holds at most one entry that
produces a result. -/
def ErrorResponse.oneResult (r : ErrorResponse) : Bool :=
  match r.Errors with
  | .obj rr =>
    atMostOne (rr.filter (fun e => !hasSkippedShape e.1 e.2)) &&
      rr.all (fun e => oneResultUnder e.1 e.2)
  | _ => true

/-- The `errors` mapping has at most one key, when it is a mapping. -/
def ErrorResponse.oneKey (r : ErrorResponse) : Bool :=
  match r.Errors with
  | .obj rr => atMostOne rr
  | _ => true

/-- An `errors` mapping with the keys `email`, `shipping_address` and `title`: the first two
produce a result, the array under `title` produces nothing. -/
def threeKeys : Entries :=
  [("email", .arr [.str "is invalid"]),
   ("shipping_address", .obj [("country", .arr [notSupportedIssue])]),
   ("title", .arr [.str "something is wrong"])]

/-- The error is the envelope itself, of type `*ErrorResponse`. -/
def GoError.isResponse : GoError → Bool
  | .errorResponse _ => true
  | _ => false

/-- A `checkout` object with a further key before `discount_code`, whose list holds the
one-field object `reason ↦ expired`. -/
def checkoutEntries : Entries :=
  [("token", .str "abc"), ("discount_code", .arr [.obj [("reason", .str "expired")]])]

/-- An envelope with an array under `title`, which produces nothing, and a `checkout` object
with a further key next to `discount_code`. -/
def titleAndCheckout : ErrorResponse :=
  ⟨.obj [("title", .arr [.str "something is wrong"]), ("checkout", .obj checkoutEntries)]⟩

/-- An envelope with two keys that both produce nothing. -/
def titleAndName : ErrorResponse :=
  ⟨.obj [("title", .arr [.str "something is wrong"]), ("name", .arr [.str "is missing"])]⟩

/-! ## `CheckoutRequest.MarshalJSON` and the enum codecs -/

/-- The Go type `Checkout`: the field `AppliedDiscount` (`none` is the nil pointer) and, in
`other`, all remaining fields. -/
structure Checkout (δ κ : Type) where
  AppliedDiscount : Option δ
  other : κ

/-- The Go type `CheckoutRequest`; `none` is the nil `*Checkout`. -/
structure CheckoutRequest (δ κ : Type) where
  Checkout : Option (Checkout δ κ)

/-- The method `(*CheckoutRequest).MarshalJSON` on the receiver `c` (`none` is the nil
receiver); `marshal` is `json.Marshal` on a `CheckoutRequest` value, the plain struct encoding.
The copy `cc := *c` holds the same `*Checkout` as `c`, so the assignment
`cc.Checkout.AppliedDiscount = nil` writes to the checkout of the caller: the second component
is the request of the caller after the call. `.ok none` is the return `nil, nil`. -/
def CheckoutRequest.MarshalJSON {δ κ : Type}
    (marshal : CheckoutRequest δ κ → Except String String)
    (c : Option (CheckoutRequest δ κ)) :
    Except String (Option String) × Option (CheckoutRequest δ κ) :=
  match c with
  | some ⟨some ck⟩ =>
    (match marshal ⟨some { ck with AppliedDiscount := none }⟩ with
      | .ok b => .ok (some b)
      | .error e => .error e,
     some ⟨some { ck with AppliedDiscount := none }⟩)
  | _ => (.ok none, c)

/-- A plain struct encoding for examples: the member `applied_discount` is left out when the
pointer is nil. -/
def sampleMarshal : CheckoutRequest String String → Except String String
  | ⟨some ⟨some d, other⟩⟩ => .ok ("checkout " ++ other ++ " applied_discount " ++ d)
  | ⟨some ⟨none, other⟩⟩ => .ok ("checkout " ++ other)
  | ⟨none⟩ => .ok "checkout null"

/-- The variable `billingTypes`. -/
def billingTypes : List String := ["-", "one_time", "recurring", "usage"]

/-- The variable `billingStatuses`. -/
def billingStatuses : List String :=
  ["-", "pending", "accepted", "active", "declined", "expired", "frozen", "cancelled"]

/-- The variable `transactionStatuses`. -/
def transactionStatuses : List String := ["-", "pending", "success", "failure", "error"]

/-- The variable `collectionListSortOrders`. -/
def collectionListSortOrders : List String :=
  ["alpha-asc", "alpha-desc", "best-selling", "created", "created-desc", "manual", "price-asc",
   "price-desc"]

/-- The constants of type `CollectionListSortOrder`: `iota` starts at the blank identifier, so
the first named constant is 1. -/
def CollectionListSortOrderAlphaAsc : Nat := 1
def CollectionListSortOrderAlphaDesc : Nat := 2
def CollectionListSortOrderBestSelling : Nat := 3
def CollectionListSortOrderCreated : Nat := 4
def CollectionListSortOrderCreatedDesc : Nat := 5
def CollectionListSortOrderManual : Nat := 6
def CollectionListSortOrderPriceAsc : Nat := 7
def CollectionListSortOrderPriceDesc : Nat := 8

/-- The Go type `string`, under a name that the methods called `String` do not shadow. As
everywhere in this development a Go string or byte slice is a `String`, and the conversions
`string(text)` and `[]byte(s)` are the identity. -/
abbrev GoString : Type := String

/-- The index expression `table[v]`, which panics when `v` is out of range. -/
def indexTable (table : List String) (v : Nat) : Except Panic String :=
  match table[v]? with
  | some s => .ok s
  | none => .error .indexOutOfRange

/-- The loop `for i := 0; i < len(table); i++` of the `UnmarshalText` methods from index `i`
on: the first index whose entry equals `enum`. -/
def findEntry (enum : String) : Nat → List String → Option Nat
  | _, [] => none
  | i, x :: xs => if enum = x then some i else findEntry enum (i + 1) xs

/-- The body shared by the four `UnmarshalText` methods, which differ in the table and in the
words of the error: the receiver after the call and the error, if any. -/
def unmarshalText (table : List String) (what : String) (text : String) (receiver : Nat) :
    Nat × Option String :=
  match findEntry text 0 table with
  | some i => (i, none)
  | none => (receiver, some ("unknown " ++ what ++ " " ++ text))

/-- The method `BillingType.String`. -/
def BillingType.String (t : Nat) : Except Panic GoString := indexTable billingTypes t

/-- The method `BillingType.MarshalText`. -/
def BillingType.MarshalText (t : Nat) : Except Panic GoString := BillingType.String t

/-- The method `(*BillingType).UnmarshalText`. -/
def BillingType.UnmarshalText (text : GoString) (t : Nat) : Nat × Option GoString :=
  unmarshalText billingTypes "billing type" text t

/-- The method `BillingStatus.String`. -/
def BillingStatus.String (s : Nat) : Except Panic GoString := indexTable billingStatuses s

/-- The method `BillingStatus.MarshalText`. -/
def BillingStatus.MarshalText (s : Nat) : Except Panic GoString := BillingStatus.String s

/-- The method `(*BillingStatus).UnmarshalText`. -/
def BillingStatus.UnmarshalText (text : GoString) (s : Nat) : Nat × Option GoString :=
  unmarshalText billingStatuses "billing status" text s

/-- The method `TransactionStatus.String`. -/
def TransactionStatus.String (s : Nat) : Except Panic GoString :=
  indexTable transactionStatuses s

/-- The method `TransactionStatus.MarshalText`. -/
def TransactionStatus.MarshalText (s : Nat) : Except Panic GoString := TransactionStatus.String s

/-- The method `(*TransactionStatus).UnmarshalText`. -/
def TransactionStatus.UnmarshalText (text : GoString) (s : Nat) : Nat × Option GoString :=
  unmarshalText transactionStatuses "transaction status" text s

/-- The method `CollectionListSortOrder.String`. -/
def CollectionListSortOrder.String (s : Nat) : Except Panic GoString :=
  indexTable collectionListSortOrders s

/-- The method `CollectionListSortOrder.MarshalText`. -/
def CollectionListSortOrder.MarshalText (s : Nat) : Except Panic GoString :=
  CollectionListSortOrder.String s

/-- The method `(*CollectionListSortOrder).UnmarshalText`. -/
def CollectionListSortOrder.UnmarshalText (text : GoString) (s : Nat) : Nat × Option GoString :=
  unmarshalText collectionListSortOrders "collection list sort order" text s

/-! # Theorems -/

/-! ## Lemmas on traversals and on the decoder -/

theorem Traversal.listed_valid : Traversal.listed.Valid :=
  ⟨fun l => List.Perm.refl l, fun l => List.Perm.refl l, fun l => List.Perm.refl l,
   fun l => List.Perm.refl l, fun l => List.Perm.refl l, fun l => List.Perm.refl l⟩

theorem Traversal.reversed_valid : Traversal.reversed.Valid :=
  ⟨fun l => List.reverse_perm l, fun l => List.reverse_perm l, fun l => List.reverse_perm l,
   fun l => List.reverse_perm l, fun l => List.reverse_perm l, fun l => List.reverse_perm l⟩

theorem Traversal.Valid.top_singleton {tr : Traversal} (hv : tr.Valid) (e : String × JSON) :
    tr.top [e] = [e] :=
  List.perm_singleton.mp (hv.1 [e])

theorem Traversal.Valid.top_nil {tr : Traversal} (hv : tr.Valid) : tr.top [] = [] :=
  List.perm_nil.mp (hv.1 [])

theorem mem_insertByKey {α : Type} (e x : String × α) (l : List (String × α)) :
    x ∈ insertByKey e l ↔ x = e ∨ x ∈ l := by
  induction l with
  | nil => simp [insertByKey]
  | cons y ys ih =>
    unfold insertByKey
    split
    · simp
    · simp only [List.mem_cons, ih]
      tauto

theorem mem_sortByKey {α : Type} (x : String × α) (l : List (String × α)) :
    x ∈ sortByKey l ↔ x ∈ l := by
  induction l with
  | nil => simp [sortByKey]
  | cons y ys ih => simp [sortByKey, mem_insertByKey, ih]

theorem matchesField_iff (name key : String) :
    matchesField name key = true ↔ foldName key = foldName name := by
  unfold matchesField
  constructor
  · intro h
    rcases Bool.or_eq_true _ _ ▸ h with h1 | h1
    · have : key = name := by simpa using h1
      rw [this]
    · simpa using h1
  · intro h
    simp [h]

theorem not_message_and_code (k : String) (h1 : matchesField "message" k = true)
    (h2 : matchesField "code" k = true) : False := by
  rw [matchesField_iff] at h1 h2
  have h : foldName "message" = foldName "code" := h1.symm.trans h2
  revert h
  decide

theorem storeIssueField_message_keep (m : String) (acc : lineItemErrorValue) (e : String × JSON)
    (hall : matchesField "message" e.1 = true → e.2 = JSON.str m) (hacc : acc.Message = m) :
    (storeIssueField acc e).Message = m := by
  unfold storeIssueField
  by_cases h1 : matchesField "message" e.1 = true
  · rw [if_pos h1, hall h1]
  · rw [if_neg h1]
    split
    · split <;> simpa using hacc
    · exact hacc

theorem storeIssueField_message_set (m : String) (acc : lineItemErrorValue) (e : String × JSON)
    (h1 : matchesField "message" e.1 = true) (h2 : e.2 = JSON.str m) :
    (storeIssueField acc e).Message = m := by
  unfold storeIssueField
  rw [if_pos h1, h2]

theorem foldl_store_message_keep (m : String) (l : Entries) :
    ∀ acc : lineItemErrorValue,
      (∀ e, e ∈ l → matchesField "message" e.1 = true → e.2 = JSON.str m) →
      acc.Message = m → (l.foldl storeIssueField acc).Message = m := by
  induction l with
  | nil => intro acc _ h; exact h
  | cons e es ih =>
    intro acc hall hacc
    rw [List.foldl_cons]
    exact ih _ (fun x hx => hall x (List.mem_cons_of_mem _ hx))
      (storeIssueField_message_keep m acc e (hall e (List.mem_cons_self _ _)) hacc)

theorem foldl_store_message (m : String) (l : Entries) :
    ∀ acc : lineItemErrorValue,
      (∀ e, e ∈ l → matchesField "message" e.1 = true → e.2 = JSON.str m) →
      (∃ e, e ∈ l ∧ matchesField "message" e.1 = true) →
      (l.foldl storeIssueField acc).Message = m := by
  induction l with
  | nil => intro acc _ h; obtain ⟨e, he, _⟩ := h; cases he
  | cons e es ih =>
    intro acc hall hex
    rw [List.foldl_cons]
    by_cases h1 : matchesField "message" e.1 = true
    · exact foldl_store_message_keep m es _ (fun x hx => hall x (List.mem_cons_of_mem _ hx))
        (storeIssueField_message_set m acc e h1 (hall e (List.mem_cons_self _ _) h1))
    · apply ih _ (fun x hx => hall x (List.mem_cons_of_mem _ hx))
      obtain ⟨x, hx, hxm⟩ := hex
      rcases List.mem_cons.mp hx with rfl | hx
      · exact absurd hxm h1
      · exact ⟨x, hx, hxm⟩

theorem storeIssueField_code_keep (c : String) (acc : lineItemErrorValue) (e : String × JSON)
    (hall : matchesField "code" e.1 = true → e.2 = JSON.str c) (hacc : acc.Code = c) :
    (storeIssueField acc e).Code = c := by
  unfold storeIssueField
  by_cases h1 : matchesField "message" e.1 = true
  · rw [if_pos h1]
    split <;> simpa using hacc
  · rw [if_neg h1]
    by_cases h2 : matchesField "code" e.1 = true
    · rw [if_pos h2, hall h2]
    · rw [if_neg h2]
      exact hacc

theorem storeIssueField_code_set (c : String) (acc : lineItemErrorValue) (e : String × JSON)
    (h1 : matchesField "code" e.1 = true) (h2 : e.2 = JSON.str c) :
    (storeIssueField acc e).Code = c := by
  have h0 : ¬ matchesField "message" e.1 = true := fun h => not_message_and_code e.1 h h1
  unfold storeIssueField
  rw [if_neg h0, if_pos h1, h2]

theorem foldl_store_code_keep (c : String) (l : Entries) :
    ∀ acc : lineItemErrorValue,
      (∀ e, e ∈ l → matchesField "code" e.1 = true → e.2 = JSON.str c) →
      acc.Code = c → (l.foldl storeIssueField acc).Code = c := by
  induction l with
  | nil => intro acc _ h; exact h
  | cons e es ih =>
    intro acc hall hacc
    rw [List.foldl_cons]
    exact ih _ (fun x hx => hall x (List.mem_cons_of_mem _ hx))
      (storeIssueField_code_keep c acc e (hall e (List.mem_cons_self _ _)) hacc)

theorem foldl_store_code (c : String) (l : Entries) :
    ∀ acc : lineItemErrorValue,
      (∀ e, e ∈ l → matchesField "code" e.1 = true → e.2 = JSON.str c) →
      (∃ e, e ∈ l ∧ matchesField "code" e.1 = true) →
      (l.foldl storeIssueField acc).Code = c := by
  induction l with
  | nil => intro acc _ h; obtain ⟨e, he, _⟩ := h; cases he
  | cons e es ih =>
    intro acc hall hex
    rw [List.foldl_cons]
    by_cases h1 : matchesField "code" e.1 = true
    · exact foldl_store_code_keep c es _ (fun x hx => hall x (List.mem_cons_of_mem _ hx))
        (storeIssueField_code_set c acc e h1 (hall e (List.mem_cons_self _ _) h1))
    · apply ih _ (fun x hx => hall x (List.mem_cons_of_mem _ hx))
      obtain ⟨x, hx, hxm⟩ := hex
      rcases List.mem_cons.mp hx with rfl | hx
      · exact absurd hxm h1
      · exact ⟨x, hx, hxm⟩

theorem matchesField_self (name : String) : matchesField name name = true := by
  simp [matchesField]

/-- An issue object in which only the keys `code` and `message` match those fields decodes to
its code and message. -/
theorem unmarshalValue_plain (i : JSON) (c m : String) (h : IsPlainIssue i c m) :
    unmarshalValue i = ⟨m, c⟩ := by
  obtain ⟨kvs, rfl, ⟨hcmem, hconly⟩, ⟨hmmem, hmonly⟩⟩ := h
  have hM : ((sortByKey kvs).foldl storeIssueField ⟨"", ""⟩).Message = m :=
    foldl_store_message m _ _
      (fun e he hm => (hmonly e.1 e.2 ((mem_sortByKey e kvs).mp he) hm).2)
      ⟨("message", JSON.str m), (mem_sortByKey _ kvs).mpr hmmem, matchesField_self _⟩
  have hC : ((sortByKey kvs).foldl storeIssueField ⟨"", ""⟩).Code = c :=
    foldl_store_code c _ _
      (fun e he hm => (hconly e.1 e.2 ((mem_sortByKey e kvs).mp he) hm).2)
      ⟨("code", JSON.str c), (mem_sortByKey _ kvs).mpr hcmem, matchesField_self _⟩
  show (sortByKey kvs).foldl storeIssueField ⟨"", ""⟩ = ⟨m, c⟩
  cases hres : (sortByKey kvs).foldl storeIssueField ⟨"", ""⟩ with
  | mk M C =>
    rw [hres] at hM hC
    simp only at hM hC
    rw [hM, hC]

theorem lookup_of_hasOnlyField (name s : String) :
    ∀ kvs : Entries, HasOnlyField kvs name s → kvs.lookup name = some (JSON.str s) := by
  intro kvs
  induction kvs with
  | nil => intro h; cases h.1
  | cons e es ih =>
    intro h
    obtain ⟨k, v⟩ := e
    by_cases hk : name = k
    · subst hk
      have := (h.2 name v (List.mem_cons_self _ _) (matchesField_self _)).2
      simp [List.lookup, this]
    · have hne : (name == k) = false := by simpa using hk
      rw [List.lookup_cons, hne]
      apply ih
      refine ⟨?_, fun k2 v2 h2 => h.2 k2 v2 (List.mem_cons_of_mem _ h2)⟩
      rcases List.mem_cons.mp h.1 with h1 | h1
      · exact absurd (congrArg Prod.fst h1) hk
      · exact h1

theorem IsPlainIssue.isIssue {i : JSON} {c m : String} (h : IsPlainIssue i c m) :
    IsIssue i c m := by
  obtain ⟨kvs, rfl, hc, hm⟩ := h
  exact ⟨kvs, rfl, lookup_of_hasOnlyField _ _ kvs hc, lookup_of_hasOnlyField _ _ kvs hm⟩

/-- C1 (as amended): for every envelope whose only top-level key is `line_items`, whose value has
at least one position, each position an object with at least one field and each field a
non-empty array of issue objects with string code and message and no further key that matches
`code` or `message` case-insensitively, `findFirstError` returns the `LineItemError` of the
first position visited, of the first field visited among that position's decoded fields, with
the code and message of that field's first issue, and `Error()` is
`line_items at pos(p): f message`. -/
theorem findFirstError_line_items (ff : Float64 → String) (tr : Traversal)
    (ord : Entries → Entries) (positions : Entries) (hv : tr.Valid)
    (hs : LineItemsShape IsPlainIssue positions) :
    ReportsFirstLineItem ff tr ord positions := by
  obtain ⟨hne, hshape⟩ := hs
  have hperm := hv.2.1 positions
  cases hl : tr.lineItems positions with
  | nil =>
    rw [hl] at hperm
    exact absurd (List.nil_perm.mp hperm) hne
  | cons pv rest =>
    obtain ⟨p, v⟩ := pv
    have hmem : (p, v) ∈ positions := hperm.subset (by rw [hl]; exact List.mem_cons_self _ _)
    obtain ⟨fs, rfl, hfs, hfields⟩ := hshape p v hmem
    have hperm2 := hv.2.2.1 (fs.map (fun e => (e.1, unmarshalSlice e.2)))
    cases hf : tr.field (fs.map (fun e => (e.1, unmarshalSlice e.2))) with
    | nil =>
      rw [hf] at hperm2
      have := List.nil_perm.mp hperm2
      exact absurd (List.map_eq_nil_iff.mp this) hfs
    | cons fe rest' =>
      obtain ⟨f, ev⟩ := fe
      have hmem2 : (f, ev) ∈ fs.map (fun e => (e.1, unmarshalSlice e.2)) :=
        hperm2.subset (by rw [hf]; exact List.mem_cons_self _ _)
      obtain ⟨⟨f1, w⟩, hw, heq⟩ := List.mem_map.mp hmem2
      obtain ⟨is, rfl, hisne, hiss⟩ := hfields f1 w hw
      cases is with
      | nil => exact absurd rfl hisne
      | cons i is1 =>
        obtain ⟨c, m, hi⟩ := hiss i (List.mem_cons_self _ _)
        have hf1 : f1 = f := congrArg Prod.fst heq
        have hev : ev = unmarshalValue i :: is1.map unmarshalValue := (congrArg Prod.snd heq).symm
        subst hf1
        refine ⟨p, fs, rest, f1, ev, rest', i, is1, c, m, hl, hf, hw, hi.isIssue, ?_, rfl⟩
        have htop := hv.top_singleton ("line_items", JSON.obj positions)
        simp only [findFirstError, htop, rangeErrors, classifyEntry, hl, lineItemError,
          unmarshalLineItemErrorField, hf, hev, unmarshalValue_plain i c m hi]
        simp

/-- The line-item statement at the envelope of the test `line item invalid variant_id`, visited
in listed order. -/
theorem findFirstError_line_items_witness :
    ReportsFirstLineItem noFloats Traversal.listed id samplePositions :=
  findFirstError_line_items noFloats Traversal.listed id samplePositions Traversal.listed_valid
    ⟨by simp [samplePositions], by
      intro p v h
      simp only [samplePositions, List.mem_singleton, Prod.mk.injEq] at h
      obtain ⟨rfl, rfl⟩ := h
      refine ⟨_, rfl, by simp, ?_⟩
      intro f w h
      simp only [List.mem_singleton, Prod.mk.injEq] at h
      obtain ⟨rfl, rfl⟩ := h
      refine ⟨_, rfl, by simp, ?_⟩
      intro i h
      simp only [List.mem_singleton] at h
      subst h
      refine ⟨"invalid", "is invalid", _, rfl, ⟨by simp, ?_⟩, ⟨by simp, ?_⟩⟩
      · intro k v h hm
        simp only [List.mem_cons, Prod.mk.injEq, List.mem_singleton, List.not_mem_nil,
          or_false] at h
        rcases h with ⟨rfl, rfl⟩ | ⟨rfl, rfl⟩ | ⟨rfl, rfl⟩
        · exact ⟨rfl, rfl⟩
        · exact absurd hm (by decide)
        · exact absurd hm (by decide)
      · intro k v h hm
        simp only [List.mem_cons, Prod.mk.injEq, List.mem_singleton, List.not_mem_nil,
          or_false] at h
        rcases h with ⟨rfl, rfl⟩ | ⟨rfl, rfl⟩ | ⟨rfl, rfl⟩
        · exact absurd hm (by decide)
        · exact ⟨rfl, rfl⟩
        · exact absurd hm (by decide)⟩

/-- C1 (as stated) fails: the envelope with the single position `0`, the single field
`variant_id` and one issue with code `invalid` and message `is invalid` has the claimed shape,
yet the `LineItemError` returned carries the message `zzz`, the value of the issue's key written
with a long s, and not the message of the issue. -/
theorem findFirstError_line_items_counterexample :
    LineItemsShape IsIssue foldedPositions ∧
    findFirstError noFloats Traversal.listed ⟨.obj [("line_items", .obj foldedPositions)]⟩
      = .ok (.lineItemError
          { Position := "0", Field := "variant_id", Code := "invalid", Message := "zzz" }) ∧
    ¬ ReportsFirstLineItem noFloats Traversal.listed id foldedPositions := by
  refine ⟨⟨by simp [foldedPositions], ?_⟩, rfl, ?_⟩
  · intro p v h
    simp only [foldedPositions, List.mem_singleton, Prod.mk.injEq] at h
    obtain ⟨rfl, rfl⟩ := h
    refine ⟨_, rfl, by simp, ?_⟩
    intro f w h
    simp only [List.mem_singleton, Prod.mk.injEq] at h
    obtain ⟨rfl, rfl⟩ := h
    refine ⟨_, rfl, by simp, ?_⟩
    intro i h
    simp only [List.mem_singleton] at h
    subst h
    exact ⟨"invalid", "is invalid", _, rfl, rfl, rfl⟩
  · rintro ⟨p, fs, rest, f, ev, rest', i, is, c, m, h1, _, h3, h4, h5, _⟩
    have hres : findFirstError noFloats Traversal.listed
        ⟨.obj [("line_items", .obj foldedPositions)]⟩
        = .ok (.lineItemError
            { Position := "0", Field := "variant_id", Code := "invalid", Message := "zzz" }) := rfl
    rw [hres] at h5
    simp only [Except.ok.injEq, GoError.lineItemError.injEq, LineItemError.mk.injEq] at h5
    obtain ⟨rfl, rfl, rfl, rfl⟩ := h5
    simp only [Traversal.listed, foldedPositions, List.cons.injEq, Prod.mk.injEq, JSON.obj.injEq,
      true_and] at h1
    obtain ⟨rfl, _⟩ := h1
    simp only [List.mem_singleton, Prod.mk.injEq, JSON.arr.injEq, List.cons.injEq, true_and] at h3
    obtain ⟨rfl, _⟩ := h3
    obtain ⟨kvs, hk, _, hm⟩ := h4
    simp only [foldedIssue, JSON.obj.injEq] at hk
    subst hk
    revert hm
    simp [List.lookup]

theorem Traversal.Valid.address_singleton {tr : Traversal} (hv : tr.Valid) (e : String × JSON) :
    tr.address [e] = [e] :=
  List.perm_singleton.mp (hv.2.2.2.2.2 [e])

/-- Keys whose iteration falls through do not change what the loop returns. -/
theorem rangeErrors_skip (ff : Float64 → String) (tr : Traversal) (r : ErrorResponse)
    (pre l : Entries) (hpre : ∀ e, e ∈ pre → classifyEntry ff tr e.1 e.2 = none) :
    rangeErrors ff tr r (pre ++ l) = rangeErrors ff tr r l := by
  induction pre with
  | nil => rfl
  | cons e es ih =>
    obtain ⟨k, v⟩ := e
    have h0 : classifyEntry ff tr k v = none := hpre (k, v) (List.mem_cons_self _ _)
    rw [List.cons_append, rangeErrors, h0]
    exact ih (fun x hx => hpre x (List.mem_cons_of_mem _ hx))

/-- C2: for `k` one of `shipping_address` and `billing_address` and every envelope whose only
top-level key is `k`, holding a single field `f` with a non-empty list whose first element is an
object with string code `c` and string message `m`, `findFirstError` returns the `AddressError`
with key `k`, field `f`, code `c` and message `m`, and `Error()` is `k: f m`. -/
theorem findFirstError_address (ff : Float64 → String) (tr : Traversal) (ord : Entries → Entries)
    (k f c m : String) (issue : Entries) (rest : List JSON) (hv : tr.Valid)
    (hk : k = "shipping_address" ∨ k = "billing_address")
    (hc : issue.lookup "code" = some (.str c)) (hm : issue.lookup "message" = some (.str m)) :
    findFirstError ff tr ⟨.obj [(k, .obj [(f, .arr (.obj issue :: rest))])]⟩
      = .ok (.addressError (some { Key := k, Field := f, Code := c, Message := m })) ∧
    GoError.Error ff ord (.addressError (some { Key := k, Field := f, Code := c, Message := m }))
      = .ok (k ++ ": " ++ f ++ " " ++ m) := by
  refine ⟨?_, rfl⟩
  have htop := hv.top_singleton (k, JSON.obj [(f, .arr (.obj issue :: rest))])
  have haddr := hv.address_singleton (f, JSON.arr (.obj issue :: rest))
  rcases hk with rfl | rfl <;>
    simp [findFirstError, htop, rangeErrors, classifyEntry, haddr, addressError, toAddressError,
      hc, hm, stringOr]

/-- The address statement at the envelope of the test `shipping address not supported`. -/
theorem findFirstError_address_witness :
    findFirstError noFloats Traversal.listed
        ⟨.obj [("shipping_address", .obj [("country", .arr [notSupportedIssue])])]⟩
      = .ok (.addressError (some
          { Key := "shipping_address", Field := "country", Code := "not_supported",
            Message := "is not supported" })) ∧
    GoError.Error noFloats id (.addressError (some
          { Key := "shipping_address", Field := "country", Code := "not_supported",
            Message := "is not supported" }))
      = .ok "shipping_address: country is not supported" :=
  findFirstError_address noFloats Traversal.listed id "shipping_address" "country"
    "not_supported" "is not supported" _ [] Traversal.listed_valid (Or.inl rfl) rfl rfl

/-- C3: for every envelope whose only top-level key is `discount_code`, holding a non-empty list
whose first element is an object, `findFirstError` returns the `DiscountCodeError` whose reason
is the value of that element under `message` (nil when it has none), and when that value is a
string `s`, `Error()` is exactly `s`. -/
theorem findFirstError_discount_code (ff : Float64 → String) (tr : Traversal)
    (ord : Entries → Entries) (first : Entries) (rest : List JSON) (hv : tr.Valid) :
    findFirstError ff tr ⟨.obj [("discount_code", .arr (.obj first :: rest))]⟩
      = .ok (.discountCodeError { Reason := (first.lookup "message").getD .null }) ∧
    ∀ s, first.lookup "message" = some (.str s) →
      GoError.Error ff ord (.discountCodeError { Reason := (first.lookup "message").getD .null })
        = .ok s := by
  constructor
  · have htop := hv.top_singleton ("discount_code", JSON.arr (.obj first :: rest))
    simp [findFirstError, htop, rangeErrors, classifyEntry]
  · intro s hs
    simp [GoError.Error, DiscountCodeError.Error, hs, fmtValue]

/-- The discount-code statement at the envelope of the test `discount code not found`. -/
theorem findFirstError_discount_code_witness :
    findFirstError noFloats Traversal.listed ⟨.obj [("discount_code", .arr [.obj discountIssue])]⟩
      = .ok (.discountCodeError { Reason := (discountIssue.lookup "message").getD .null }) ∧
    ∀ s, discountIssue.lookup "message" = some (.str s) →
      GoError.Error noFloats id
          (.discountCodeError { Reason := (discountIssue.lookup "message").getD .null })
        = .ok s :=
  findFirstError_discount_code noFloats Traversal.listed id discountIssue []
    Traversal.listed_valid

/-- C4 (as amended): for every envelope whose errors mapping has the key `email` and in which
every key visited before `email` produces no result, in particular when `email` is the first or
the only key visited, `findFirstError` returns the `EmailError` with message `is invalid`,
whatever the value under `email`, and `Error()` is `email is invalid`. -/
theorem findFirstError_email (ff : Float64 → String) (tr : Traversal) (ord : Entries → Entries)
    (rr pre post : Entries) (v : JSON)
    (htop : tr.top rr = pre ++ ("email", v) :: post)
    (hpre : ∀ e, e ∈ pre → classifyEntry ff tr e.1 e.2 = none) :
    findFirstError ff tr ⟨.obj rr⟩ = .ok (.emailError { Message := "is invalid" }) ∧
    GoError.Error ff ord (.emailError { Message := "is invalid" }) = .ok "email is invalid" := by
  refine ⟨?_, rfl⟩
  show rangeErrors ff tr ⟨.obj rr⟩ (tr.top rr) = _
  rw [htop, rangeErrors_skip ff tr _ pre _ hpre]
  simp [rangeErrors, classifyEntry]

/-- The email statement at an envelope in which `email` is visited after a `title` list, which
produces nothing. -/
theorem findFirstError_email_witness :
    findFirstError noFloats Traversal.listed
        ⟨.obj [("title", .arr [.str "something is wrong"]), ("email", .null)]⟩
      = .ok (.emailError { Message := "is invalid" }) ∧
    GoError.Error noFloats id (.emailError { Message := "is invalid" })
      = .ok "email is invalid" :=
  findFirstError_email noFloats Traversal.listed id _
    [("title", .arr [.str "something is wrong"])] [] .null rfl
    (by
      intro e he
      simp only [List.mem_singleton] at he
      subst he
      rfl)

/-- C4 (as stated) fails: the envelope holds the key `email`, but the traversal visits
`shipping_address` first and the classifier returns that key's `AddressError`, not an
`EmailError`. -/
theorem findFirstError_email_counterexample :
    (∃ v, ("email", v) ∈ [("shipping_address", JSON.obj [("country", .arr [notSupportedIssue])]),
        ("email", JSON.arr [.str "is invalid"])]) ∧
    findFirstError noFloats Traversal.listed addressAndEmail
      = .ok (.addressError (some
          { Key := "shipping_address", Field := "country", Code := "not_supported",
            Message := "is not supported" })) ∧
    findFirstError noFloats Traversal.listed addressAndEmail
      ≠ .ok (.emailError { Message := "is invalid" }) := by
  refine ⟨⟨_, List.mem_cons_of_mem _ (List.mem_cons_self _ _)⟩, rfl, ?_⟩
  intro h
  have hres : findFirstError noFloats Traversal.listed addressAndEmail
      = .ok (.addressError (some
          { Key := "shipping_address", Field := "country", Code := "not_supported",
            Message := "is not supported" })) := rfl
  rw [hres] at h
  cases h

/-- C5 (the code at the failing inputs): a `line_items` field with an empty list of issues makes
`ev[0]` panic; a `discount_code` list whose first element is not an object makes the unchecked
type assertion panic; an address field with an empty list of issues makes the classifier return
a nil `*AddressError`, on which `Error()` panics. -/
theorem findFirstError_not_total :
    findFirstError noFloats Traversal.listed emptyIssues = .error .indexOutOfRange ∧
    findFirstError noFloats Traversal.listed discountOfStrings = .error .typeAssertion ∧
    findFirstError noFloats Traversal.listed emptyAddressIssues = .ok (.addressError none) ∧
    GoError.Error noFloats id (.addressError none) = .error .nilDereference :=
  ⟨rfl, rfl, rfl, rfl⟩

/-- C6 (the code at the failing input): with the fields `zip`, whose list of issues is empty,
and `country`, whose list holds one issue, visited in that order, the classifier does not skip
`zip`: it returns the nil `*AddressError` built from `zip`, although `toAddressError` on
`country` yields the error the claim describes. -/
theorem findFirstError_address_empty_first :
    findFirstError noFloats Traversal.listed emptyThenCountry = .ok (.addressError none) ∧
    toAddressError "shipping_address" "country" [notSupportedIssue]
      = some { Key := "shipping_address", Field := "country", Code := "not_supported",
               Message := "is not supported" } :=
  ⟨rfl, rfl⟩

/-- C7 (as amended): for every envelope whose errors mapping has a single top-level key `k`
other than `email` whose value `v` is neither an object nor an array (nil, a boolean, a number
or a string), `findFirstError` returns the error with the message
`unknown shopify error key k, v, type of v`, which carries `k` and the raw value `v`. -/
theorem findFirstError_unknown_key (ff : Float64 → String) (tr : Traversal)
    (ord : Entries → Entries) (k : String) (v : JSON) (hv : tr.Valid) (hk : k ≠ "email")
    (hs : v.isScalar = true) :
    findFirstError ff tr ⟨.obj [(k, v)]⟩
      = .ok (.errorString
          ("unknown shopify error key " ++ k ++ ", " ++ fmtValue ff v ++ ", " ++ typeName v)) ∧
    GoError.Error ff ord (.errorString
          ("unknown shopify error key " ++ k ++ ", " ++ fmtValue ff v ++ ", " ++ typeName v))
      = .ok ("unknown shopify error key " ++ k ++ ", " ++ fmtValue ff v ++ ", " ++ typeName v) := by
  refine ⟨?_, rfl⟩
  have htop := hv.top_singleton (k, v)
  cases v with
  | arr xs => simp [JSON.isScalar] at hs
  | obj kvs => simp [JSON.isScalar] at hs
  | null => simp [findFirstError, htop, rangeErrors, classifyEntry, hk]
  | bool b => simp [findFirstError, htop, rangeErrors, classifyEntry, hk]
  | num x => simp [findFirstError, htop, rangeErrors, classifyEntry, hk]
  | str s => simp [findFirstError, htop, rangeErrors, classifyEntry, hk]

/-- The unknown-key statement at the envelope with the key `title` holding the string `bad`. -/
theorem findFirstError_unknown_key_witness :
    findFirstError noFloats Traversal.listed scalarUnderTitle
      = .ok (.errorString "unknown shopify error key title, bad, string") ∧
    GoError.Error noFloats id (.errorString "unknown shopify error key title, bad, string")
      = .ok "unknown shopify error key title, bad, string" :=
  findFirstError_unknown_key noFloats Traversal.listed id "title" (.str "bad")
    Traversal.listed_valid (by decide) rfl

/-- C7 (as stated) fails: the key `title` holding a list of strings has none of the recognised
shapes, yet the classifier does not fail with the unknown-key error: it returns the envelope. -/
theorem findFirstError_unknown_key_counterexample :
    NoRecognisedShape "title" (.arr [.str "something is wrong"]) ∧
    findFirstError noFloats Traversal.listed usualForm = .ok (.errorResponse usualForm) ∧
    ∀ msg, findFirstError noFloats Traversal.listed usualForm ≠ .ok (.errorString msg) := by
  refine ⟨⟨by decide, ?_, ?_⟩, rfl, ?_⟩
  · intro vv h
    cases h
  · intro vv _
    decide
  · intro msg h
    have hres : findFirstError noFloats Traversal.listed usualForm
        = .ok (.errorResponse usualForm) := rfl
    rw [hres] at h
    cases h

/-- An entry whose key is not one the classifier names and whose value is an array or an object
makes the loop go on to the next key. -/
theorem classifyEntry_unrecognised (ff : Float64 → String) (tr : Traversal) (k : String)
    (v : JSON) (hk : k ∉ recognisedKeys) (hs : v.isScalar = false) :
    classifyEntry ff tr k v = none := by
  simp only [recognisedKeys, List.mem_cons, List.mem_singleton, List.not_mem_nil, or_false,
    not_or] at hk
  obtain ⟨h1, h2, h3, h4, h5, h6⟩ := hk
  cases v with
  | arr xs => simp [classifyEntry, h1, h6]
  | obj kvs => simp [classifyEntry, h1, h2, h3, h4, h5]
  | null => simp [JSON.isScalar] at hs
  | bool b => simp [JSON.isScalar] at hs
  | num x => simp [JSON.isScalar] at hs
  | str s => simp [JSON.isScalar] at hs

/-- C8 (as amended): for every envelope whose errors mapping is non-empty and holds only
unrecognised top-level keys, each with an array or an object as its value (as in the usual form
with `title` holding a list of strings), `findFirstError` returns the envelope itself, and its
`Error()` is `key: value` for the entry its own traversal visits first. -/
theorem findFirstError_unrecognised (ff : Float64 → String) (tr : Traversal)
    (ord : Entries → Entries) (rr : Entries) (hv : tr.Valid) (hord : ∀ l, (ord l).Perm l)
    (hne : rr ≠ [])
    (hkeys : ∀ k v, (k, v) ∈ rr → k ∉ recognisedKeys ∧ v.isScalar = false) :
    findFirstError ff tr ⟨.obj rr⟩ = .ok (.errorResponse ⟨.obj rr⟩) ∧
    ∃ k v rest, ord rr = (k, v) :: rest ∧ (k, v) ∈ rr ∧
      GoError.Error ff ord (.errorResponse ⟨.obj rr⟩) = .ok (k ++ ": " ++ fmtValue ff v) := by
  constructor
  · show rangeErrors ff tr ⟨.obj rr⟩ (tr.top rr) = _
    have h := rangeErrors_skip ff tr ⟨.obj rr⟩ (tr.top rr) []
      (fun e he => classifyEntry_unrecognised ff tr e.1 e.2
        (hkeys e.1 e.2 ((hv.1 rr).subset he)).1 (hkeys e.1 e.2 ((hv.1 rr).subset he)).2)
    rw [List.append_nil] at h
    rw [h]
    rfl
  · cases ho : ord rr with
    | nil =>
      have hp := hord rr
      rw [ho] at hp
      exact absurd (List.nil_perm.mp hp) hne
    | cons e rest =>
      obtain ⟨k, v⟩ := e
      refine ⟨k, v, rest, rfl, (hord rr).subset (by rw [ho]; exact List.mem_cons_self _ _), ?_⟩
      simp [GoError.Error, ErrorResponse.Error, ho]

/-- The generic-error statement at the usual error form, `title` holding the list with the
string `something is wrong`. -/
theorem findFirstError_unrecognised_witness :
    findFirstError noFloats Traversal.listed
        ⟨.obj [("title", .arr [.str "something is wrong"])]⟩
      = .ok (.errorResponse ⟨.obj [("title", .arr [.str "something is wrong"])]⟩) ∧
    ∃ k v rest, id [("title", JSON.arr [.str "something is wrong"])] = (k, v) :: rest ∧
      (k, v) ∈ [("title", JSON.arr [.str "something is wrong"])] ∧
      GoError.Error noFloats id
          (.errorResponse ⟨.obj [("title", .arr [.str "something is wrong"])]⟩)
        = .ok (k ++ ": " ++ fmtValue noFloats v) :=
  findFirstError_unrecognised noFloats Traversal.listed id
    [("title", .arr [.str "something is wrong"])] Traversal.listed_valid
    (fun l => List.Perm.refl l) (by simp)
    (by
      intro k v h
      simp only [List.mem_singleton, Prod.mk.injEq] at h
      obtain ⟨rfl, rfl⟩ := h
      exact ⟨by decide, rfl⟩)

/-- C8 (as stated) fails: the envelope whose only key is the unrecognised `title`, holding the
bare string `bad`, is not returned as the generic error: the classifier returns the unknown-key
error. -/
theorem findFirstError_unrecognised_counterexample :
    (∀ k v, (k, v) ∈ [("title", JSON.str "bad")] → k ∉ recognisedKeys) ∧
    findFirstError noFloats Traversal.listed scalarUnderTitle
      = .ok (.errorString "unknown shopify error key title, bad, string") ∧
    findFirstError noFloats Traversal.listed scalarUnderTitle
      ≠ .ok (.errorResponse scalarUnderTitle) := by
  refine ⟨?_, rfl, ?_⟩
  · intro k v h
    simp only [List.mem_singleton, Prod.mk.injEq] at h
    obtain ⟨rfl, rfl⟩ := h
    decide
  · intro h
    have hres : findFirstError noFloats Traversal.listed scalarUnderTitle
        = .ok (.errorString "unknown shopify error key title, bad, string") := rfl
    rw [hres] at h
    cases h

/-- C9: for every envelope whose errors value is a bare string `s`, `findFirstError` returns the
envelope itself and its `Error()` is exactly `s`. -/
theorem findFirstError_bare_string (ff : Float64 → String) (tr : Traversal)
    (ord : Entries → Entries) (s : String) :
    findFirstError ff tr ⟨.str s⟩ = .ok (.errorResponse ⟨.str s⟩) ∧
    GoError.Error ff ord (.errorResponse ⟨.str s⟩) = .ok s :=
  ⟨rfl, rfl⟩

/-- C10: for every envelope with no keys at all (errors absent or null, or an empty mapping),
`findFirstError` returns the envelope itself and its `Error()` is exactly
`unknown, unparsed error`. -/
theorem findFirstError_no_keys (ff : Float64 → String) (tr : Traversal)
    (ord : Entries → Entries) (r : ErrorResponse) (hv : tr.Valid) (hord : ∀ l, (ord l).Perm l)
    (h : r.Errors = .null ∨ r.Errors = .obj []) :
    findFirstError ff tr r = .ok (.errorResponse r) ∧
    GoError.Error ff ord (.errorResponse r) = .ok "unknown, unparsed error" := by
  obtain ⟨e⟩ := r
  rcases h with h | h
  · simp only at h
    subst h
    exact ⟨rfl, rfl⟩
  · simp only at h
    subst h
    have ho : ord [] = [] := List.perm_nil.mp (hord [])
    constructor
    · simp [findFirstError, hv.top_nil, rangeErrors]
    · simp [GoError.Error, ErrorResponse.Error, ho]

/-- The no-keys statement at the envelope with an empty errors mapping, visited in reverse
order. -/
theorem findFirstError_no_keys_witness :
    findFirstError noFloats Traversal.reversed ⟨.obj []⟩ = .ok (.errorResponse ⟨.obj []⟩) ∧
    GoError.Error noFloats List.reverse (.errorResponse ⟨.obj []⟩)
      = .ok "unknown, unparsed error" :=
  findFirstError_no_keys noFloats Traversal.reversed List.reverse ⟨.obj []⟩
    Traversal.reversed_valid (fun l => List.reverse_perm l) (Or.inr rfl)

/-! ## `CheckResponse` and `Client.Do` -/

theorem CheckResponse_success (ff : Float64 → String) (tr : Traversal) (r : Response)
    (h : 200 ≤ r.StatusCode ∧ r.StatusCode ≤ 299) : CheckResponse ff tr r = .ok none := by
  unfold CheckResponse
  by_cases h1 : r.StatusCode = 202
  · rw [if_pos h1]
  · have h2 : ¬ r.StatusCode = 403 := by omega
    rw [if_neg h1, if_neg h2, if_pos h]

theorem CheckResponse_failure (ff : Float64 → String) (tr : Traversal) (r : Response)
    (h : ¬ (200 ≤ r.StatusCode ∧ r.StatusCode ≤ 299)) (h403 : r.StatusCode ≠ 403) :
    CheckResponse ff tr r =
      match findFirstError ff tr (unmarshalErrorResponse r.Body) with
      | .ok e => .ok (some e)
      | .error p => .error p := by
  have h1 : ¬ r.StatusCode = 202 := by omega
  unfold CheckResponse
  rw [if_neg h1, if_neg h403, if_neg h]

theorem foldl_errors_none (members : Entries)
    (h : members.any (fun e => matchesField "errors" e.1) = false) (acc : JSON) :
    members.foldl (fun acc e => if matchesField "errors" e.1 then e.2 else acc) acc = acc := by
  induction members generalizing acc with
  | nil => rfl
  | cons e es ih =>
    rw [List.any_cons, Bool.or_eq_false_iff] at h
    rw [List.foldl_cons, h.1]
    exact ih h.2 acc

theorem unmarshalErrorResponse_none (b : Body) (h : b.mapsToEnvelope = false) :
    unmarshalErrorResponse b = ⟨.null⟩ := by
  cases b with
  | json v =>
    cases v with
    | obj members =>
      show ErrorResponse.mk _ = _
      rw [foldl_errors_none members h]
    | _ => rfl
  | _ => rfl

/-- C11: for every response with status 202 Accepted, whatever its body, `CheckResponse`
returns nil. -/
theorem CheckResponse_accepted (ff : Float64 → String) (tr : Traversal) (r : Response)
    (h : r.StatusCode = 202) : CheckResponse ff tr r = .ok none := by
  unfold CheckResponse
  rw [if_pos h]

/-- The accepted statement at a 202 response that carries a well-formed errors object. -/
theorem CheckResponse_accepted_witness :
    CheckResponse noFloats Traversal.listed (accepted "/poll" "1" emailBody) = .ok none :=
  CheckResponse_accepted noFloats Traversal.listed (accepted "/poll" "1" emailBody) rfl

/-- C12 (as amended): `CheckResponse` considers a response an error only if its status code is
outside the 200 range; 202 Accepted lies inside and is no error: whenever `CheckResponse`
returns a non-nil error, the status is below 200 or above 299. -/
theorem CheckResponse_error_status (ff : Float64 → String) (tr : Traversal) (r : Response)
    (e : GoError) (h : CheckResponse ff tr r = .ok (some e)) :
    r.StatusCode < 200 ∨ 299 < r.StatusCode := by
  by_cases hc : 200 ≤ r.StatusCode ∧ r.StatusCode ≤ 299
  · rw [CheckResponse_success ff tr r hc] at h
    cases h
  · omega

/-- The error-status statement at a 404 response without body. -/
theorem CheckResponse_error_status_witness :
    (plainResponse 404 .empty).StatusCode < 200 ∨ 299 < (plainResponse 404 .empty).StatusCode :=
  CheckResponse_error_status noFloats Traversal.listed (plainResponse 404 .empty)
    (.errorResponse ⟨.null⟩) rfl

/-- C12 (as stated) fails: for a response with status 202 `CheckResponse` returns nil, not a
non-nil error. -/
theorem CheckResponse_error_status_counterexample :
    (accepted "/poll" "1" .empty).StatusCode = 202 ∧
    CheckResponse noFloats Traversal.listed (accepted "/poll" "1" .empty) = .ok none ∧
    ¬ ∃ e, CheckResponse noFloats Traversal.listed (accepted "/poll" "1" .empty)
        = .ok (some e) := by
  refine ⟨rfl, rfl, ?_⟩
  rintro ⟨e, h⟩
  have hres : CheckResponse noFloats Traversal.listed (accepted "/poll" "1" .empty)
      = .ok none := rfl
  rw [hres] at h
  cases h

/-- C13 (the code at the failing input): for the status 422, outside 200-299, and a body whose
`line_items` field has an empty list of issues, `CheckResponse` yields no error value: the
classifier panics at `ev[0]`. -/
theorem CheckResponse_panics :
    CheckResponse noFloats Traversal.listed (plainResponse 422 emptyIssuesBody)
      = .error .indexOutOfRange :=
  rfl

/-- C14: for every response with status 403, `CheckResponse` returns the error whose message is
`forbidden`, whatever the body. -/
theorem CheckResponse_forbidden (ff : Float64 → String) (tr : Traversal)
    (ord : Entries → Entries) (r : Response) (h : r.StatusCode = 403) :
    CheckResponse ff tr r = .ok (some (.errorString "forbidden")) ∧
    GoError.Error ff ord (.errorString "forbidden") = .ok "forbidden" := by
  refine ⟨?_, rfl⟩
  have h1 : ¬ r.StatusCode = 202 := by omega
  unfold CheckResponse
  rw [if_neg h1, if_pos h]

/-- The forbidden statement at a 403 response whose body would classify as an email error. -/
theorem CheckResponse_forbidden_witness :
    CheckResponse noFloats Traversal.listed (plainResponse 403 emailBody)
      = .ok (some (.errorString "forbidden")) ∧
    GoError.Error noFloats id (.errorString "forbidden") = .ok "forbidden" :=
  CheckResponse_forbidden noFloats Traversal.listed id (plainResponse 403 emailBody) rfl

/-- C15: for every response with a status outside 200-299 other than 403 whose body cannot be
read, is empty, or is not JSON that maps to the error envelope, `CheckResponse` returns the
empty envelope as the error, whose message is `unknown, unparsed error`. -/
theorem CheckResponse_unparsed (ff : Float64 → String) (tr : Traversal)
    (ord : Entries → Entries) (r : Response)
    (hs : ¬ (200 ≤ r.StatusCode ∧ r.StatusCode ≤ 299)) (h403 : r.StatusCode ≠ 403)
    (hb : r.Body.mapsToEnvelope = false) :
    CheckResponse ff tr r = .ok (some (.errorResponse ⟨.null⟩)) ∧
    GoError.Error ff ord (.errorResponse ⟨.null⟩) = .ok "unknown, unparsed error" := by
  refine ⟨?_, rfl⟩
  rw [CheckResponse_failure ff tr r hs h403, unmarshalErrorResponse_none r.Body hb]
  rfl

/-- The unparsed statement at a 500 response whose body is not JSON. -/
theorem CheckResponse_unparsed_witness :
    CheckResponse noFloats Traversal.listed (plainResponse 500 .malformed)
      = .ok (some (.errorResponse ⟨.null⟩)) ∧
    GoError.Error noFloats id (.errorResponse ⟨.null⟩) = .ok "unknown, unparsed error" :=
  CheckResponse_unparsed noFloats Traversal.listed id (plainResponse 500 .malformed)
    (by decide) (by decide) rfl

/-- C16: for every call of `Client.Do` in which the transport fails, `Do` returns a nil response
and, if the context is done, the context's error, otherwise the transport error unchanged; the
request was handed to the transport once and is not issued again. -/
theorem Do_transport_failure {T : Type} (ff : Float64 → String) (tr : Traversal)
    (dec : JSON → T → T × Option DecodeError) (ctx : Context) (req : Request) (v : Target T)
    (w : World) (e : TransportError) (rest : List (Except TransportError Response))
    (hs : w.script = .error e :: rest) :
    Client.Do ff tr dec ctx req v w =
      .ok (⟨none,
            (match ctx (w.events ++ [.request req]) with
              | some ce => some (.context ce)
              | none => some (.transport e)), v⟩,
           ⟨rest, w.events ++ [.request req]⟩) := by
  obtain ⟨script, events⟩ := w
  simp only at hs
  subst hs
  simp only [Client.Do, World.roundTrip]
  cases ctx (events ++ [.request req]) <;> rfl

/-- The transport-failure statement at a refused connection under a cancelled context. -/
theorem Do_transport_failure_witness :
    Client.Do noFloats Traversal.listed sampleRatesDecoder cancelled sampleRequest .nil
        ⟨[.error ⟨"connection refused"⟩], []⟩ =
      .ok (⟨none, some (.context .canceled), .nil⟩, ⟨[], [.request sampleRequest]⟩) :=
  Do_transport_failure noFloats Traversal.listed sampleRatesDecoder cancelled sampleRequest .nil
    ⟨[.error ⟨"connection refused"⟩], []⟩ ⟨"connection refused"⟩ [] rfl

/-- C17 (the code at the failing input): the context was cancelled before the call, the
transport, which never sees the context, answers 200, and `Do` returns that response with a nil
error, not the context's error. -/
theorem Do_ignores_cancelled_context :
    cancelled [] = some .canceled ∧
    Client.Do noFloats Traversal.listed sampleRatesDecoder cancelled sampleRequest .nil
        ⟨[.ok (plainResponse 200 .empty)], []⟩ =
      .ok (⟨some (plainResponse 200 .empty), none, .nil⟩, ⟨[], [.request sampleRequest]⟩) :=
  ⟨rfl, rfl⟩

/-- C18 (as amended): for every response with a status in 200-299, `Client.Do` called with a
non-nil JSON decode target returns the response with a nil error and leaves the target unchanged
when the body has no bytes or white space only; it returns the response with the decode error and
leaves the target unchanged when the body does not begin with a complete JSON value; and when
the body begins with a complete JSON value that other bytes follow, it decodes that value as if
it stood alone: the error is nil when the value fits the target, which then holds the value. -/
theorem Do_empty_body {T : Type} (ff : Float64 → String) (tr : Traversal)
    (dec : JSON → T → T × Option DecodeError) (ctx : Context) (req : Request) (t : T)
    (status : Int) (header : List (String × String))
    (rest : List (Except TransportError Response)) (events : List Event)
    (hc : 200 ≤ status ∧ status ≤ 299) :
    Client.Do ff tr dec ctx req (.value t) ⟨.ok ⟨status, header, .empty⟩ :: rest, events⟩ =
      .ok (⟨some ⟨status, header, .empty⟩, none, .value t⟩,
        ⟨rest, events ++ [.request req]⟩) ∧
    Client.Do ff tr dec ctx req (.value t) ⟨.ok ⟨status, header, .blank⟩ :: rest, events⟩ =
      .ok (⟨some ⟨status, header, .blank⟩, none, .value t⟩,
        ⟨rest, events ++ [.request req]⟩) ∧
    Client.Do ff tr dec ctx req (.value t) ⟨.ok ⟨status, header, .malformed⟩ :: rest, events⟩ =
      .ok (⟨some ⟨status, header, .malformed⟩, some (.decode .invalid), .value t⟩,
        ⟨rest, events ++ [.request req]⟩) ∧
    (∀ v t1, dec v t = (t1, none) →
      Client.Do ff tr dec ctx req (.value t)
          ⟨.ok ⟨status, header, .trailing v⟩ :: rest, events⟩ =
        .ok (⟨some ⟨status, header, .trailing v⟩, none, .value t1⟩,
          ⟨rest, events ++ [.request req]⟩)) ∧
    (∀ v, ∃ (err : Option ClientError) (target : Target T),
      Client.Do ff tr dec ctx req (.value t)
          ⟨.ok ⟨status, header, .trailing v⟩ :: rest, events⟩ =
        .ok (⟨some ⟨status, header, .trailing v⟩, err, target⟩,
          ⟨rest, events ++ [.request req]⟩) ∧
      Client.Do ff tr dec ctx req (.value t) ⟨.ok ⟨status, header, .json v⟩ :: rest, events⟩ =
        .ok (⟨some ⟨status, header, .json v⟩, err, target⟩,
          ⟨rest, events ++ [.request req]⟩)) := by
  refine ⟨?_, ?_, ?_, ?_, ?_⟩
  · simp only [Client.Do, World.roundTrip,
      CheckResponse_success ff tr ⟨status, header, .empty⟩ hc, decodeBody]
  · simp only [Client.Do, World.roundTrip,
      CheckResponse_success ff tr ⟨status, header, .blank⟩ hc, decodeBody]
  · simp only [Client.Do, World.roundTrip,
      CheckResponse_success ff tr ⟨status, header, .malformed⟩ hc, decodeBody]
  · intro v t1 hd
    simp only [Client.Do, World.roundTrip,
      CheckResponse_success ff tr ⟨status, header, .trailing v⟩ hc, decodeBody, hd]
  · intro v
    simp only [Client.Do, World.roundTrip,
      CheckResponse_success ff tr ⟨status, header, .trailing v⟩ hc,
      CheckResponse_success ff tr ⟨status, header, .json v⟩ hc, decodeBody]
    rcases hd : dec v t with ⟨t1, _ | e⟩
    · exact ⟨none, .value t1, rfl, rfl⟩
    · cases e with
      | eof => exact ⟨none, .value t1, rfl, rfl⟩
      | read => exact ⟨some (.decode .read), .value t1, rfl, rfl⟩
      | invalid => exact ⟨some (.decode .invalid), .value t1, rfl, rfl⟩
      | mismatch what => exact ⟨some (.decode (.mismatch what)), .value t1, rfl, rfl⟩

/-- The body statement at status 200 without headers, with a target that holds one rate. -/
theorem Do_empty_body_witness :
    Client.Do noFloats Traversal.listed sampleRatesDecoder background sampleRequest
        (.value ⟨[.str "rate"]⟩) ⟨[.ok ⟨200, [], .empty⟩], []⟩ =
      .ok (⟨some ⟨200, [], .empty⟩, none, .value ⟨[.str "rate"]⟩⟩,
        ⟨[], [] ++ [.request sampleRequest]⟩) ∧
    Client.Do noFloats Traversal.listed sampleRatesDecoder background sampleRequest
        (.value ⟨[.str "rate"]⟩) ⟨[.ok ⟨200, [], .malformed⟩], []⟩ =
      .ok (⟨some ⟨200, [], .malformed⟩, some (.decode .invalid), .value ⟨[.str "rate"]⟩⟩,
        ⟨[], [] ++ [.request sampleRequest]⟩) ∧
    Client.Do noFloats Traversal.listed sampleRatesDecoder background sampleRequest
        (.value ⟨[.str "rate"]⟩) ⟨[.ok ⟨200, [], .trailing (.obj [("shipping_rates", .arr [])])⟩],
          []⟩ =
      .ok (⟨some ⟨200, [], .trailing (.obj [("shipping_rates", .arr [])])⟩, none, .value ⟨[]⟩⟩,
        ⟨[], [] ++ [.request sampleRequest]⟩) :=
  have h := Do_empty_body noFloats Traversal.listed sampleRatesDecoder background sampleRequest
    ⟨[.str "rate"]⟩ 200 [] [] [] (by decide)
  ⟨h.1, h.2.2.1, h.2.2.2.1 (.obj [("shipping_rates", .arr [])]) ⟨[]⟩ rfl⟩

/-- C18 (as stated) fails: a body that holds an object with an empty `shipping_rates` list
followed by the word `junk` is not empty and is no JSON text, which `CheckResponse` shows by
ignoring the `errors` member of such a body under status 422; under status 200 `Do` returns a
nil error and has overwritten the target. A body of white space only is not empty and no JSON
text either, and gives a nil error as well. -/
theorem Do_empty_body_counterexample :
    Client.Do noFloats Traversal.listed sampleRatesDecoder background sampleRequest
        (.value ⟨[.str "rate"]⟩) ⟨[.ok ⟨200, [], .trailing (.obj [("shipping_rates", .arr [])])⟩],
          []⟩ =
      .ok (⟨some ⟨200, [], .trailing (.obj [("shipping_rates", .arr [])])⟩, none, .value ⟨[]⟩⟩,
        ⟨[], [.request sampleRequest]⟩) ∧
    CheckResponse noFloats Traversal.listed
        ⟨422, [], .trailing (.obj [("errors", .obj [("email", .arr [.str "is invalid"])])])⟩ =
      .ok (some (.errorResponse ⟨.null⟩)) ∧
    CheckResponse noFloats Traversal.listed
        ⟨422, [], .json (.obj [("errors", .obj [("email", .arr [.str "is invalid"])])])⟩ =
      .ok (some (.emailError ⟨"is invalid"⟩)) ∧
    Client.Do noFloats Traversal.listed sampleRatesDecoder background sampleRequest
        (.value ⟨[.str "rate"]⟩) ⟨[.ok ⟨200, [], .blank⟩], []⟩ =
      .ok (⟨some ⟨200, [], .blank⟩, none, .value ⟨[.str "rate"]⟩⟩,
        ⟨[], [.request sampleRequest]⟩) :=
  ⟨rfl, rfl, rfl, rfl⟩

/-! ## The pollers -/

theorem Do_quiet {T : Type} (ff : Float64 → String) (tr : Traversal)
    (dec : JSON → T → T × Option DecodeError) (ctx : Context) (req : Request) (t : T)
    (resp : Response) (rest : List (Except TransportError Response)) (events : List Event)
    (hc : 200 ≤ resp.StatusCode ∧ resp.StatusCode ≤ 299) (hq : Quiet dec resp.Body) :
    Client.Do ff tr dec ctx req (.value t) ⟨.ok resp :: rest, events⟩ =
      .ok (⟨some resp, none, .value (decodeBody dec resp.Body t).1⟩,
        ⟨rest, events ++ [.request req]⟩) := by
  simp only [Client.Do, World.roundTrip, CheckResponse_success ff tr resp hc]
  rcases h : decodeBody dec resp.Body t with ⟨t1, e⟩
  have hq1 := hq t
  rw [h] at hq1
  rcases hq1 with h1 | h1 <;> simp only at h1 <;> subst h1 <;> rfl

/-- The poll loop on a script of `202` answers followed by a `200` answer: it sleeps and sends
the request of its state, then one sleep and one follow-up per `202` answer, and breaks with
the wrapper all bodies were decoded into. -/
theorem pollLoop_script {T : Type} (c : Client) (ff : Float64 → String) (tr : Traversal)
    (dec : JSON → T → T × Option DecodeError) (ctx : Context) (fin : Response)
    (hfin : fin.StatusCode = 200) (hq : Quiet dec fin.Body) :
    ∀ (steps : List (Response × Request)) (fuel : Nat) (st : PollState) (t : T)
      (events : List Event) (req0 : Request),
      st.pollStatus = 202 → c.NewRequest noBody "GET" st.pollURL none = .ok req0 →
      (∀ s, s ∈ steps → AcceptedStep c dec s) → steps.length + 2 ≤ fuel →
      pollLoop c ff tr dec ctx fuel st t ⟨scriptOf steps fin, events⟩ =
        some (.ok (⟨some (decodeAll dec (bodiesOf steps fin) t), some fin, none⟩,
          ⟨[], events ++ (.sleep (sleepDuration st.pollWait) :: .request req0 ::
            followUps steps)⟩)) := by
  intro steps
  induction steps with
  | nil =>
    intro fuel st t events req0 hst hreq _ hfuel
    obtain ⟨f, rfl⟩ : ∃ f, fuel = f + 2 := ⟨fuel - 2, by simp at hfuel; omega⟩
    have hne : ¬ fin.StatusCode ≠ 200 := by simp [hfin]
    have hdo := Do_quiet ff tr dec ctx req0 t fin [] (events ++ [.sleep (sleepDuration st.pollWait)])
      (by omega) hq
    simp only [pollLoop, hst, ne_eq, not_true_eq_false, if_false, hreq, World.sleep, scriptOf,
      List.map_nil, List.nil_append, hdo, hfin, bodiesOf, decodeAll, List.foldl_cons,
      List.foldl_nil, followUps]
    simp
  | cons s steps ih =>
    intro fuel st t events req0 hst hreq hsteps hfuel
    obtain ⟨f, rfl⟩ : ∃ f, fuel = f + 1 := ⟨fuel - 1, by simp at hfuel; omega⟩
    obtain ⟨hs202, hsreq, hsq⟩ := hsteps s (List.mem_cons_self _ _)
    have hdo := Do_quiet ff tr dec ctx req0 t s.1 (scriptOf steps fin)
      (events ++ [.sleep (sleepDuration st.pollWait)]) (by omega) hsq
    have hih := ih f ⟨s.1.headerGet "Location", s.1.headerGet "Retry-After", s.1.StatusCode,
        some s.1⟩ (decodeBody dec s.1.Body t).1
      (events ++ [.sleep (sleepDuration st.pollWait)] ++ [.request req0]) s.2 hs202 hsreq
      (fun x hx => hsteps x (List.mem_cons_of_mem _ hx))
      (by simp only [List.length_cons] at hfuel; omega)
    have hscript : scriptOf (s :: steps) fin = .ok s.1 :: scriptOf steps fin := rfl
    simp only [pollLoop, hst, ne_eq, not_true_eq_false, if_false, hreq, World.sleep, hscript,
      hdo, hih]
    simp [bodiesOf, decodeAll, followUps]

theorem ListShippingRates_script {α : Type} (c : Client) (ff : Float64 → String)
    (tr : Traversal)
    (dec : JSON → ShippingRateRequest α → ShippingRateRequest α × Option DecodeError)
    (ctx : Context) (token : String) (fin : Response) (steps : List (Response × Request))
    (fuel : Nat) (events : List Event) (q0 : Request)
    (hfin : fin.StatusCode = 200) (hq : Quiet dec fin.Body)
    (hq0 : c.NewRequest noBody "GET" ("/admin/checkouts/" ++ token ++ "/shipping_rates.json")
      none = .ok q0)
    (hsteps : ∀ s, s ∈ steps → AcceptedStep c dec s) (hfuel : steps.length + 2 ≤ fuel) :
    CheckoutService.ListShippingRates c ff tr dec ctx fuel token ⟨scriptOf steps fin, events⟩ =
      some (.ok (⟨(decodeAll dec (bodiesOf steps fin) ⟨[]⟩).CheckoutShipping, some fin, none⟩,
        ⟨[], events ++ (.sleep (sleepDuration "0") :: .request q0 :: followUps steps)⟩)) := by
  have h := pollLoop_script c ff tr dec ctx fin hfin hq steps fuel
    ⟨"/admin/checkouts/" ++ token ++ "/shipping_rates.json", "0", 202, none⟩ ⟨[]⟩ events q0
    rfl hq0 hsteps hfuel
  simp only [CheckoutService.ListShippingRates, h]

theorem Payment_script {π : Type} (c : Client) (ff : Float64 → String) (tr : Traversal)
    (enc : PaymentRequest π → Except RequestError String)
    (dec : JSON → PaymentRequest π → PaymentRequest π × Option DecodeError)
    (ctx : Context) (token : String) (payment : Option π) (fin : Response)
    (steps : List (Response × Request)) (fuel : Nat) (events : List Event) (p0 : Request)
    (hfin : fin.StatusCode = 200) (hq : Quiet dec fin.Body)
    (hp0 : c.NewRequest enc "POST" ("/admin/checkouts/" ++ token ++ "/payments.json")
      (some ⟨payment⟩) = .ok p0)
    (hsteps : ∀ s, s ∈ steps → AcceptedStep c dec s) (hfuel : steps.length + 2 ≤ fuel) :
    CheckoutService.Payment c ff tr enc dec ctx fuel token payment
        ⟨scriptOf steps fin, events⟩ =
      some (.ok (⟨(decodeAll dec (bodiesOf steps fin) ⟨payment⟩).Payment, some fin, none⟩,
        ⟨[], events ++ (.request p0 :: followUps steps)⟩)) := by
  cases steps with
  | nil =>
    obtain ⟨f, rfl⟩ : ∃ f, fuel = f + 1 := ⟨fuel - 1, by simp at hfuel; omega⟩
    have hdo := Do_quiet ff tr dec ctx p0 ⟨payment⟩ fin [] events (by omega) hq
    have hne : ¬ fin.StatusCode ≠ 200 := by simp [hfin]
    simp only [CheckoutService.Payment, hp0, scriptOf, List.map_nil, List.nil_append, hdo,
      pollLoop, hfin, bodiesOf, decodeAll, List.foldl_cons, List.foldl_nil, followUps]
    simp
  | cons s steps =>
    obtain ⟨hs202, hsreq, hsq⟩ := hsteps s (List.mem_cons_self _ _)
    have hdo := Do_quiet ff tr dec ctx p0 ⟨payment⟩ s.1 (scriptOf steps fin) events
      (by omega) hsq
    have hloop := pollLoop_script c ff tr dec ctx fin hfin hq steps fuel
      ⟨s.1.headerGet "Location", s.1.headerGet "Retry-After", s.1.StatusCode, some s.1⟩
      (decodeBody dec s.1.Body ⟨payment⟩).1 (events ++ [.request p0]) s.2 hs202 hsreq
      (fun x hx => hsteps x (List.mem_cons_of_mem _ hx))
      (by simp only [List.length_cons] at hfuel; omega)
    have hscript : scriptOf (s :: steps) fin = .ok s.1 :: scriptOf steps fin := rfl
    simp only [CheckoutService.Payment, hp0, hscript, hdo, hloop]
    simp [bodiesOf, decodeAll, followUps]

theorem requestsOf_followUps (steps : List (Response × Request)) :
    requestsOf (followUps steps) = steps.map (fun s => s.2) := by
  induction steps with
  | nil => rfl
  | cons s steps ih => simp [followUps, requestsOf, ih]

theorem decodeAll_empty {T : Type} (dec : JSON → T → T × Option DecodeError)
    (steps : List (Response × Request)) (fin : Response) (t : T)
    (h : ∀ s, s ∈ steps → s.1.Body = .empty) :
    decodeAll dec (bodiesOf steps fin) t = (decodeBody dec fin.Body t).1 := by
  induction steps with
  | nil => rfl
  | cons s steps ih =>
    have hs : s.1.Body = .empty := h s (List.mem_cons_self _ _)
    have ih1 := ih (fun x hx => h x (List.mem_cons_of_mem _ hx))
    simp only [decodeAll, bodiesOf, List.map_cons, List.cons_append, List.foldl_cons, hs,
      decodeBody] at ih1 ⊢
    exact ih1

theorem NewRequest_get (c : Client) (url : String) (q : Request)
    (h : c.NewRequest noBody "GET" url none = .ok q) :
    q.Method = "GET" ∧ c.parseURL url = .ok q.URL ∧ q.Body = none := by
  unfold Client.NewRequest at h
  cases hp : c.parseURL url with
  | error e => rw [hp] at h; cases h
  | ok u =>
    rw [hp] at h
    cases hn : c.newRequest "GET" u with
    | some e => simp [hn] at h
    | none =>
      simp only [hn, Except.ok.injEq] at h
      subst h
      exact ⟨rfl, rfl, rfl⟩

theorem digitValue_digitChar (d : Nat) (h : d < 10) : digitValue (Nat.digitChar d) = some d := by
  interval_cases d <;> rfl

theorem parseDigits_digits (ds : List Nat) (hd : ∀ d, d ∈ ds → d < 10) :
    ∀ acc, parseDigits (ds.map Nat.digitChar) acc
      = some (acc * 10 ^ ds.length + Nat.ofDigits 10 ds.reverse) := by
  induction ds with
  | nil => intro acc; simp [parseDigits]
  | cons d ds ih =>
    intro acc
    have hd1 : d < 10 := hd d (List.mem_cons_self _ _)
    rw [List.map_cons, parseDigits, digitValue_digitChar d hd1]
    simp only
    rw [ih (fun x hx => hd x (List.mem_cons_of_mem _ hx)), List.reverse_cons,
      Nat.ofDigits_append, Nat.ofDigits_singleton, List.length_reverse, List.length_cons]
    congr 1
    ring

theorem splitSign_unsigned (ch : Char) (cs : List Char) (h1 : ch ≠ '-') (h2 : ch ≠ '+') :
    splitSign ⟨ch :: cs⟩ = (false, ch :: cs) := by
  unfold splitSign
  split
  · next ds heq =>
    simp only [List.cons.injEq] at heq
    exact absurd heq.1 h1
  · next ds heq =>
    simp only [List.cons.injEq] at heq
    exact absurd heq.1 h2
  · rfl

theorem digitChar_not_sign (d : Nat) (h : d < 10) :
    Nat.digitChar d ≠ '-' ∧ Nat.digitChar d ≠ '+' := by
  interval_cases d <;> decide

theorem wrap64_small (x : Int) (h0 : -9223372036854775808 ≤ x) (h1 : x < 9223372036854775808) :
    wrap64 x = x := by
  unfold wrap64
  omega

/-- A run of decimal digits with a value up to 9223372036 gives a sleep of that many seconds. -/
theorem sleepDuration_digits (ds : List Nat) (hne : ds ≠ []) (hd : ∀ d, d ∈ ds → d < 10)
    (hb : (Nat.ofDigits 10 ds.reverse : Nat) ≤ 9223372036) :
    sleepDuration (String.mk (ds.map Nat.digitChar))
      = ((Nat.ofDigits 10 ds.reverse : Nat) : Int) * 1000000000 := by
  cases ds with
  | nil => exact absurd rfl hne
  | cons d ds =>
    have hd1 : d < 10 := hd d (List.mem_cons_self _ _)
    have hp := parseDigits_digits (d :: ds) hd 0
    rw [List.map_cons, Nat.zero_mul, Nat.zero_add] at hp
    have hs := splitSign_unsigned (Nat.digitChar d) (ds.map Nat.digitChar)
      (digitChar_not_sign d hd1).1 (digitChar_not_sign d hd1).2
    generalize (Nat.ofDigits 10 (d :: ds).reverse : Nat) = n at hb hp ⊢
    have hc : clampInt64 false n = (n : Int) := by
      unfold clampInt64
      have : ¬ n ≥ 9223372036854775808 := by omega
      simp [this]
    unfold sleepDuration Atoi
    rw [List.map_cons, hs]
    simp only [List.isEmpty_cons, Bool.false_eq_true, if_false, hp, hc]
    apply wrap64_small <;> omega

/-- A header that is no signed decimal integer gives a sleep of zero. -/
theorem sleepDuration_not_decimal (h : String) (hn : isDecimalInteger h = false) :
    sleepDuration h = 0 := by
  have ha : Atoi h = 0 := by
    unfold isDecimalInteger at hn
    unfold Atoi
    by_cases he : (splitSign h).2.isEmpty = true
    · rw [if_pos he]
    · rw [if_neg he]
      have he1 : (splitSign h).2.isEmpty = false := by simpa using he
      rw [he1] at hn
      cases hp : parseDigits (splitSign h).2 0 with
      | none => rfl
      | some n => simp [hp] at hn
  unfold sleepDuration
  rw [ha]
  rfl

/-- C19 (as amended): for every script of `n` answers with status 202, each with a `Location`
that parses and a body that is empty or decodes without error, followed by one answer with
status 200 whose body decodes without error, `ListShippingRates` and `Payment` each return, given
fuel for `n + 2` iterations, with a nil error and the resource of the wrapper the bodies were
decoded into in order; the script is used up and the requests issued are the triggering request
followed by exactly `n` requests, all `GET` without body, to the URLs of the `Location` headers
in that order. When the 202 bodies are empty the resource is the terminal body decoded onto the
initial wrapper. -/
theorem pollers_follow_locations {α π : Type} (c : Client) (ff : Float64 → String)
    (tr : Traversal)
    (decS : JSON → ShippingRateRequest α → ShippingRateRequest α × Option DecodeError)
    (enc : PaymentRequest π → Except RequestError String)
    (decP : JSON → PaymentRequest π → PaymentRequest π × Option DecodeError)
    (ctx : Context) (token : String) (payment : Option π) (fin : Response)
    (steps : List (Response × Request)) (fuel : Nat) (q0 p0 : Request)
    (hfin : fin.StatusCode = 200) (hqS : Quiet decS fin.Body) (hqP : Quiet decP fin.Body)
    (hq0 : c.NewRequest noBody "GET" ("/admin/checkouts/" ++ token ++ "/shipping_rates.json")
      none = .ok q0)
    (hp0 : c.NewRequest enc "POST" ("/admin/checkouts/" ++ token ++ "/payments.json")
      (some ⟨payment⟩) = .ok p0)
    (hsS : ∀ s, s ∈ steps → AcceptedStep c decS s)
    (hsP : ∀ s, s ∈ steps → AcceptedStep c decP s) (hfuel : steps.length + 2 ≤ fuel) :
    (∃ w1, CheckoutService.ListShippingRates c ff tr decS ctx fuel token
        ⟨scriptOf steps fin, []⟩ =
          some (.ok (⟨(decodeAll decS (bodiesOf steps fin) ⟨[]⟩).CheckoutShipping, some fin,
            none⟩, w1)) ∧
      w1.script = [] ∧ requestsOf w1.events = q0 :: steps.map (fun s => s.2)) ∧
    (∃ w2, CheckoutService.Payment c ff tr enc decP ctx fuel token payment
        ⟨scriptOf steps fin, []⟩ =
          some (.ok (⟨(decodeAll decP (bodiesOf steps fin) ⟨payment⟩).Payment, some fin,
            none⟩, w2)) ∧
      w2.script = [] ∧ requestsOf w2.events = p0 :: steps.map (fun s => s.2)) ∧
    (∀ s, s ∈ steps →
      s.2.Method = "GET" ∧ c.parseURL (s.1.headerGet "Location") = .ok s.2.URL ∧
        s.2.Body = none) ∧
    ((∀ s, s ∈ steps → s.1.Body = .empty) →
      decodeAll decS (bodiesOf steps fin) ⟨[]⟩ = (decodeBody decS fin.Body ⟨[]⟩).1 ∧
      decodeAll decP (bodiesOf steps fin) ⟨payment⟩
        = (decodeBody decP fin.Body ⟨payment⟩).1) := by
  refine ⟨⟨_, ListShippingRates_script c ff tr decS ctx token fin steps fuel [] q0 hfin hqS hq0
      hsS hfuel, rfl, ?_⟩,
    ⟨_, Payment_script c ff tr enc decP ctx token payment fin steps fuel [] p0 hfin hqP hp0
      hsP hfuel, rfl, ?_⟩, ?_, ?_⟩
  · simp [requestsOf, requestsOf_followUps]
  · simp [requestsOf, requestsOf_followUps]
  · intro s hs
    exact NewRequest_get c _ s.2 (hsS s hs).2.1
  · intro h
    exact ⟨decodeAll_empty decS steps fin _ h, decodeAll_empty decP steps fin _ h⟩

theorem sampleSteps_accepted {T : Type} (dec : JSON → T → T × Option DecodeError) :
    ∀ s, s ∈ sampleSteps → AcceptedStep sampleClient dec s := by
  intro s hs
  simp only [sampleSteps, List.mem_cons, List.mem_singleton, List.not_mem_nil, or_false] at hs
  rcases hs with rfl | rfl <;> exact ⟨rfl, rfl, fun _ => Or.inr rfl⟩

theorem waitingSteps_accepted {T : Type} (dec : JSON → T → T × Option DecodeError) :
    ∀ s, s ∈ waitingSteps → AcceptedStep sampleClient dec s := by
  intro s hs
  simp only [waitingSteps, List.mem_cons, List.mem_singleton, List.not_mem_nil, or_false] at hs
  rcases hs with rfl | rfl <;> exact ⟨rfl, rfl, fun _ => Or.inr rfl⟩

/-- The poller statement at the script of the specification: two `202` answers with `Location`
`/l1` and `/l2`, then a `200` answer with a body. -/
theorem pollers_follow_locations_witness :
    (∃ w1, CheckoutService.ListShippingRates sampleClient noFloats Traversal.listed
        sampleRatesDecoder background 4 "tok"
        ⟨scriptOf sampleSteps (plainResponse 200 resultBody), []⟩ =
          some (.ok (⟨(decodeAll sampleRatesDecoder
            (bodiesOf sampleSteps (plainResponse 200 resultBody)) ⟨[]⟩).CheckoutShipping,
            some (plainResponse 200 resultBody), none⟩, w1)) ∧
      w1.script = [] ∧
      requestsOf w1.events = sampleGet "/admin/checkouts/tok/shipping_rates.json" ::
        sampleSteps.map (fun s => s.2)) ∧
    (∃ w2, CheckoutService.Payment sampleClient noFloats Traversal.listed sampleEncoder
        samplePaymentDecoder background 4 "tok" (some (.str "card"))
        ⟨scriptOf sampleSteps (plainResponse 200 resultBody), []⟩ =
          some (.ok (⟨(decodeAll samplePaymentDecoder
            (bodiesOf sampleSteps (plainResponse 200 resultBody))
            ⟨some (.str "card")⟩).Payment,
            some (plainResponse 200 resultBody), none⟩, w2)) ∧
      w2.script = [] ∧
      requestsOf w2.events = samplePost "/admin/checkouts/tok/payments.json" ::
        sampleSteps.map (fun s => s.2)) ∧
    (∀ s, s ∈ sampleSteps →
      s.2.Method = "GET" ∧ sampleClient.parseURL (s.1.headerGet "Location") = .ok s.2.URL ∧
        s.2.Body = none) ∧
    ((∀ s, s ∈ sampleSteps → s.1.Body = .empty) →
      decodeAll sampleRatesDecoder (bodiesOf sampleSteps (plainResponse 200 resultBody)) ⟨[]⟩
        = (decodeBody sampleRatesDecoder (plainResponse 200 resultBody).Body ⟨[]⟩).1 ∧
      decodeAll samplePaymentDecoder (bodiesOf sampleSteps (plainResponse 200 resultBody))
          ⟨some (.str "card")⟩
        = (decodeBody samplePaymentDecoder (plainResponse 200 resultBody).Body
            ⟨some (.str "card")⟩).1) :=
  pollers_follow_locations sampleClient noFloats Traversal.listed sampleRatesDecoder
    sampleEncoder samplePaymentDecoder background "tok" (some (.str "card"))
    (plainResponse 200 resultBody) sampleSteps 4
    (sampleGet "/admin/checkouts/tok/shipping_rates.json")
    (samplePost "/admin/checkouts/tok/payments.json") rfl (fun _ => Or.inl rfl)
    (fun _ => Or.inl rfl) rfl rfl (sampleSteps_accepted _) (sampleSteps_accepted _)
    (by decide)

/-- C19 (as stated) fails: the script answers the triggering request with a `202` carrying
`Location` `/l1` and `Retry-After` 0, then with a `200`; the body of the `202` is not JSON, so
`Do` returns the decode error and both pollers return it with a nil result, without any
follow-up request and without reading the `200` answer. -/
theorem pollers_follow_locations_counterexample :
    CheckoutService.ListShippingRates sampleClient noFloats Traversal.listed sampleRatesDecoder
        background 4 "tok"
        ⟨[.ok (accepted "/l1" "0" .malformed), .ok (plainResponse 200 resultBody)], []⟩ =
      some (.ok (⟨[], some (accepted "/l1" "0" .malformed), some (.decode .invalid)⟩,
        ⟨[.ok (plainResponse 200 resultBody)],
          [.sleep 0, .request (sampleGet "/admin/checkouts/tok/shipping_rates.json")]⟩)) ∧
    CheckoutService.Payment sampleClient noFloats Traversal.listed sampleEncoder
        samplePaymentDecoder background 4 "tok" (some (.str "card"))
        ⟨[.ok (accepted "/l1" "0" .malformed), .ok (plainResponse 200 resultBody)], []⟩ =
      some (.ok (⟨none, some (accepted "/l1" "0" .malformed), some (.decode .invalid)⟩,
        ⟨[.ok (plainResponse 200 resultBody)],
          [.request (samplePost "/admin/checkouts/tok/payments.json")]⟩)) :=
  ⟨rfl, rfl⟩

/-- C20 (as amended): on every script of `202` answers followed by a `200` answer, the events
of `ListShippingRates` and of `Payment` are the triggering request and then, for each `202`
answer in turn, one sleep and the follow-up request, where the sleep is computed from the
`Retry-After` header of that answer alone: it lasts exactly the number of seconds the header
gives when that is a run of decimal digits with a value from 0 to 9223372036, and is zero when
the header is absent or is no decimal integer. -/
theorem pollers_wait {α π : Type} (c : Client) (ff : Float64 → String) (tr : Traversal)
    (decS : JSON → ShippingRateRequest α → ShippingRateRequest α × Option DecodeError)
    (enc : PaymentRequest π → Except RequestError String)
    (decP : JSON → PaymentRequest π → PaymentRequest π × Option DecodeError)
    (ctx : Context) (token : String) (payment : Option π) (fin : Response)
    (steps : List (Response × Request)) (fuel : Nat) (q0 p0 : Request)
    (hfin : fin.StatusCode = 200) (hqS : Quiet decS fin.Body) (hqP : Quiet decP fin.Body)
    (hq0 : c.NewRequest noBody "GET" ("/admin/checkouts/" ++ token ++ "/shipping_rates.json")
      none = .ok q0)
    (hp0 : c.NewRequest enc "POST" ("/admin/checkouts/" ++ token ++ "/payments.json")
      (some ⟨payment⟩) = .ok p0)
    (hsS : ∀ s, s ∈ steps → AcceptedStep c decS s)
    (hsP : ∀ s, s ∈ steps → AcceptedStep c decP s) (hfuel : steps.length + 2 ≤ fuel) :
    (∃ r1, CheckoutService.ListShippingRates c ff tr decS ctx fuel token
        ⟨scriptOf steps fin, []⟩ =
          some (.ok (r1, ⟨[], .sleep (sleepDuration "0") :: .request q0 :: followUps steps⟩))) ∧
    (∃ r2, CheckoutService.Payment c ff tr enc decP ctx fuel token payment
        ⟨scriptOf steps fin, []⟩ =
          some (.ok (r2, ⟨[], .request p0 :: followUps steps⟩))) ∧
    (∀ ds : List Nat, ds ≠ [] → (∀ d, d ∈ ds → d < 10) →
      (Nat.ofDigits 10 ds.reverse : Nat) ≤ 9223372036 →
      sleepDuration (String.mk (ds.map Nat.digitChar))
        = ((Nat.ofDigits 10 ds.reverse : Nat) : Int) * 1000000000) ∧
    (∀ r : Response, r.Header.lookup "Retry-After" = none →
      sleepDuration (r.headerGet "Retry-After") = 0) ∧
    (∀ h, isDecimalInteger h = false → sleepDuration h = 0) := by
  refine ⟨⟨_, ListShippingRates_script c ff tr decS ctx token fin steps fuel [] q0 hfin hqS hq0
      hsS hfuel⟩,
    ⟨_, Payment_script c ff tr enc decP ctx token payment fin steps fuel [] p0 hfin hqP hp0
      hsP hfuel⟩, sleepDuration_digits, ?_, sleepDuration_not_decimal⟩
  intro r hr
  simp only [Response.headerGet, hr, Option.getD_none]
  rfl

/-- The wait statement at a script whose first `202` answer asks for 2 seconds and whose second
carries a `Retry-After` that is no number. -/
theorem pollers_wait_witness :
    (∃ r1, CheckoutService.ListShippingRates sampleClient noFloats Traversal.listed
        sampleRatesDecoder background 4 "tok"
        ⟨scriptOf waitingSteps (plainResponse 200 resultBody), []⟩ =
          some (.ok (r1, ⟨[], .sleep (sleepDuration "0") ::
            .request (sampleGet "/admin/checkouts/tok/shipping_rates.json") ::
            followUps waitingSteps⟩))) ∧
    (∃ r2, CheckoutService.Payment sampleClient noFloats Traversal.listed sampleEncoder
        samplePaymentDecoder background 4 "tok" (some (.str "card"))
        ⟨scriptOf waitingSteps (plainResponse 200 resultBody), []⟩ =
          some (.ok (r2, ⟨[], .request (samplePost "/admin/checkouts/tok/payments.json") ::
            followUps waitingSteps⟩))) ∧
    (∀ ds : List Nat, ds ≠ [] → (∀ d, d ∈ ds → d < 10) →
      (Nat.ofDigits 10 ds.reverse : Nat) ≤ 9223372036 →
      sleepDuration (String.mk (ds.map Nat.digitChar))
        = ((Nat.ofDigits 10 ds.reverse : Nat) : Int) * 1000000000) ∧
    (∀ r : Response, r.Header.lookup "Retry-After" = none →
      sleepDuration (r.headerGet "Retry-After") = 0) ∧
    (∀ h, isDecimalInteger h = false → sleepDuration h = 0) :=
  pollers_wait sampleClient noFloats Traversal.listed sampleRatesDecoder sampleEncoder
    samplePaymentDecoder background "tok" (some (.str "card"))
    (plainResponse 200 resultBody) waitingSteps 4
    (sampleGet "/admin/checkouts/tok/shipping_rates.json")
    (samplePost "/admin/checkouts/tok/payments.json") rfl (fun _ => Or.inl rfl)
    (fun _ => Or.inl rfl) rfl rfl (waitingSteps_accepted _) (waitingSteps_accepted _)
    (by decide)

/-- C20 (as stated) fails: the `202` answer carries `Retry-After: 9223372037`, a decimal
integer; the product with `time.Second` overflows `int64`, the duration handed to `time.Sleep`
before the follow-up request is negative, and the wait is none instead of 9223372037 seconds. -/
theorem pollers_wait_counterexample :
    isDecimalInteger "9223372037" = true ∧
    sleepDuration "9223372037" = -9223372036709551616 ∧
    CheckoutService.ListShippingRates sampleClient noFloats Traversal.listed sampleRatesDecoder
        background 4 "tok"
        ⟨[.ok (accepted "/l1" "9223372037" .empty), .ok (plainResponse 200 resultBody)], []⟩ =
      some (.ok (⟨[.str "rate"], some (plainResponse 200 resultBody), none⟩,
        ⟨[], [.sleep 0, .request (sampleGet "/admin/checkouts/tok/shipping_rates.json"),
          .sleep (-9223372036709551616), .request (sampleGet "/l1")]⟩)) := by
  refine ⟨by decide, by decide, ?_⟩
  rfl

/-! ## Errors, cancellation and merging in the pollers -/

/-- The poll loop on a script of `202` answers followed by an answer on which `Do` fails: the
loop returns that error with a nil result right after the failing request. -/
theorem pollLoop_failure {T : Type} (c : Client) (ff : Float64 → String) (tr : Traversal)
    (dec : JSON → T → T × Option DecodeError) (ctx : Context)
    (a : Except TransportError Response) (rsp : Option Response) (e : ClientError)
    (rest : List (Except TransportError Response)) (hf : FailsWith ff tr dec ctx a rsp e) :
    ∀ (steps : List (Response × Request)) (fuel : Nat) (st : PollState) (t : T)
      (events : List Event) (req0 : Request),
      st.pollStatus = 202 → c.NewRequest noBody "GET" st.pollURL none = .ok req0 →
      (∀ s, s ∈ steps → AcceptedStep c dec s) → steps.length + 1 ≤ fuel →
      pollLoop c ff tr dec ctx fuel st t ⟨scriptThen steps a rest, events⟩ =
        some (.ok (⟨none, rsp, some e⟩,
          ⟨rest, events ++ (.sleep (sleepDuration st.pollWait) :: .request req0 ::
            followUps steps)⟩)) := by
  intro steps
  induction steps with
  | nil =>
    intro fuel st t events req0 hst hreq _ hfuel
    obtain ⟨f, rfl⟩ : ∃ f, fuel = f + 1 := ⟨fuel - 1, by simp at hfuel; omega⟩
    obtain ⟨v, hdo⟩ := hf req0 t rest (events ++ [.sleep (sleepDuration st.pollWait)])
    simp only [pollLoop, hst, ne_eq, not_true_eq_false, if_false, hreq, World.sleep, scriptThen,
      List.map_nil, List.nil_append, hdo, followUps]
    simp
  | cons s steps ih =>
    intro fuel st t events req0 hst hreq hsteps hfuel
    obtain ⟨f, rfl⟩ : ∃ f, fuel = f + 1 := ⟨fuel - 1, by simp at hfuel; omega⟩
    obtain ⟨hs202, hsreq, hsq⟩ := hsteps s (List.mem_cons_self _ _)
    have hdo := Do_quiet ff tr dec ctx req0 t s.1 (scriptThen steps a rest)
      (events ++ [.sleep (sleepDuration st.pollWait)]) (by omega) hsq
    have hih := ih f ⟨s.1.headerGet "Location", s.1.headerGet "Retry-After", s.1.StatusCode,
        some s.1⟩ (decodeBody dec s.1.Body t).1
      (events ++ [.sleep (sleepDuration st.pollWait)] ++ [.request req0]) s.2 hs202 hsreq
      (fun x hx => hsteps x (List.mem_cons_of_mem _ hx))
      (by simp only [List.length_cons] at hfuel; omega)
    have hscript : scriptThen (s :: steps) a rest = .ok s.1 :: scriptThen steps a rest := rfl
    simp only [pollLoop, hst, ne_eq, not_true_eq_false, if_false, hreq, World.sleep, hscript,
      hdo, hih]
    simp [followUps]

theorem ListShippingRates_failure {α : Type} (c : Client) (ff : Float64 → String)
    (tr : Traversal)
    (dec : JSON → ShippingRateRequest α → ShippingRateRequest α × Option DecodeError)
    (ctx : Context) (token : String) (a : Except TransportError Response)
    (rsp : Option Response) (e : ClientError) (rest : List (Except TransportError Response))
    (steps : List (Response × Request)) (fuel : Nat) (events : List Event) (q0 : Request)
    (hf : FailsWith ff tr dec ctx a rsp e)
    (hq0 : c.NewRequest noBody "GET" ("/admin/checkouts/" ++ token ++ "/shipping_rates.json")
      none = .ok q0)
    (hsteps : ∀ s, s ∈ steps → AcceptedStep c dec s) (hfuel : steps.length + 1 ≤ fuel) :
    CheckoutService.ListShippingRates c ff tr dec ctx fuel token
        ⟨scriptThen steps a rest, events⟩ =
      some (.ok (⟨[], rsp, some e⟩,
        ⟨rest, events ++ (.sleep (sleepDuration "0") :: .request q0 :: followUps steps)⟩)) := by
  have h := pollLoop_failure c ff tr dec ctx a rsp e rest hf steps fuel
    ⟨"/admin/checkouts/" ++ token ++ "/shipping_rates.json", "0", 202, none⟩ ⟨[]⟩ events q0
    rfl hq0 hsteps hfuel
  simp only [CheckoutService.ListShippingRates, h]

theorem Payment_failure {π : Type} (c : Client) (ff : Float64 → String) (tr : Traversal)
    (enc : PaymentRequest π → Except RequestError String)
    (dec : JSON → PaymentRequest π → PaymentRequest π × Option DecodeError)
    (ctx : Context) (token : String) (payment : Option π)
    (a : Except TransportError Response) (rsp : Option Response) (e : ClientError)
    (rest : List (Except TransportError Response))
    (steps : List (Response × Request)) (fuel : Nat) (events : List Event) (p0 : Request)
    (hf : FailsWith ff tr dec ctx a rsp e)
    (hp0 : c.NewRequest enc "POST" ("/admin/checkouts/" ++ token ++ "/payments.json")
      (some ⟨payment⟩) = .ok p0)
    (hsteps : ∀ s, s ∈ steps → AcceptedStep c dec s) (hfuel : steps.length + 1 ≤ fuel) :
    CheckoutService.Payment c ff tr enc dec ctx fuel token payment
        ⟨scriptThen steps a rest, events⟩ =
      some (.ok (⟨none, rsp, some e⟩,
        ⟨rest, events ++ (.request p0 :: followUps steps)⟩)) := by
  cases steps with
  | nil =>
    obtain ⟨v, hdo⟩ := hf p0 ⟨payment⟩ rest events
    simp only [CheckoutService.Payment, hp0, scriptThen, List.map_nil, List.nil_append, hdo,
      followUps]
  | cons s steps =>
    obtain ⟨hs202, hsreq, hsq⟩ := hsteps s (List.mem_cons_self _ _)
    have hdo := Do_quiet ff tr dec ctx p0 ⟨payment⟩ s.1 (scriptThen steps a rest) events
      (by omega) hsq
    have hloop := pollLoop_failure c ff tr dec ctx a rsp e rest hf steps fuel
      ⟨s.1.headerGet "Location", s.1.headerGet "Retry-After", s.1.StatusCode, some s.1⟩
      (decodeBody dec s.1.Body ⟨payment⟩).1 (events ++ [.request p0]) s.2 hs202 hsreq
      (fun x hx => hsteps x (List.mem_cons_of_mem _ hx))
      (by simp only [List.length_cons] at hfuel; omega)
    have hscript : scriptThen (s :: steps) a rest = .ok s.1 :: scriptThen steps a rest := rfl
    simp only [CheckoutService.Payment, hp0, hscript, hdo, hloop]
    simp [followUps]

theorem failsWith_transport {T : Type} (ff : Float64 → String) (tr : Traversal)
    (dec : JSON → T → T × Option DecodeError) (ctx : Context) (te : TransportError)
    (hctx : ∀ events, ctx events = none) :
    FailsWith ff tr dec ctx (.error te) none (.transport te) := by
  intro req t rest events
  refine ⟨.value t, ?_⟩
  simp only [Client.Do, World.roundTrip, hctx]

theorem failsWith_response {T : Type} (ff : Float64 → String) (tr : Traversal)
    (dec : JSON → T → T × Option DecodeError) (ctx : Context) (r : Response) (ge : GoError)
    (hr : CheckResponse ff tr r = .ok (some ge)) :
    FailsWith ff tr dec ctx (.ok r) (some r) (.response ge) := by
  intro req t rest events
  refine ⟨.value t, ?_⟩
  simp only [Client.Do, World.roundTrip, hr]

/-- C21: if a request issued by `ListShippingRates` or `Payment`, the triggering one or a
follow-up after any number of `202` answers, makes `Client.Do` return an error, the operation
returns a nil result together with the response and the error `Do` returned, and the failing
request is the last event: the answers left in the script are not asked for. A transport
failure and a classified error of an error status are two such cases. -/
theorem pollers_return_error {α π : Type} (c : Client) (ff : Float64 → String)
    (tr : Traversal)
    (decS : JSON → ShippingRateRequest α → ShippingRateRequest α × Option DecodeError)
    (enc : PaymentRequest π → Except RequestError String)
    (decP : JSON → PaymentRequest π → PaymentRequest π × Option DecodeError)
    (ctx : Context) (token : String) (payment : Option π)
    (a : Except TransportError Response) (rsp : Option Response) (e : ClientError)
    (rest : List (Except TransportError Response)) (steps : List (Response × Request))
    (fuel : Nat) (q0 p0 : Request)
    (hfS : FailsWith ff tr decS ctx a rsp e) (hfP : FailsWith ff tr decP ctx a rsp e)
    (hq0 : c.NewRequest noBody "GET" ("/admin/checkouts/" ++ token ++ "/shipping_rates.json")
      none = .ok q0)
    (hp0 : c.NewRequest enc "POST" ("/admin/checkouts/" ++ token ++ "/payments.json")
      (some ⟨payment⟩) = .ok p0)
    (hsS : ∀ s, s ∈ steps → AcceptedStep c decS s)
    (hsP : ∀ s, s ∈ steps → AcceptedStep c decP s) (hfuel : steps.length + 1 ≤ fuel) :
    CheckoutService.ListShippingRates c ff tr decS ctx fuel token
        ⟨scriptThen steps a rest, []⟩ =
      some (.ok (⟨[], rsp, some e⟩,
        ⟨rest, .sleep (sleepDuration "0") :: .request q0 :: followUps steps⟩)) ∧
    CheckoutService.Payment c ff tr enc decP ctx fuel token payment
        ⟨scriptThen steps a rest, []⟩ =
      some (.ok (⟨none, rsp, some e⟩, ⟨rest, .request p0 :: followUps steps⟩)) ∧
    (∀ te, (∀ events, ctx events = none) →
      FailsWith ff tr decS ctx (.error te) none (.transport te) ∧
      FailsWith ff tr decP ctx (.error te) none (.transport te)) ∧
    (∀ r ge, CheckResponse ff tr r = .ok (some ge) →
      FailsWith ff tr decS ctx (.ok r) (some r) (.response ge) ∧
      FailsWith ff tr decP ctx (.ok r) (some r) (.response ge)) :=
  ⟨ListShippingRates_failure c ff tr decS ctx token a rsp e rest steps fuel [] q0 hfS hq0 hsS
      hfuel,
    Payment_failure c ff tr enc decP ctx token payment a rsp e rest steps fuel [] p0 hfP hp0
      hsP hfuel,
    fun te hctx => ⟨failsWith_transport ff tr decS ctx te hctx,
      failsWith_transport ff tr decP ctx te hctx⟩,
    fun r ge hr => ⟨failsWith_response ff tr decS ctx r ge hr,
      failsWith_response ff tr decP ctx r ge hr⟩⟩

/-- The error statement at a script of two `202` answers followed by a `422` answer whose body
classifies as an email error, with a `200` answer left unread. -/
theorem pollers_return_error_witness :
    CheckoutService.ListShippingRates sampleClient noFloats Traversal.listed sampleRatesDecoder
        background 3 "tok"
        ⟨scriptThen sampleSteps (.ok (plainResponse 422 emailBody))
          [.ok (plainResponse 200 resultBody)], []⟩ =
      some (.ok (⟨[], some (plainResponse 422 emailBody),
          some (.response (.emailError ⟨"is invalid"⟩))⟩,
        ⟨[.ok (plainResponse 200 resultBody)], .sleep (sleepDuration "0") ::
          .request (sampleGet "/admin/checkouts/tok/shipping_rates.json") ::
          followUps sampleSteps⟩)) ∧
    CheckoutService.Payment sampleClient noFloats Traversal.listed sampleEncoder
        samplePaymentDecoder background 3 "tok" (some (.str "card"))
        ⟨scriptThen sampleSteps (.ok (plainResponse 422 emailBody))
          [.ok (plainResponse 200 resultBody)], []⟩ =
      some (.ok (⟨none, some (plainResponse 422 emailBody),
          some (.response (.emailError ⟨"is invalid"⟩))⟩,
        ⟨[.ok (plainResponse 200 resultBody)],
          .request (samplePost "/admin/checkouts/tok/payments.json") ::
          followUps sampleSteps⟩)) ∧
    (∀ te, (∀ events, background events = none) →
      FailsWith noFloats Traversal.listed sampleRatesDecoder background (.error te) none
        (.transport te) ∧
      FailsWith noFloats Traversal.listed samplePaymentDecoder background (.error te) none
        (.transport te)) ∧
    (∀ r ge, CheckResponse noFloats Traversal.listed r = .ok (some ge) →
      FailsWith noFloats Traversal.listed sampleRatesDecoder background (.ok r) (some r)
        (.response ge) ∧
      FailsWith noFloats Traversal.listed samplePaymentDecoder background (.ok r) (some r)
        (.response ge)) :=
  pollers_return_error sampleClient noFloats Traversal.listed sampleRatesDecoder sampleEncoder
    samplePaymentDecoder background "tok" (some (.str "card"))
    (.ok (plainResponse 422 emailBody)) (some (plainResponse 422 emailBody))
    (.response (.emailError ⟨"is invalid"⟩)) [.ok (plainResponse 200 resultBody)] sampleSteps 3
    (sampleGet "/admin/checkouts/tok/shipping_rates.json")
    (samplePost "/admin/checkouts/tok/payments.json")
    (failsWith_response _ _ _ _ _ _ rfl) (failsWith_response _ _ _ _ _ _ rfl) rfl rfl
    (sampleSteps_accepted _) (sampleSteps_accepted _) (by decide)

/-- C22 (the code at the failing input): the context is not done when the `202` answer with
`Retry-After: 2` arrives and becomes done during the sleep of 2 seconds; both pollers sleep to
the end, issue the follow-up request to `/l1` after the signal fired, and return the resource
of the `200` answer with a nil error instead of a cancellation error. -/
theorem pollers_ignore_cancellation :
    cancelledDuringSleep [.request (samplePost "/admin/checkouts/tok/payments.json")] = none ∧
    cancelledDuringSleep [.request (samplePost "/admin/checkouts/tok/payments.json"),
      .sleep 2000000000] = some .canceled ∧
    CheckoutService.Payment sampleClient noFloats Traversal.listed sampleEncoder
        samplePaymentDecoder cancelledDuringSleep 4 "tok" (some (.str "card"))
        ⟨[.ok (accepted "/l1" "2" .empty), .ok (plainResponse 200 resultBody)], []⟩ =
      some (.ok (⟨some (.str "paid"), some (plainResponse 200 resultBody), none⟩,
        ⟨[], [.request (samplePost "/admin/checkouts/tok/payments.json"), .sleep 2000000000,
          .request (sampleGet "/l1")]⟩)) ∧
    CheckoutService.ListShippingRates sampleClient noFloats Traversal.listed sampleRatesDecoder
        cancelledDuringSleep 4 "tok"
        ⟨[.ok (accepted "/l1" "2" .empty), .ok (plainResponse 200 resultBody)], []⟩ =
      some (.ok (⟨[.str "rate"], some (plainResponse 200 resultBody), none⟩,
        ⟨[], [.sleep 0, .request (sampleGet "/admin/checkouts/tok/shipping_rates.json"),
          .sleep 2000000000, .request (sampleGet "/l1")]⟩)) := by
  refine ⟨by decide, by decide, ?_, ?_⟩ <;> rfl

theorem decodeAll_append {T : Type} (dec : JSON → T → T × Option DecodeError)
    (bs : List Body) (b : Body) (t : T) :
    decodeAll dec (bs ++ [b]) t = (decodeBody dec b (decodeAll dec bs t)).1 := by
  simp [decodeAll, List.foldl_append]

theorem decodeAll_overwrites {T : Type} (dec : JSON → T → T × Option DecodeError)
    (steps : List (Response × Request)) (fin : Response) (t t0 : T)
    (h : Overwrites dec fin.Body) :
    decodeAll dec (bodiesOf steps fin) t = (decodeBody dec fin.Body t0).1 := by
  unfold bodiesOf
  rw [decodeAll_append]
  exact h _ _

/-- C23 (as amended): the resource `ListShippingRates` and `Payment` return is the result of
decoding the bodies of all responses of the run, in order, into one wrapper, which starts empty
for `ListShippingRates` and holds the payment submitted for `Payment`. Two runs whose response
bodies are equal (and, for `Payment`, whose submitted payments are equal) return equal
resources; two runs whose terminal bodies are equal return equal resources, whatever the earlier
bodies and the payments submitted, when decoding the terminal body overwrites the wrapper. -/
theorem pollers_result_of_bodies {α π : Type} (c : Client) (ff : Float64 → String)
    (tr : Traversal)
    (decS : JSON → ShippingRateRequest α → ShippingRateRequest α × Option DecodeError)
    (enc : PaymentRequest π → Except RequestError String)
    (decP : JSON → PaymentRequest π → PaymentRequest π × Option DecodeError)
    (ctx : Context) (token : String) (pay1 pay2 : Option π) (fin1 fin2 : Response)
    (steps1 steps2 : List (Response × Request)) (fuel : Nat) (q0 p1 p2 : Request)
    (hfin1 : fin1.StatusCode = 200) (hfin2 : fin2.StatusCode = 200)
    (hqS1 : Quiet decS fin1.Body) (hqS2 : Quiet decS fin2.Body)
    (hqP1 : Quiet decP fin1.Body) (hqP2 : Quiet decP fin2.Body)
    (hq0 : c.NewRequest noBody "GET" ("/admin/checkouts/" ++ token ++ "/shipping_rates.json")
      none = .ok q0)
    (hp1 : c.NewRequest enc "POST" ("/admin/checkouts/" ++ token ++ "/payments.json")
      (some ⟨pay1⟩) = .ok p1)
    (hp2 : c.NewRequest enc "POST" ("/admin/checkouts/" ++ token ++ "/payments.json")
      (some ⟨pay2⟩) = .ok p2)
    (hsS1 : ∀ s, s ∈ steps1 → AcceptedStep c decS s)
    (hsS2 : ∀ s, s ∈ steps2 → AcceptedStep c decS s)
    (hsP1 : ∀ s, s ∈ steps1 → AcceptedStep c decP s)
    (hsP2 : ∀ s, s ∈ steps2 → AcceptedStep c decP s)
    (hfuel1 : steps1.length + 2 ≤ fuel) (hfuel2 : steps2.length + 2 ≤ fuel) :
    (∃ r1 r2 w1 w2,
      CheckoutService.ListShippingRates c ff tr decS ctx fuel token
        ⟨scriptOf steps1 fin1, []⟩ = some (.ok (r1, w1)) ∧
      CheckoutService.ListShippingRates c ff tr decS ctx fuel token
        ⟨scriptOf steps2 fin2, []⟩ = some (.ok (r2, w2)) ∧
      r1.result = (decodeAll decS (bodiesOf steps1 fin1) ⟨[]⟩).CheckoutShipping ∧
      (bodiesOf steps1 fin1 = bodiesOf steps2 fin2 → r1.result = r2.result) ∧
      (fin1.Body = fin2.Body → Overwrites decS fin1.Body → r1.result = r2.result)) ∧
    (∃ r1 r2 w1 w2,
      CheckoutService.Payment c ff tr enc decP ctx fuel token pay1
        ⟨scriptOf steps1 fin1, []⟩ = some (.ok (r1, w1)) ∧
      CheckoutService.Payment c ff tr enc decP ctx fuel token pay2
        ⟨scriptOf steps2 fin2, []⟩ = some (.ok (r2, w2)) ∧
      r1.result = (decodeAll decP (bodiesOf steps1 fin1) ⟨pay1⟩).Payment ∧
      (bodiesOf steps1 fin1 = bodiesOf steps2 fin2 → pay1 = pay2 → r1.result = r2.result) ∧
      (fin1.Body = fin2.Body → Overwrites decP fin1.Body → r1.result = r2.result)) := by
  constructor
  · refine ⟨_, _, _, _,
      ListShippingRates_script c ff tr decS ctx token fin1 steps1 fuel [] q0 hfin1 hqS1 hq0
        hsS1 hfuel1,
      ListShippingRates_script c ff tr decS ctx token fin2 steps2 fuel [] q0 hfin2 hqS2 hq0
        hsS2 hfuel2, rfl, ?_, ?_⟩
    · intro hb
      simp only [hb]
    · intro hb ho
      have ho2 : Overwrites decS fin2.Body := hb ▸ ho
      simp only [decodeAll_overwrites decS steps1 fin1 _ ⟨[]⟩ ho,
        decodeAll_overwrites decS steps2 fin2 _ ⟨[]⟩ ho2, hb]
  · refine ⟨_, _, _, _,
      Payment_script c ff tr enc decP ctx token pay1 fin1 steps1 fuel [] p1 hfin1 hqP1 hp1
        hsP1 hfuel1,
      Payment_script c ff tr enc decP ctx token pay2 fin2 steps2 fuel [] p2 hfin2 hqP2 hp2
        hsP2 hfuel2, rfl, ?_, ?_⟩
    · intro hb hp
      simp only [hb, hp]
    · intro hb ho
      have ho2 : Overwrites decP fin2.Body := hb ▸ ho
      simp only [decodeAll_overwrites decP steps1 fin1 _ ⟨none⟩ ho,
        decodeAll_overwrites decP steps2 fin2 _ ⟨none⟩ ho2, hb]

/-- The result statement at two runs with the same terminal body, one after two `202` answers
with `Retry-After` 0 and the payment `card`, the other after two `202` answers with other
`Retry-After` headers and the payment `cash`. -/
theorem pollers_result_of_bodies_witness :
    (∃ r1 r2 w1 w2,
      CheckoutService.ListShippingRates sampleClient noFloats Traversal.listed
        sampleRatesDecoder background 4 "tok"
        ⟨scriptOf sampleSteps (plainResponse 200 resultBody), []⟩ = some (.ok (r1, w1)) ∧
      CheckoutService.ListShippingRates sampleClient noFloats Traversal.listed
        sampleRatesDecoder background 4 "tok"
        ⟨scriptOf waitingSteps (plainResponse 200 resultBody), []⟩ = some (.ok (r2, w2)) ∧
      r1.result = (decodeAll sampleRatesDecoder
        (bodiesOf sampleSteps (plainResponse 200 resultBody)) ⟨[]⟩).CheckoutShipping ∧
      (bodiesOf sampleSteps (plainResponse 200 resultBody)
          = bodiesOf waitingSteps (plainResponse 200 resultBody) → r1.result = r2.result) ∧
      ((plainResponse 200 resultBody).Body = (plainResponse 200 resultBody).Body →
        Overwrites sampleRatesDecoder (plainResponse 200 resultBody).Body →
        r1.result = r2.result)) ∧
    (∃ r1 r2 w1 w2,
      CheckoutService.Payment sampleClient noFloats Traversal.listed sampleEncoder
        samplePaymentDecoder background 4 "tok" (some (.str "card"))
        ⟨scriptOf sampleSteps (plainResponse 200 resultBody), []⟩ = some (.ok (r1, w1)) ∧
      CheckoutService.Payment sampleClient noFloats Traversal.listed sampleEncoder
        samplePaymentDecoder background 4 "tok" (some (.str "cash"))
        ⟨scriptOf waitingSteps (plainResponse 200 resultBody), []⟩ = some (.ok (r2, w2)) ∧
      r1.result = (decodeAll samplePaymentDecoder
        (bodiesOf sampleSteps (plainResponse 200 resultBody)) ⟨some (.str "card")⟩).Payment ∧
      (bodiesOf sampleSteps (plainResponse 200 resultBody)
          = bodiesOf waitingSteps (plainResponse 200 resultBody) →
        some (JSON.str "card") = some (JSON.str "cash") → r1.result = r2.result) ∧
      ((plainResponse 200 resultBody).Body = (plainResponse 200 resultBody).Body →
        Overwrites samplePaymentDecoder (plainResponse 200 resultBody).Body →
        r1.result = r2.result)) :=
  pollers_result_of_bodies sampleClient noFloats Traversal.listed sampleRatesDecoder
    sampleEncoder samplePaymentDecoder background "tok" (some (.str "card"))
    (some (.str "cash")) (plainResponse 200 resultBody) (plainResponse 200 resultBody)
    sampleSteps waitingSteps 4 (sampleGet "/admin/checkouts/tok/shipping_rates.json")
    (samplePost "/admin/checkouts/tok/payments.json")
    (samplePost "/admin/checkouts/tok/payments.json") rfl rfl (fun _ => Or.inl rfl)
    (fun _ => Or.inl rfl) (fun _ => Or.inl rfl) (fun _ => Or.inl rfl) rfl rfl rfl
    (sampleSteps_accepted _) (waitingSteps_accepted _) (sampleSteps_accepted _)
    (waitingSteps_accepted _) (by decide) (by decide)

/-- C23 (as stated) fails: the terminal body is the empty JSON object in all four runs. After a
`202` answer whose body holds a rate, `ListShippingRates` returns that rate, and after a `202`
answer without body it returns none; `Payment` returns the payment the caller submitted, `card`
in one run and `cash` in the other. -/
theorem pollers_result_of_bodies_counterexample :
    CheckoutService.ListShippingRates sampleClient noFloats Traversal.listed sampleRatesDecoder
        background 4 "tok"
        ⟨[.ok (accepted "/l1" "0" partialBody), .ok (plainResponse 200 emptyObjectBody)], []⟩ =
      some (.ok (⟨[.str "early rate"], some (plainResponse 200 emptyObjectBody), none⟩,
        ⟨[], [.sleep 0, .request (sampleGet "/admin/checkouts/tok/shipping_rates.json"),
          .sleep 0, .request (sampleGet "/l1")]⟩)) ∧
    CheckoutService.ListShippingRates sampleClient noFloats Traversal.listed sampleRatesDecoder
        background 4 "tok"
        ⟨[.ok (accepted "/l1" "0" .empty), .ok (plainResponse 200 emptyObjectBody)], []⟩ =
      some (.ok (⟨[], some (plainResponse 200 emptyObjectBody), none⟩,
        ⟨[], [.sleep 0, .request (sampleGet "/admin/checkouts/tok/shipping_rates.json"),
          .sleep 0, .request (sampleGet "/l1")]⟩)) ∧
    CheckoutService.Payment sampleClient noFloats Traversal.listed sampleEncoder
        samplePaymentDecoder background 4 "tok" (some (.str "card"))
        ⟨[.ok (plainResponse 200 emptyObjectBody)], []⟩ =
      some (.ok (⟨some (.str "card"), some (plainResponse 200 emptyObjectBody), none⟩,
        ⟨[], [.request (samplePost "/admin/checkouts/tok/payments.json")]⟩)) ∧
    CheckoutService.Payment sampleClient noFloats Traversal.listed sampleEncoder
        samplePaymentDecoder background 4 "tok" (some (.str "cash"))
        ⟨[.ok (plainResponse 200 emptyObjectBody)], []⟩ =
      some (.ok (⟨some (.str "cash"), some (plainResponse 200 emptyObjectBody), none⟩,
        ⟨[], [.request (samplePost "/admin/checkouts/tok/payments.json")]⟩)) ∧
    [JSON.str "early rate"] ≠ [] ∧ some (JSON.str "card") ≠ some (JSON.str "cash") := by
  refine ⟨rfl, rfl, rfl, rfl, List.cons_ne_nil _ _, ?_⟩
  intro h
  simp only [Option.some.injEq, JSON.str.injEq] at h
  exact absurd h (by decide)

/-! ## `Client.NewRequest` -/

theorem NewRequest_header {β : Type} (c : Client) (encode : β → Except RequestError String)
    (method urlStr : String) (body : Option β) (req : Request)
    (h : c.NewRequest encode method urlStr body = .ok req) :
    req.Header =
      (if c.UserAgent ≠ "" then
        setHeader
          (if body.isSome then
            setHeader (setHeader (setHeader [] "X-Shopify-Access-Token" c.Token)
              "Content-Type" "application/json") "Accept" "application/json"
          else setHeader [] "X-Shopify-Access-Token" c.Token)
          "User-Agent" c.UserAgent
      else
        (if body.isSome then
          setHeader (setHeader (setHeader [] "X-Shopify-Access-Token" c.Token)
            "Content-Type" "application/json") "Accept" "application/json"
        else setHeader [] "X-Shopify-Access-Token" c.Token)) := by
  unfold Client.NewRequest at h
  cases hp : c.parseURL urlStr with
  | error e => rw [hp] at h; cases h
  | ok u =>
    rw [hp] at h
    simp only at h
    split at h
    · cases h
    · cases hn : c.newRequest method u with
      | some e => rw [hn] at h; cases h
      | none =>
        rw [hn] at h
        simp only [Except.ok.injEq] at h
        rw [← h]

/-- C24: for every request built by `Client.NewRequest`, the header `X-Shopify-Access-Token` is
the configured token, `Content-Type` and `Accept` are both `application/json` if and only if a
body is given, and `User-Agent` is the client's `UserAgent` whenever that is not empty. -/
theorem NewRequest_headers {β : Type} (c : Client) (encode : β → Except RequestError String)
    (method urlStr : String) (body : Option β) (req : Request)
    (h : c.NewRequest encode method urlStr body = .ok req) :
    req.Header.lookup "X-Shopify-Access-Token" = some c.Token ∧
    ((req.Header.lookup "Content-Type" = some "application/json" ∧
      req.Header.lookup "Accept" = some "application/json") ↔ body.isSome = true) ∧
    (c.UserAgent ≠ "" → req.Header.lookup "User-Agent" = some c.UserAgent) := by
  rw [NewRequest_header c encode method urlStr body req h]
  cases body with
  | none =>
    by_cases hu : c.UserAgent = "" <;> simp [hu, setHeader, List.lookup]
  | some b =>
    by_cases hu : c.UserAgent = "" <;> simp [hu, setHeader, List.lookup]

/-- The header statement at the `POST` of a payment by the client of the examples. -/
theorem NewRequest_headers_witness :
    (samplePost "/admin/checkouts/tok/payments.json").Header.lookup "X-Shopify-Access-Token"
      = some sampleClient.Token ∧
    (((samplePost "/admin/checkouts/tok/payments.json").Header.lookup "Content-Type"
        = some "application/json" ∧
      (samplePost "/admin/checkouts/tok/payments.json").Header.lookup "Accept"
        = some "application/json") ↔
      (some (PaymentRequest.mk (some (JSON.str "card")))).isSome = true) ∧
    (sampleClient.UserAgent ≠ "" →
      (samplePost "/admin/checkouts/tok/payments.json").Header.lookup "User-Agent"
        = some sampleClient.UserAgent) :=
  NewRequest_headers sampleClient sampleEncoder "POST" "/admin/checkouts/tok/payments.json"
    (some ⟨some (.str "card")⟩) (samplePost "/admin/checkouts/tok/payments.json") rfl

/-! ## First match, determinism and `checkout` -/

theorem perm_eq_of_length_le_one {α : Type} (f : List α → List α) (l : List α)
    (hf : (f l).Perm l) (hl : l.length ≤ 1) : f l = l := by
  cases l with
  | nil => exact List.perm_nil.mp hf
  | cons a as =>
    cases as with
    | nil => exact List.perm_singleton.mp hf
    | cons b bs => simp at hl

theorem rangeErrors_first (ff : Float64 → String) (tr : Traversal) (r : ErrorResponse)
    (k : String) (v : JSON) (post : Entries) (res : Except Panic GoError)
    (h : classifyEntry ff tr k v = some res) :
    rangeErrors ff tr r ((k, v) :: post) = res := by
  rw [rangeErrors, h]

theorem checkoutError_unusable (tr : Traversal) (l : Entries)
    (h : ∀ kk vvv, (kk, vvv) ∈ l → kk = "discount_code" →
      ∀ e, vvv = JSON.arr e → firstReason tr e = none) :
    checkoutError tr l = none := by
  induction l with
  | nil => rfl
  | cons x xs ih =>
    obtain ⟨kk, vvv⟩ := x
    have ih1 := ih (fun a b hab => h a b (List.mem_cons_of_mem _ hab))
    unfold checkoutError
    by_cases hk : kk = "discount_code"
    · rw [if_pos hk]
      cases vvv with
      | arr e =>
        simp only [h kk (.arr e) (List.mem_cons_self _ _) hk e rfl]
        exact ih1
      | _ => exact ih1
    · rw [if_neg hk]
      exact ih1

theorem lineItemError_not_response (tr : Traversal) (pos : String) (vvv : JSON) (e : GoError)
    (h : lineItemError tr pos vvv = .ok e) : e.isResponse = false := by
  unfold lineItemError at h
  split at h
  · simp only [Except.ok.injEq] at h
    rw [← h]
    rfl
  · split at h
    · simp only [Except.ok.injEq] at h
      rw [← h]
      rfl
    · split at h
      · cases h
      · simp only [Except.ok.injEq] at h
        rw [← h]
        rfl

theorem checkoutError_not_response (tr : Traversal) (l : Entries) (e : GoError)
    (h : checkoutError tr l = some e) : e.isResponse = false := by
  induction l with
  | nil => cases h
  | cons x xs ih =>
    obtain ⟨kk, vvv⟩ := x
    unfold checkoutError at h
    split at h
    · split at h
      · split at h
        · simp only [Option.some.injEq] at h
          rw [← h]
          rfl
        · exact ih h
      · exact ih h
    · exact ih h

theorem addressError_not_response (k : String) (l : Entries) (e : GoError)
    (h : addressError k l = some e) : e.isResponse = false := by
  induction l with
  | nil => cases h
  | cons x xs ih =>
    obtain ⟨kk, vvv⟩ := x
    cases vvv with
    | arr a =>
      simp only [addressError, Option.some.injEq] at h
      rw [← h]
      rfl
    | _ =>
      simp only [addressError] at h
      exact ih h

theorem classifyEntry_not_response (ff : Float64 → String) (tr : Traversal) (k : String)
    (v : JSON) (e : GoError) (h : classifyEntry ff tr k v = some (.ok e)) :
    e.isResponse = false := by
  unfold classifyEntry at h
  by_cases hk : k = "email"
  · rw [if_pos hk] at h
    simp only [Option.some.injEq, Except.ok.injEq] at h
    rw [← h]
    rfl
  · rw [if_neg hk] at h
    cases v with
    | obj vv =>
      simp only at h
      split at h
      · split at h
        · cases h
        · simp only [Option.some.injEq] at h
          exact lineItemError_not_response tr _ _ e h
      · split at h
        · cases hc : checkoutError tr (tr.checkout vv) with
          | none => rw [hc] at h; cases h
          | some g =>
            rw [hc] at h
            simp only [Option.map_some', Option.some.injEq, Except.ok.injEq] at h
            rw [← h]
            exact checkoutError_not_response tr _ g hc
        · split at h
          · cases hc : addressError k (tr.address vv) with
            | none => rw [hc] at h; cases h
            | some g =>
              rw [hc] at h
              simp only [Option.map_some', Option.some.injEq, Except.ok.injEq] at h
              rw [← h]
              exact addressError_not_response k _ g hc
          · cases h
    | arr xs =>
      simp only at h
      split at h
      · split at h
        · cases h
        · simp only [Option.some.injEq, Except.ok.injEq] at h
          rw [← h]
          rfl
        · cases h
      · cases h
    | null =>
      simp only [Option.some.injEq, Except.ok.injEq] at h
      rw [← h]
      rfl
    | bool b =>
      simp only [Option.some.injEq, Except.ok.injEq] at h
      rw [← h]
      rfl
    | num x =>
      simp only [Option.some.injEq, Except.ok.injEq] at h
      rw [← h]
      rfl
    | str s =>
      simp only [Option.some.injEq, Except.ok.injEq] at h
      rw [← h]
      rfl

theorem rangeErrors_response (ff : Float64 → String) (tr : Traversal) (r r1 : ErrorResponse)
    (l : Entries) (h : rangeErrors ff tr r l = .ok (.errorResponse r1)) : r1 = r := by
  induction l with
  | nil =>
    simp only [rangeErrors, Except.ok.injEq, GoError.errorResponse.injEq] at h
    exact h.symm
  | cons x xs ih =>
    obtain ⟨k, v⟩ := x
    unfold rangeErrors at h
    cases hc : classifyEntry ff tr k v with
    | none =>
      rw [hc] at h
      exact ih h
    | some res =>
      rw [hc] at h
      simp only at h
      rw [h] at hc
      have := classifyEntry_not_response ff tr k v _ hc
      simp [GoError.isResponse] at this

theorem findFirstError_response (ff : Float64 → String) (tr : Traversal)
    (r r1 : ErrorResponse) (h : findFirstError ff tr r = .ok (.errorResponse r1)) : r1 = r := by
  obtain ⟨e⟩ := r
  cases e with
  | obj rr => exact rangeErrors_response ff tr _ r1 _ h
  | _ =>
    simp only [findFirstError, Except.ok.injEq, GoError.errorResponse.injEq] at h
    exact h.symm

theorem perm_eq_of_short {α : Type} (l1 l2 : List α) (hp : l1.Perm l2)
    (hl : l2.length ≤ 1) : l1 = l2 :=
  perm_eq_of_length_le_one (fun _ => l1) l2 hp hl

theorem find_head_filter {α : Type} (p : α → Bool) (l : List α) :
    l.find? p = (l.filter p).head? := by
  induction l with
  | nil => rfl
  | cons a as ih =>
    cases h : p a
    · rw [List.find?_cons, List.filter_cons, h]
      exact ih
    · rw [List.find?_cons, List.filter_cons, h]
      rfl

theorem find_perm {α : Type} (p : α → Bool) (l1 l2 : List α) (hp : l1.Perm l2)
    (hl : atMostOne (l2.filter p) = true) : l1.find? p = l2.find? p := by
  rw [find_head_filter, find_head_filter,
    perm_eq_of_short _ _ (hp.filter p) (by simpa [atMostOne] using hl)]

theorem any_perm {α : Type} (p : α → Bool) (l1 l2 : List α) (hp : l1.Perm l2) :
    l1.any p = l2.any p := by
  rw [Bool.eq_iff_iff, List.any_eq_true, List.any_eq_true]
  exact ⟨fun ⟨x, hx, h⟩ => ⟨x, hp.subset hx, h⟩, fun ⟨x, hx, h⟩ => ⟨x, hp.symm.subset hx, h⟩⟩

theorem firstReason_none (tr : Traversal) (hv : tr.Valid) (e : List JSON) :
    firstReason tr e = none ↔ e.any JSON.isNonEmptyObject = false := by
  induction e with
  | nil => simp [firstReason]
  | cons x xs ih =>
    cases x with
    | obj ex =>
      cases ex with
      | nil =>
        have h0 : tr.reason [] = [] := List.perm_nil.mp (hv.2.2.2.2.1 [])
        simp [firstReason, h0, ih, JSON.isNonEmptyObject]
      | cons y ys =>
        have hne : tr.reason (y :: ys) ≠ [] := by
          intro h
          have := (hv.2.2.2.2.1 (y :: ys)).length_eq
          rw [h] at this
          simp at this
        cases hr : tr.reason (y :: ys) with
        | nil => exact absurd hr hne
        | cons z zs => simp [firstReason, hr, JSON.isNonEmptyObject]
    | _ => simp [firstReason, ih, JSON.isNonEmptyObject]

theorem checkoutError_cons_usable (tr : Traversal) (hv : tr.Valid) (kk : String) (vvv : JSON)
    (rest : Entries) (h : usableDiscountCode kk vvv = true) :
    checkoutError tr ((kk, vvv) :: rest) = checkoutError tr [(kk, vvv)] ∧
    checkoutError tr [(kk, vvv)] ≠ none := by
  simp only [usableDiscountCode, Bool.and_eq_true, decide_eq_true_eq] at h
  obtain ⟨hk, he⟩ := h
  cases vvv with
  | arr e =>
    simp only at he
    have hne : firstReason tr e ≠ none := by
      intro hn
      rw [(firstReason_none tr hv e).mp hn] at he
      cases he
    cases hr : firstReason tr e with
    | none => exact absurd hr hne
    | some reason => simp [checkoutError, hk, hr]
  | _ => cases he

theorem checkoutError_cons_unusable (tr : Traversal) (hv : tr.Valid) (kk : String) (vvv : JSON)
    (rest : Entries) (h : usableDiscountCode kk vvv = false) :
    checkoutError tr ((kk, vvv) :: rest) = checkoutError tr rest := by
  by_cases hk : kk = "discount_code"
  · cases vvv with
    | arr e =>
      have he : e.any JSON.isNonEmptyObject = false := by
        simpa [usableDiscountCode, hk] using h
      simp only [checkoutError, hk, if_true, (firstReason_none tr hv e).mpr he]
    | _ => simp only [checkoutError, hk, if_true]
  · simp only [checkoutError, hk, if_false]

theorem checkoutError_find (tr : Traversal) (hv : tr.Valid) (l : Entries) :
    checkoutError tr l =
      match l.find? (fun e => usableDiscountCode e.1 e.2) with
      | some e => checkoutError tr [e]
      | none => none := by
  induction l with
  | nil => rfl
  | cons x xs ih =>
    obtain ⟨kk, vvv⟩ := x
    cases h : usableDiscountCode kk vvv
    · rw [checkoutError_cons_unusable tr hv kk vvv xs h, List.find?_cons]
      simp only [h]
      exact ih
    · rw [(checkoutError_cons_usable tr hv kk vvv xs h).1, List.find?_cons]
      simp only [h]

theorem checkoutError_none (tr : Traversal) (hv : tr.Valid) (l : Entries) :
    checkoutError tr l = none ↔ l.any (fun e => usableDiscountCode e.1 e.2) = false := by
  induction l with
  | nil => simp [checkoutError]
  | cons x xs ih =>
    obtain ⟨kk, vvv⟩ := x
    cases h : usableDiscountCode kk vvv
    · rw [checkoutError_cons_unusable tr hv kk vvv xs h, List.any_cons, h, Bool.false_or]
      exact ih
    · rw [(checkoutError_cons_usable tr hv kk vvv xs h).1, List.any_cons, h, Bool.true_or]
      simp [(checkoutError_cons_usable tr hv kk vvv xs h).2]

theorem addressError_find (k : String) (l : Entries) :
    addressError k l =
      match l.find? (fun e => e.2.isArray) with
      | some e => addressError k [e]
      | none => none := by
  induction l with
  | nil => rfl
  | cons x xs ih =>
    obtain ⟨kk, vvv⟩ := x
    cases vvv with
    | arr e => simp [addressError, List.find?_cons, JSON.isArray]
    | _ => simpa [addressError, List.find?_cons, JSON.isArray] using ih

theorem addressError_none (k : String) (l : Entries) :
    addressError k l = none ↔ l.any (fun e => e.2.isArray) = false := by
  induction l with
  | nil => simp [addressError]
  | cons x xs ih =>
    obtain ⟨kk, vvv⟩ := x
    cases vvv with
    | arr e => simp [addressError, JSON.isArray]
    | _ => simpa [addressError, JSON.isArray] using ih

theorem perm_ne_nil {α : Type} (f : List α → List α) (l : List α) (hf : (f l).Perm l)
    (h : l ≠ []) : f l ≠ [] := by
  intro h0
  rw [h0] at hf
  exact h (List.nil_perm.mp hf)

theorem classifyEntry_none (ff : Float64 → String) (tr : Traversal) (hv : tr.Valid)
    (k : String) (v : JSON) :
    classifyEntry ff tr k v = none ↔ hasSkippedShape k v = true := by
  unfold classifyEntry hasSkippedShape
  by_cases he : k = "email"
  · simp [he]
  · rw [if_neg he, if_neg he]
    cases v with
    | obj vv =>
      by_cases h1 : k = "line_items"
      · simp only [h1, if_true]
        cases vv with
        | nil =>
          have h0 : tr.lineItems [] = [] := List.perm_nil.mp (hv.2.1 [])
          simp [h0]
        | cons x xs =>
          have hne := perm_ne_nil tr.lineItems (x :: xs) (hv.2.1 _) (by simp)
          cases hl : tr.lineItems (x :: xs) with
          | nil => exact absurd hl hne
          | cons y ys => simp
      · by_cases h2 : k = "checkout"
        · simp only [if_neg h1, if_pos h2, Option.map_eq_none', Bool.not_eq_true']
          rw [checkoutError_none tr hv, any_perm _ _ _ (hv.2.2.2.1 vv)]
        · by_cases h3 : k = "shipping_address" ∨ k = "billing_address"
          · simp only [if_neg h1, if_neg h2, if_pos h3, Option.map_eq_none', Bool.not_eq_true']
            rw [addressError_none, any_perm _ _ _ (hv.2.2.2.2.2 vv)]
          · simp only [if_neg h1, if_neg h2, if_neg h3]
    | arr xs =>
      by_cases h1 : k = "discount_code"
      · simp only [if_pos h1]
        cases xs with
        | nil => simp
        | cons y ys => cases y <;> simp
      · simp only [if_neg h1]
    | null => simp
    | bool b => simp
    | num x => simp
    | str s => simp

theorem classifyEntry_produces (ff : Float64 → String) (tr : Traversal) (hv : tr.Valid)
    (k : String) (v : JSON) (h : hasSkippedShape k v = false) :
    ∃ res, classifyEntry ff tr k v = some res := by
  cases hc : classifyEntry ff tr k v with
  | some res => exact ⟨res, rfl⟩
  | none =>
    rw [(classifyEntry_none ff tr hv k v).mp hc] at h
    cases h

theorem rangeErrors_find (ff : Float64 → String) (tr : Traversal) (hv : tr.Valid)
    (r : ErrorResponse) (l : Entries) :
    rangeErrors ff tr r l =
      match firstNotSkipped l with
      | some (k, v) => rangeErrors ff tr r [(k, v)]
      | none => .ok (.errorResponse r) := by
  induction l with
  | nil => rfl
  | cons x xs ih =>
    obtain ⟨k, v⟩ := x
    cases h : hasSkippedShape k v
    · obtain ⟨res, hres⟩ := classifyEntry_produces ff tr hv k v h
      simp only [firstNotSkipped, List.find?_cons, h, Bool.not_false, rangeErrors, hres]
    · have hn := (classifyEntry_none ff tr hv k v).mpr h
      simp only [firstNotSkipped, List.find?_cons, h, Bool.not_true] at ih ⊢
      rw [rangeErrors, hn]
      exact ih

theorem rangeErrors_single (ff : Float64 → String) (tr : Traversal) (hv : tr.Valid)
    (r r1 : ErrorResponse) (k : String) (v : JSON) (h : hasSkippedShape k v = false) :
    rangeErrors ff tr r [(k, v)] = rangeErrors ff tr r1 [(k, v)] := by
  obtain ⟨res, hres⟩ := classifyEntry_produces ff tr hv k v h
  simp only [rangeErrors, hres]

theorem firstNotSkipped_spec (l : Entries) (k : String) (v : JSON)
    (h : firstNotSkipped l = some (k, v)) : hasSkippedShape k v = false ∧ (k, v) ∈ l := by
  unfold firstNotSkipped at h
  have h1 := List.find?_some h
  have h2 := List.mem_of_find?_eq_some h
  simp only [Bool.not_eq_true'] at h1
  exact ⟨h1, h2⟩

theorem findFirstError_after_skipped (ff : Float64 → String) (tr : Traversal) (hv : tr.Valid)
    (rr pre post : Entries) (k : String) (v : JSON) (res : Except Panic GoError)
    (htop : tr.top rr = pre ++ (k, v) :: post)
    (hpre : pre.all (fun e => hasSkippedShape e.1 e.2) = true)
    (hres : classifyEntry ff tr k v = some res) :
    findFirstError ff tr ⟨.obj rr⟩ = res := by
  show rangeErrors ff tr ⟨.obj rr⟩ (tr.top rr) = res
  rw [htop, rangeErrors_skip ff tr _ pre _ (fun e he =>
    (classifyEntry_none ff tr hv e.1 e.2).mpr (List.all_eq_true.mp hpre e he))]
  exact rangeErrors_first ff tr _ k v post res hres

/-- C25: for every envelope whose errors value is a mapping and every traversal order,
`findFirstError` returns the result of the first key in that order that produces a result, which
is what it returns for the envelope that holds that key alone, and the envelope itself when no
key produces a result. The keys that produce nothing are those the specification lists, `email`
being looked at first: such a key alone gives back the envelope, every other key alone gives a
result that is not an envelope. After keys that produce nothing, `email` gives the email error,
a scalar under another key the error naming the key, a `discount_code` array that starts with an
object the discount error with the value under `message`, and an address with one field that
holds an array the address error of `toAddressError`. -/
theorem findFirstError_first_match (ff : Float64 → String) (tr : Traversal) (rr : Entries)
    (hv : tr.Valid) :
    findFirstError ff tr ⟨.obj rr⟩ =
      (match firstNotSkipped (tr.top rr) with
        | some (k, v) => findFirstError ff tr ⟨.obj [(k, v)]⟩
        | none => .ok (.errorResponse ⟨.obj rr⟩)) ∧
    (∀ k v, hasSkippedShape k v = true →
      findFirstError ff tr ⟨.obj [(k, v)]⟩ = .ok (.errorResponse ⟨.obj [(k, v)]⟩)) ∧
    (∀ k v r1, hasSkippedShape k v = false →
      findFirstError ff tr ⟨.obj [(k, v)]⟩ ≠ .ok (.errorResponse r1)) ∧
    (∀ pre v post, tr.top rr = pre ++ ("email", v) :: post →
      pre.all (fun e => hasSkippedShape e.1 e.2) = true →
      findFirstError ff tr ⟨.obj rr⟩ = .ok (.emailError ⟨"is invalid"⟩)) ∧
    (∀ pre k v post, tr.top rr = pre ++ (k, v) :: post →
      pre.all (fun e => hasSkippedShape e.1 e.2) = true → k ≠ "email" → v.isScalar = true →
      findFirstError ff tr ⟨.obj rr⟩ = .ok (.errorString
        ("unknown shopify error key " ++ k ++ ", " ++ fmtValue ff v ++ ", " ++ typeName v))) ∧
    (∀ pre vvvv rest post,
      tr.top rr = pre ++ ("discount_code", .arr (.obj vvvv :: rest)) :: post →
      pre.all (fun e => hasSkippedShape e.1 e.2) = true →
      findFirstError ff tr ⟨.obj rr⟩
        = .ok (.discountCodeError ⟨(vvvv.lookup "message").getD .null⟩)) ∧
    (∀ pre k kk e post, k = "shipping_address" ∨ k = "billing_address" →
      tr.top rr = pre ++ (k, .obj [(kk, .arr e)]) :: post →
      pre.all (fun e => hasSkippedShape e.1 e.2) = true →
      findFirstError ff tr ⟨.obj rr⟩ = .ok (.addressError (toAddressError k kk e))) := by
  refine ⟨?_, ?_, ?_, ?_, ?_, ?_, ?_⟩
  · show rangeErrors ff tr ⟨.obj rr⟩ (tr.top rr) = _
    rw [rangeErrors_find ff tr hv]
    cases hf : firstNotSkipped (tr.top rr) with
    | none => rfl
    | some e =>
      obtain ⟨k, v⟩ := e
      have hp := (firstNotSkipped_spec _ k v hf).1
      show _ = rangeErrors ff tr ⟨.obj [(k, v)]⟩ (tr.top [(k, v)])
      rw [hv.top_singleton (k, v)]
      exact rangeErrors_single ff tr hv _ _ k v hp
  · intro k v h
    show rangeErrors ff tr ⟨.obj [(k, v)]⟩ (tr.top [(k, v)]) = _
    rw [hv.top_singleton (k, v), rangeErrors, (classifyEntry_none ff tr hv k v).mpr h]
    rfl
  · intro k v r1 h hr
    have hr1 : rangeErrors ff tr ⟨.obj [(k, v)]⟩ (tr.top [(k, v)]) = .ok (.errorResponse r1) :=
      hr
    obtain ⟨res, hres⟩ := classifyEntry_produces ff tr hv k v h
    rw [hv.top_singleton (k, v), rangeErrors, hres] at hr1
    simp only at hr1
    rw [hr1] at hres
    have := classifyEntry_not_response ff tr k v _ hres
    simp [GoError.isResponse] at this
  · intro pre v post htop hpre
    exact findFirstError_after_skipped ff tr hv rr pre post "email" v _ htop hpre
      (by simp [classifyEntry])
  · intro pre k v post htop hpre hk hs
    refine findFirstError_after_skipped ff tr hv rr pre post k v _ htop hpre ?_
    cases v with
    | obj vv => cases hs
    | arr xs => cases hs
    | _ => simp [classifyEntry, hk]
  · intro pre vvvv rest post htop hpre
    exact findFirstError_after_skipped ff tr hv rr pre post "discount_code" _ _ htop hpre
      (by simp [classifyEntry])
  · intro pre k kk e post hk htop hpre
    refine findFirstError_after_skipped ff tr hv rr pre post k _ _ htop hpre ?_
    have ha := hv.address_singleton (kk, JSON.arr e)
    rcases hk with rfl | rfl <;> simp [classifyEntry, ha, addressError]

/-- The first-match statement at the mapping with the keys `email`, `shipping_address` and
`title`, visited in reverse order: `title` produces nothing and is skipped, `shipping_address`
is the first key that produces a result, and `email` is not reached. -/
theorem findFirstError_first_match_witness :
    findFirstError noFloats Traversal.reversed ⟨.obj threeKeys⟩ =
      findFirstError noFloats Traversal.reversed
        ⟨.obj [("shipping_address", .obj [("country", .arr [notSupportedIssue])])]⟩ ∧
    findFirstError noFloats Traversal.reversed ⟨.obj threeKeys⟩ =
      .ok (.addressError (some
        { Key := "shipping_address", Field := "country", Code := "not_supported",
          Message := "is not supported" })) ∧
    findFirstError noFloats Traversal.reversed ⟨.obj [("title", .arr [.str "something is wrong"])]⟩
      = .ok (.errorResponse ⟨.obj [("title", .arr [.str "something is wrong"])]⟩) :=
  ⟨(findFirstError_first_match noFloats Traversal.reversed threeKeys
      Traversal.reversed_valid).1,
   (findFirstError_first_match noFloats Traversal.reversed threeKeys
      Traversal.reversed_valid).2.2.2.2.2.2 [("title", .arr [.str "something is wrong"])]
      "shipping_address" "country" [notSupportedIssue] [("email", .arr [.str "is invalid"])]
      (Or.inl rfl) rfl rfl,
   (findFirstError_first_match noFloats Traversal.reversed threeKeys
      Traversal.reversed_valid).2.1 "title" (.arr [.str "something is wrong"]) rfl⟩

theorem checkoutError_discount_code (tr : Traversal) (hv : tr.Valid) (f : String) (r : JSON)
    (rest : List JSON) (l : Entries)
    (hmem : ("discount_code", JSON.arr (.obj [(f, r)] :: rest)) ∈ l)
    (huniq : ∀ vvv, ("discount_code", vvv) ∈ l → vvv = JSON.arr (.obj [(f, r)] :: rest)) :
    checkoutError tr l = some (.discountCodeError ⟨r⟩) := by
  have hreason : tr.reason [(f, r)] = [(f, r)] := List.perm_singleton.mp (hv.2.2.2.2.1 _)
  induction l with
  | nil => cases hmem
  | cons x xs ih =>
    obtain ⟨kk, vvv⟩ := x
    unfold checkoutError
    by_cases hk : kk = "discount_code"
    · subst hk
      have hv1 := huniq vvv (List.mem_cons_self _ _)
      subst hv1
      simp [firstReason, hreason]
    · rw [if_neg hk]
      apply ih
      · rcases List.mem_cons.mp hmem with h1 | h1
        · exact absurd (congrArg Prod.fst h1).symm hk
        · exact h1
      · intro w hw
        exact huniq w (List.mem_cons_of_mem _ hw)

/-- C27: for every envelope whose only top-level key is `checkout`, holding an object whose key
`discount_code` holds a non-empty array with a one-field object `f ↦ r` first,
`findFirstError` returns the `DiscountCodeError` whose reason is `r`, whatever other keys the
`checkout` object has; a `checkout` object without the key `discount_code` produces no error of
its own and the envelope is returned. -/
theorem findFirstError_checkout (ff : Float64 → String) (tr : Traversal) (vv : Entries)
    (f : String) (r : JSON) (rest : List JSON) (hv : tr.Valid)
    (hmem : ("discount_code", JSON.arr (.obj [(f, r)] :: rest)) ∈ vv)
    (huniq : ∀ vvv, ("discount_code", vvv) ∈ vv → vvv = JSON.arr (.obj [(f, r)] :: rest)) :
    findFirstError ff tr ⟨.obj [("checkout", .obj vv)]⟩ = .ok (.discountCodeError ⟨r⟩) ∧
    ∀ other : Entries, (∀ kk vvv, (kk, vvv) ∈ other → kk ≠ "discount_code") →
      findFirstError ff tr ⟨.obj [("checkout", .obj other)]⟩
        = .ok (.errorResponse ⟨.obj [("checkout", .obj other)]⟩) := by
  constructor
  · have htop := hv.top_singleton ("checkout", JSON.obj vv)
    have hc := checkoutError_discount_code tr hv f r rest (tr.checkout vv)
      ((hv.2.2.2.1 vv).symm.subset hmem)
      (fun w hw => huniq w ((hv.2.2.2.1 vv).subset hw))
    simp [findFirstError, htop, rangeErrors, classifyEntry, hc]
  · intro other ho
    have htop := hv.top_singleton ("checkout", JSON.obj other)
    have hc : checkoutError tr (tr.checkout other) = none :=
      checkoutError_unusable tr _ (fun kk vvv hm hk =>
        absurd hk (ho kk vvv ((hv.2.2.2.1 other).subset hm)))
    simp [findFirstError, htop, rangeErrors, classifyEntry, hc]

/-- The checkout statement at a `checkout` object with the keys `token` and `discount_code`,
visited in reverse order. -/
theorem findFirstError_checkout_witness :
    findFirstError noFloats Traversal.reversed ⟨.obj [("checkout", .obj checkoutEntries)]⟩
      = .ok (.discountCodeError ⟨.str "expired"⟩) ∧
    ∀ other : Entries, (∀ kk vvv, (kk, vvv) ∈ other → kk ≠ "discount_code") →
      findFirstError noFloats Traversal.reversed ⟨.obj [("checkout", .obj other)]⟩
        = .ok (.errorResponse ⟨.obj [("checkout", .obj other)]⟩) :=
  findFirstError_checkout noFloats Traversal.reversed checkoutEntries "reason"
    (.str "expired") [] Traversal.reversed_valid
    (List.mem_cons_of_mem _ (List.mem_cons_self _ _))
    (by
      intro vvv h
      simp only [checkoutEntries, List.mem_cons, Prod.mk.injEq, List.mem_singleton,
        List.not_mem_nil, or_false] at h
      rcases h with ⟨h1, _⟩ | ⟨_, h2⟩
      · exact absurd h1 (by decide)
      · exact h2)

theorem atMostOne_perm {α : Type} (f : List α → List α) (l : List α)
    (hf : (f l).Perm l) (hl : atMostOne l = true) : f l = l :=
  perm_eq_of_length_le_one f l hf (by simpa [atMostOne] using hl)

theorem lineItemError_few (tr : Traversal) (hv : tr.Valid) (pos : String) (vvv : JSON)
    (h : objectFew vvv = true) :
    lineItemError tr pos vvv = lineItemError Traversal.listed pos vvv := by
  cases vvv with
  | obj fs =>
    simp only [objectFew, atMostOne, decide_eq_true_eq] at h
    have hl : (fs.map (fun e => (e.1, unmarshalSlice e.2))).length ≤ 1 := by
      rw [List.length_map]
      exact h
    have he := perm_eq_of_length_le_one tr.field _ (hv.2.2.1 _) hl
    simp only [lineItemError, unmarshalLineItemErrorField, he, Traversal.listed]
  | _ => rfl

theorem firstReason_one (tr : Traversal) (hv : tr.Valid) (e : List JSON)
    (h : reasonFew (.arr e) = true) : firstReason tr e = firstReason Traversal.listed e := by
  induction e with
  | nil => rfl
  | cons x xs ih =>
    cases x with
    | obj ex =>
      cases ex with
      | nil =>
        have h0 : tr.reason [] = [] := List.perm_nil.mp (hv.2.2.2.2.1 [])
        have h1 : reasonFew (.arr xs) = true := by
          simpa [reasonFew, List.find?_cons, JSON.isNonEmptyObject] using h
        simp only [firstReason, h0, Traversal.listed, ih h1]
      | cons y ys =>
        have h1 : atMostOne (y :: ys) = true := by
          simpa [reasonFew, List.find?_cons, JSON.isNonEmptyObject] using h
        have he := atMostOne_perm tr.reason (y :: ys) (hv.2.2.2.2.1 _) h1
        simp only [firstReason, he, Traversal.listed]
    | null =>
      have h1 : reasonFew (.arr xs) = true := by
        simpa [reasonFew, List.find?_cons, JSON.isNonEmptyObject] using h
      simpa [firstReason] using ih h1
    | bool b =>
      have h1 : reasonFew (.arr xs) = true := by
        simpa [reasonFew, List.find?_cons, JSON.isNonEmptyObject] using h
      simpa [firstReason] using ih h1
    | num n =>
      have h1 : reasonFew (.arr xs) = true := by
        simpa [reasonFew, List.find?_cons, JSON.isNonEmptyObject] using h
      simpa [firstReason] using ih h1
    | str s =>
      have h1 : reasonFew (.arr xs) = true := by
        simpa [reasonFew, List.find?_cons, JSON.isNonEmptyObject] using h
      simpa [firstReason] using ih h1
    | arr a =>
      have h1 : reasonFew (.arr xs) = true := by
        simpa [reasonFew, List.find?_cons, JSON.isNonEmptyObject] using h
      simpa [firstReason] using ih h1

theorem checkoutError_single (tr : Traversal) (hv : tr.Valid) (kk : String) (vvv : JSON)
    (h : (if kk = "discount_code" then reasonFew vvv else true) = true) :
    checkoutError tr [(kk, vvv)] = checkoutError Traversal.listed [(kk, vvv)] := by
  by_cases hk : kk = "discount_code"
  · rw [if_pos hk] at h
    cases vvv with
    | arr e => simp only [checkoutError, hk, if_true, firstReason_one tr hv e h]
    | _ => simp only [checkoutError, hk, if_true]
  · simp only [checkoutError, hk, if_false]

theorem checkoutError_one (tr : Traversal) (hv : tr.Valid) (vv : Entries)
    (h1 : atMostOne (vv.filter (fun e => usableDiscountCode e.1 e.2)) = true)
    (h2 : vv.all (fun e => if e.1 = "discount_code" then reasonFew e.2 else true) = true) :
    checkoutError tr (tr.checkout vv) = checkoutError Traversal.listed vv := by
  rw [checkoutError_find tr hv, checkoutError_find Traversal.listed Traversal.listed_valid,
    find_perm _ _ _ (hv.2.2.2.1 vv) h1]
  cases hf : vv.find? (fun e => usableDiscountCode e.1 e.2) with
  | none => rfl
  | some e =>
    obtain ⟨kk, vvv⟩ := e
    exact checkoutError_single tr hv kk vvv
      (List.all_eq_true.mp h2 (kk, vvv) (List.mem_of_find?_eq_some hf))

theorem addressError_one (tr : Traversal) (hv : tr.Valid) (k : String) (vv : Entries)
    (h1 : atMostOne (vv.filter (fun e => e.2.isArray)) = true) :
    addressError k (tr.address vv) = addressError k vv := by
  rw [addressError_find, addressError_find k vv, find_perm _ _ _ (hv.2.2.2.2.2 vv) h1]

theorem classifyEntry_one (ff : Float64 → String) (tr : Traversal) (hv : tr.Valid)
    (k : String) (v : JSON) (h : oneResultUnder k v = true) :
    classifyEntry ff tr k v = classifyEntry ff Traversal.listed k v := by
  cases v with
  | obj vv =>
    unfold classifyEntry
    by_cases he : k = "email"
    · rw [if_pos he, if_pos he]
    · rw [if_neg he, if_neg he]
      simp only [oneResultUnder, if_neg he] at h
      by_cases h1 : k = "line_items"
      · simp only [h1, if_true, Bool.and_eq_true] at h ⊢
        have hl := atMostOne_perm tr.lineItems vv (hv.2.1 vv) h.1
        rw [hl]
        cases vv with
        | nil => rfl
        | cons x rest =>
          obtain ⟨pos, vvv⟩ := x
          have h2 := h.2
          simp only [List.all_cons, Bool.and_eq_true] at h2
          simp only [lineItemError_few tr hv pos vvv h2.1]
          rfl
      · by_cases h2 : k = "checkout"
        · simp only [if_neg h1, if_pos h2, Bool.and_eq_true] at h ⊢
          rw [checkoutError_one tr hv vv h.1 h.2]
          rfl
        · by_cases h3 : k = "shipping_address" ∨ k = "billing_address"
          · simp only [if_neg h1, if_neg h2, if_pos h3] at h ⊢
            rw [addressError_one tr hv k vv h]
            rfl
          · simp only [if_neg h1, if_neg h2, if_neg h3]
  | _ => rfl

theorem findFirstError_one (ff : Float64 → String) (tr : Traversal) (hv : tr.Valid)
    (r : ErrorResponse) (h : r.oneResult = true) :
    findFirstError ff tr r = findFirstError ff Traversal.listed r := by
  obtain ⟨e⟩ := r
  cases e with
  | obj rr =>
    simp only [ErrorResponse.oneResult, Bool.and_eq_true] at h
    show rangeErrors ff tr _ (tr.top rr) = rangeErrors ff Traversal.listed _ rr
    rw [rangeErrors_find ff tr hv, rangeErrors_find ff Traversal.listed Traversal.listed_valid]
    have hf : firstNotSkipped (tr.top rr) = firstNotSkipped rr :=
      find_perm _ _ _ (hv.1 rr) h.1
    rw [hf]
    cases hp : firstNotSkipped rr with
    | none => rfl
    | some e =>
      obtain ⟨k, v⟩ := e
      have hmem := (firstNotSkipped_spec rr k v hp).2
      have hone := List.all_eq_true.mp h.2 (k, v) hmem
      simp only [rangeErrors, classifyEntry_one ff tr hv k v hone]
  | _ => rfl

/-- C26 (as amended): for every envelope in which every mapping the classifier ranges over
holds at most one entry that produces a result, whatever the number of entries that produce
nothing, two applications of `findFirstError` yield the same error, whatever order each of them
visits the mappings in. `Error()` of that error gives the same message in both, whatever order
its own `range` takes, when the error is not the envelope or the `errors` mapping has at most
one key. An envelope returned as the error is the envelope that was passed in, unmodified. -/
theorem findFirstError_deterministic (ff : Float64 → String) (tr1 tr2 : Traversal)
    (ord1 ord2 : Entries → Entries) (r : ErrorResponse) (hv1 : tr1.Valid) (hv2 : tr2.Valid)
    (ho1 : ∀ l, (ord1 l).Perm l) (ho2 : ∀ l, (ord2 l).Perm l)
    (h : r.oneResult = true) :
    findFirstError ff tr1 r = findFirstError ff tr2 r ∧
    (∀ e, findFirstError ff tr1 r = .ok e → e.isResponse = false ∨ r.oneKey = true →
      GoError.Error ff ord1 e = GoError.Error ff ord2 e) ∧
    (∀ r1, findFirstError ff tr1 r = .ok (.errorResponse r1) → r1 = r) := by
  refine ⟨?_, ?_, fun r1 h1 => findFirstError_response ff tr1 r r1 h1⟩
  · rw [findFirstError_one ff tr1 hv1 r h, findFirstError_one ff tr2 hv2 r h]
  · intro e he hk
    cases e with
    | errorResponse r1 =>
      have hr := findFirstError_response ff tr1 r r1 he
      subst hr
      rcases hk with hk | hk
      · cases hk
      · obtain ⟨errs⟩ := r1
        cases errs with
        | obj rr =>
          simp only [ErrorResponse.oneKey] at hk
          have h1 := atMostOne_perm ord1 rr (ho1 rr) hk
          have h2 := atMostOne_perm ord2 rr (ho2 rr) hk
          simp only [GoError.Error, ErrorResponse.Error, h1, h2]
        | _ => rfl
    | addressError a => cases a <;> rfl
    | _ => rfl

/-- The determinism statement at the envelope with an array under `title` and a `checkout`
object with the keys `token` and `discount_code`, visited once in listed and once in reverse
order: both applications return the discount error. -/
theorem findFirstError_deterministic_witness :
    (findFirstError noFloats Traversal.listed titleAndCheckout
      = findFirstError noFloats Traversal.reversed titleAndCheckout ∧
    (∀ e, findFirstError noFloats Traversal.listed titleAndCheckout = .ok e →
      e.isResponse = false ∨ titleAndCheckout.oneKey = true →
      GoError.Error noFloats id e = GoError.Error noFloats List.reverse e) ∧
    (∀ r1, findFirstError noFloats Traversal.listed titleAndCheckout
        = .ok (.errorResponse r1) → r1 = titleAndCheckout)) ∧
    findFirstError noFloats Traversal.reversed titleAndCheckout
      = .ok (.discountCodeError ⟨.str "expired"⟩) :=
  ⟨findFirstError_deterministic noFloats Traversal.listed Traversal.reversed id List.reverse
    titleAndCheckout Traversal.listed_valid Traversal.reversed_valid
    (fun l => List.Perm.refl l) (fun l => List.reverse_perm l) rfl, rfl⟩

/-- C26 (as stated) fails: on the envelope with an invalid shipping address and an `email` key,
where two keys produce a result, the application that visits `shipping_address` first returns an
`AddressError` and the application that visits `email` first returns an `EmailError`. On the
envelope with the keys `title` and `name`, which both produce nothing, every application
returns the envelope, and `Error()` gives the message of the key its own `range` visits
first. -/
theorem findFirstError_deterministic_counterexample :
    Traversal.listed.Valid ∧ Traversal.reversed.Valid ∧
    findFirstError noFloats Traversal.listed addressAndEmail
      = .ok (.addressError (some
          { Key := "shipping_address", Field := "country", Code := "not_supported",
            Message := "is not supported" })) ∧
    findFirstError noFloats Traversal.reversed addressAndEmail
      = .ok (.emailError { Message := "is invalid" }) ∧
    findFirstError noFloats Traversal.listed addressAndEmail
      ≠ findFirstError noFloats Traversal.reversed addressAndEmail ∧
    addressAndEmail.oneResult = false ∧
    findFirstError noFloats Traversal.listed titleAndName = .ok (.errorResponse titleAndName) ∧
    findFirstError noFloats Traversal.reversed titleAndName
      = .ok (.errorResponse titleAndName) ∧
    GoError.Error noFloats id (.errorResponse titleAndName)
      = .ok "title: [something is wrong]" ∧
    GoError.Error noFloats List.reverse (.errorResponse titleAndName)
      = .ok "name: [is missing]" := by
  refine ⟨Traversal.listed_valid, Traversal.reversed_valid, rfl, rfl, ?_, rfl, rfl, rfl, rfl,
    rfl⟩
  intro h
  have h1 : findFirstError noFloats Traversal.listed addressAndEmail
      = .ok (.addressError (some
          { Key := "shipping_address", Field := "country", Code := "not_supported",
            Message := "is not supported" })) := rfl
  have h2 : findFirstError noFloats Traversal.reversed addressAndEmail
      = .ok (.emailError { Message := "is invalid" }) := rfl
  rw [h1, h2] at h
  cases h

/-! ## `CheckoutRequest.MarshalJSON` and the enum codecs -/

/-- C28 (the code at the failing input): `MarshalJSON` on a request that wraps a checkout with
an applied discount leaves the caller with a checkout whose `AppliedDiscount` is nil, since the
copy `cc := *c` shares the `*Checkout` with the receiver; at the discount `SAVE10` the output
is the encoding without `applied_discount` and the checkout of the caller differs from the one
before the call. -/
theorem MarshalJSON_clears_applied_discount :
    (∀ (δ κ : Type) (marshal : CheckoutRequest δ κ → Except String String) (d : δ) (other : κ),
      (CheckoutRequest.MarshalJSON marshal (some ⟨some ⟨some d, other⟩⟩)).2
        = some ⟨some ⟨none, other⟩⟩) ∧
    CheckoutRequest.MarshalJSON sampleMarshal (some ⟨some ⟨some "SAVE10", "fields"⟩⟩)
      = (.ok (some "checkout fields"), some ⟨some ⟨none, "fields"⟩⟩) ∧
    (CheckoutRequest.MarshalJSON sampleMarshal
        (some ⟨some ⟨some "SAVE10", "fields"⟩⟩)).2
      ≠ some ⟨some ⟨some "SAVE10", "fields"⟩⟩ := by
  refine ⟨fun _ _ _ _ _ => rfl, rfl, ?_⟩
  intro h
  have h1 : (CheckoutRequest.MarshalJSON sampleMarshal
      (some ⟨some ⟨some "SAVE10", "fields"⟩⟩)).2 = some ⟨some ⟨none, "fields"⟩⟩ := rfl
  rw [h1] at h
  simp at h

/-- C29 (the code at the failing inputs): the named constants start at 1 and the table of names
starts at index 0, so `String()` of `CollectionListSortOrderAlphaAsc` is `alpha-desc`, the name
of the next constant, and `String()` of `CollectionListSortOrderPriceDesc` indexes past the end
of the table and panics. -/
theorem CollectionListSortOrder_String_shifted :
    CollectionListSortOrder.String CollectionListSortOrderAlphaAsc = .ok "alpha-desc" ∧
    CollectionListSortOrder.String CollectionListSortOrderAlphaDesc = .ok "best-selling" ∧
    CollectionListSortOrder.String CollectionListSortOrderPriceAsc = .ok "price-desc" ∧
    CollectionListSortOrder.String CollectionListSortOrderPriceDesc = .error .indexOutOfRange ∧
    CollectionListSortOrder.MarshalText CollectionListSortOrderPriceDesc
      = .error .indexOutOfRange :=
  ⟨rfl, rfl, rfl, rfl, rfl⟩

theorem findEntry_not_mem (enum : String) (table : List String) (h : enum ∉ table) :
    ∀ i, findEntry enum i table = none := by
  induction table with
  | nil => intro i; rfl
  | cons x xs ih =>
    intro i
    have hx : enum ≠ x := fun h1 => h (h1 ▸ List.mem_cons_self _ _)
    rw [findEntry, if_neg hx]
    exact ih (fun h1 => h (List.mem_cons_of_mem _ h1)) (i + 1)

theorem findEntry_getElem (table : List String) (hn : table.Nodup) :
    ∀ (v i : Nat) (s : String), table[v]? = some s → findEntry s i table = some (i + v) := by
  induction table with
  | nil => intro v i s h; simp at h
  | cons x xs ih =>
    intro v i s h
    rw [List.nodup_cons] at hn
    cases v with
    | zero =>
      simp only [List.getElem?_cons_zero, Option.some.injEq] at h
      rw [findEntry, if_pos h.symm]
      rfl
    | succ n =>
      simp only [List.getElem?_cons_succ] at h
      have hmem : s ∈ xs := List.mem_iff_getElem?.mpr ⟨n, h⟩
      have hx : s ≠ x := fun h1 => hn.1 (h1 ▸ hmem)
      rw [findEntry, if_neg hx, ih hn.2 n (i + 1) s h]
      congr 1
      omega

/-- Text round trip of the shared codec over a table without repeated entries. -/
theorem unmarshalText_round_trip (table : List String) (what : String) (hn : table.Nodup)
    (v receiver : Nat) (hv : v < table.length) :
    ∃ text, indexTable table v = .ok text ∧
      unmarshalText table what text receiver = (v, none) := by
  have hget : table[v]? = some table[v] := List.getElem?_eq_getElem hv
  refine ⟨table[v], ?_, ?_⟩
  · simp only [indexTable, hget]
  · have hf := findEntry_getElem table hn v 0 table[v] hget
    simp only [unmarshalText, hf, Nat.zero_add]

theorem unmarshalText_unknown (table : List String) (what text : String) (receiver : Nat)
    (h : text ∉ table) :
    unmarshalText table what text receiver
      = (receiver, some ("unknown " ++ what ++ " " ++ text)) := by
  simp only [unmarshalText, findEntry_not_mem text table h 0]

/-- C30: for each of `BillingType`, `BillingStatus`, `TransactionStatus` and
`CollectionListSortOrder` and every value `v` that indexes its name table, `MarshalText`
returns a text and `UnmarshalText` of that text succeeds and sets the receiver to `v`; for every
text that is no entry of the table `UnmarshalText` returns the error `unknown ...` with the text
and leaves the receiver unchanged. -/
theorem enum_text_round_trip (text : String) (v receiver : Nat) :
    (v < billingTypes.length → ∃ t, BillingType.MarshalText v = .ok t ∧
      BillingType.UnmarshalText t receiver = (v, none)) ∧
    (v < billingStatuses.length → ∃ t, BillingStatus.MarshalText v = .ok t ∧
      BillingStatus.UnmarshalText t receiver = (v, none)) ∧
    (v < transactionStatuses.length → ∃ t, TransactionStatus.MarshalText v = .ok t ∧
      TransactionStatus.UnmarshalText t receiver = (v, none)) ∧
    (v < collectionListSortOrders.length → ∃ t, CollectionListSortOrder.MarshalText v = .ok t ∧
      CollectionListSortOrder.UnmarshalText t receiver = (v, none)) ∧
    (text ∉ billingTypes → BillingType.UnmarshalText text receiver
      = (receiver, some ("unknown billing type " ++ text))) ∧
    (text ∉ billingStatuses → BillingStatus.UnmarshalText text receiver
      = (receiver, some ("unknown billing status " ++ text))) ∧
    (text ∉ transactionStatuses → TransactionStatus.UnmarshalText text receiver
      = (receiver, some ("unknown transaction status " ++ text))) ∧
    (text ∉ collectionListSortOrders → CollectionListSortOrder.UnmarshalText text receiver
      = (receiver, some ("unknown collection list sort order " ++ text))) :=
  ⟨unmarshalText_round_trip billingTypes "billing type" (by decide) v receiver,
   unmarshalText_round_trip billingStatuses "billing status" (by decide) v receiver,
   unmarshalText_round_trip transactionStatuses "transaction status" (by decide) v receiver,
   unmarshalText_round_trip collectionListSortOrders "collection list sort order" (by decide) v
     receiver,
   unmarshalText_unknown billingTypes "billing type" text receiver,
   unmarshalText_unknown billingStatuses "billing status" text receiver,
   unmarshalText_unknown transactionStatuses "transaction status" text receiver,
   unmarshalText_unknown collectionListSortOrders "collection list sort order" text receiver⟩

/-- The round trip statement at the value 2 of each type, and the error statement at the text
`bogus` with the receiver 3. -/
theorem enum_text_round_trip_witness :
    (∃ t, BillingType.MarshalText 2 = .ok t ∧ BillingType.UnmarshalText t 3 = (2, none)) ∧
    (∃ t, BillingStatus.MarshalText 2 = .ok t ∧ BillingStatus.UnmarshalText t 3 = (2, none)) ∧
    (∃ t, TransactionStatus.MarshalText 2 = .ok t ∧
      TransactionStatus.UnmarshalText t 3 = (2, none)) ∧
    (∃ t, CollectionListSortOrder.MarshalText 2 = .ok t ∧
      CollectionListSortOrder.UnmarshalText t 3 = (2, none)) ∧
    BillingType.UnmarshalText "bogus" 3 = (3, some ("unknown billing type " ++ "bogus")) ∧
    BillingStatus.UnmarshalText "bogus" 3 = (3, some ("unknown billing status " ++ "bogus")) ∧
    TransactionStatus.UnmarshalText "bogus" 3
      = (3, some ("unknown transaction status " ++ "bogus")) ∧
    CollectionListSortOrder.UnmarshalText "bogus" 3
      = (3, some ("unknown collection list sort order " ++ "bogus")) :=
  ⟨(enum_text_round_trip "bogus" 2 3).1 (by decide),
   (enum_text_round_trip "bogus" 2 3).2.1 (by decide),
   (enum_text_round_trip "bogus" 2 3).2.2.1 (by decide),
   (enum_text_round_trip "bogus" 2 3).2.2.2.1 (by decide),
   (enum_text_round_trip "bogus" 2 3).2.2.2.2.1 (by decide),
   (enum_text_round_trip "bogus" 2 3).2.2.2.2.2.1 (by decide),
   (enum_text_round_trip "bogus" 2 3).2.2.2.2.2.2.1 (by decide),
   (enum_text_round_trip "bogus" 2 3).2.2.2.2.2.2.2 (by decide)⟩

end Shopify
